import Mathlib

/-!
# rsov/compiler/Wrapper.cpp

A shallow embedding of the wrapper synthesis of the RenderScript-over-Vulkan
compiler (`AddGAMetadata`, `AddBuffer`, `AddWrapper`, `DecorateGlobalBuffer`,
`AddHeader`, `FixGlobalStorageClass`, `AddGLComputeWrappers`) and theorems about it.

The module, the instructions and the builder of the `spirit` library are not part of
the source file; they are modelled from the specification (section 3, "Data model").
An `Instruction *` of the source is an `Instruction` here (its identifier and its
opcode with operands); an operand that refers to an instruction holds the identifier
of that instruction; a pointer that may be null is an `Option`.
-/

namespace Spirit

/-- Modelled from the spec: an operand that refers to an instruction through a pointer
that may be null (`IdRef` built from an `Instruction *`): the identifier of the
instruction ("Identity = allocated identifier"), or `none` for the null pointer. -/
abbrev IdRef := Option Nat

/-- Modelled from the spec: storage classes of pointer types and variables. -/
inductive StorageClass
  | UniformConstant | Input | Uniform | Output | Workgroup | CrossWorkgroup
  | Private | Function | Generic | PushConstant | AtomicCounter | Image | StorageBuffer
  deriving DecidableEq, Repr

/-- Modelled from the spec: the decoration kinds used by the wrapper synthesis. -/
inductive Decoration
  | Block | BufferBlock | ArrayStride | BuiltIn | Binding | DescriptorSet | Offset
  deriving DecidableEq, Repr

/-- Modelled from the spec: execution models of an entry point. -/
inductive ExecutionModel
  | Vertex | Fragment | GLCompute | Kernel
  deriving DecidableEq, Repr

/-- Modelled from the spec: the two built-in variables the wrapper reads, with their
SPIR-V numbers as decoration operands. -/
def BuiltIn.NumWorkgroups : Nat := 24

/-- Modelled from the spec: the built-in number of the global invocation id. -/
def BuiltIn.GlobalInvocationId : Nat := 28

/-- Modelled from the spec: "Instruction: opcode, optional result-type reference,
operand list"; one constructor per opcode the wrapper synthesis reads or creates, and
`Other` for every other opcode of a decoded module. `TypePointer` lists the storage
class (`mOperand1`) before the pointee (`mOperand2`), `TypeForwardPointer` the pointer
type before the storage class (`mOperand2`), `Variable` the result type before the
storage class (`mOperand1`). -/
inductive Op
  | TypeVoid
  | TypeInt (width signedness : Nat)
  | TypeVector (component : Nat) (count : Nat)
  | TypeRuntimeArray (element : Nat)
  | TypeStruct (members : List Nat)
  | TypePointer (storage : StorageClass) (pointee : Nat)
  | TypeForwardPointer (pointer : Nat) (storage : StorageClass)
  | TypeFunction (ret : Nat) (params : List Nat)
  | Constant (type : Nat) (value : Nat)
  | ConstantComposite (type : Nat) (constituents : List Nat)
  | Variable (type : Nat) (storage : StorageClass)
  | Label
  | Load (type pointer : Nat)
  | Store (pointer object : Nat)
  | CompositeExtract (type composite : Nat) (indexes : List Nat)
  | IMul (type a b : Nat)
  | IAdd (type a b : Nat)
  | AccessChain (type base : Nat) (indexes : List IdRef)
  | FunctionCall (type function : Nat) (args : List IdRef)
  | Return
  | Other (opcode : Nat) (operands : List Nat)
  deriving DecidableEq, Repr

/-- Modelled from the spec: an instruction, identified by its allocated identifier. -/
structure Instruction where
  id : Nat
  op : Op
  deriving DecidableEq, Repr

/-- Modelled from the spec: "Decoration: (target, kind, operand list); attachable to a
type, struct member (keyed by member index), or variable". -/
inductive DecorateInst
  | Decorate (target : Nat) (decoration : Decoration) (extra : List Nat)
  | MemberDecorate (target : Nat) (member : Nat) (decoration : Decoration) (extra : List Nat)
  deriving DecidableEq, Repr

/-- Modelled from the spec: "Block: ordered instruction sequence beginning with a
label". -/
abbrev Block := List Instruction

/-- Modelled from the spec: the function instruction of a definition: its identifier,
its return type (`mResultType`), its function control and its function type. -/
structure FunctionInst where
  id : Nat
  mResultType : Nat
  control : Nat
  functionType : Nat
  deriving DecidableEq, Repr

/-- Modelled from the spec: a function parameter: its identifier and its type
(`mResultType`). -/
structure FunctionParameterInst where
  id : Nat
  mResultType : Nat
  deriving DecidableEq, Repr

/-- Modelled from the spec: "FunctionDefinition: (returnType, functionType, parameters,
blocks)". -/
structure FunctionDefinition where
  inst : FunctionInst
  params : List FunctionParameterInst
  blocks : List Block
  deriving DecidableEq, Repr

/-- Modelled from the spec: "EntryPointDefinition: (executionModel, function, name,
interface variables, local workgroup size)". -/
structure EntryPointDefinition where
  executionModel : ExecutionModel
  function : Nat
  name : String
  interface : List IdRef
  localSize : Option (Nat × Nat × Nat)
  deriving DecidableEq, Repr

/-- Modelled from the spec: "Module: owning container and authoritative registry" of
capabilities, extension imports, memory model, entry points, debug source and names,
decorations, the global section (types, constants and variables in declaration order),
the two built-in variables it hands out, and the function definitions. -/
structure Module where
  capabilities : List String
  extInstImports : List String
  memoryModel : Option (String × String)
  entryPoints : List EntryPointDefinition
  source : Option (String × Nat)
  sourceExtensions : List String
  names : List (String × Nat)
  decorations : List DecorateInst
  globals : List Instruction
  invocationId : Option Instruction
  numWorkgroups : Option Instruction
  functions : List FunctionDefinition
  deriving DecidableEq, Repr

/-- Modelled from the spec: "Builder: stateful identifier allocator/instruction
factory"; its state is the next identifier it hands out. -/
structure Builder where
  nextId : Nat
  deriving DecidableEq, Repr

/-- The builder and the module that the functions of the source receive by reference
(`Builder &b, Module *m`). -/
abbrev St := Builder × Module

/-- A computation over the builder and the module; `none` is a run whose behaviour the
source leaves undefined (an out-of-range parameter, a member access through a null
pointer or through a cast to the wrong instruction class). -/
def M (α : Type) : Type := St → Option (α × St)

/-- The result and the final state of a computation started in state `s`. -/
def M.run {α : Type} (x : M α) (s : St) : Option (α × St) := x s

/-- The computation that returns `a` and leaves the state as it is. -/
def M.pure {α : Type} (a : α) : M α := fun s => some (a, s)

/-- Sequencing: `f` runs on the result and in the final state of `x`. -/
def M.bind {α β : Type} (x : M α) (f : α → M β) : M β :=
  fun s =>
    match x s with
    | none => none
    | some (a, s1) => f a s1

instance : Monad M where
  pure := M.pure
  bind := M.bind

/-- The current builder and module. -/
def M.get : M St := fun s => some (s, s)

/-- A state change. -/
def M.modify (f : St → St) : M Unit := fun s => some ((), f s)

/-- A state change with a result. -/
def M.modifyGet {α : Type} (f : St → α × St) : M α := fun s => some (f s)

/-- A member access through a pointer that the source does not test: the run has no
defined behaviour when the pointer is null. -/
def nonNull (p : Bool) : M Unit :=
  fun s => if p then some ((), s) else none

/-- An access to an object that the source obtains by an index or a cast it does not
check: the run has no defined behaviour when there is no such object. -/
def unchecked {α : Type} (x : Option α) : M α :=
  fun s => x.map fun a => (a, s)

/-! ## The builder -/

/-- Modelled from the spec: the builder after it has handed out one identifier. -/
def Builder.next (b : Builder) : Builder := { nextId := b.nextId + 1 }

/-- Modelled from the spec: the module with one more instruction at the end of its
global section. -/
def Module.addGlobal (m : Module) (x : Instruction) : Module :=
  { m with globals := m.globals ++ [x] }

/-- Modelled from the spec: the module with one more decoration. -/
def Module.addDecoration (m : Module) (d : DecorateInst) : Module :=
  { m with decorations := m.decorations ++ [d] }

/-- Modelled from the spec: every `Make...` of the builder creates one instruction with
a fresh identifier. -/
def Builder.Make (op : Op) : M Instruction :=
  M.modifyGet fun s => (⟨s.1.nextId, op⟩, (s.1.next, s.2))

/-- Modelled from the spec: `Builder::MakeLabel`. -/
def Builder.MakeLabel : M Instruction := Builder.Make Op.Label

/-- Modelled from the spec: `Builder::MakeLoad(resultType, pointer)`. -/
def Builder.MakeLoad (type pointer : Nat) : M Instruction := Builder.Make (Op.Load type pointer)

/-- Modelled from the spec: `Builder::MakeStore(pointer, object)`. -/
def Builder.MakeStore (pointer object : Nat) : M Instruction :=
  Builder.Make (Op.Store pointer object)

/-- Modelled from the spec: `Builder::MakeCompositeExtract(resultType, composite, indexes)`. -/
def Builder.MakeCompositeExtract (type composite : Nat) (indexes : List Nat) : M Instruction :=
  Builder.Make (Op.CompositeExtract type composite indexes)

/-- Modelled from the spec: `Builder::MakeIMul(resultType, a, b)`. -/
def Builder.MakeIMul (type a b : Nat) : M Instruction := Builder.Make (Op.IMul type a b)

/-- Modelled from the spec: `Builder::MakeIAdd(resultType, a, b)`. -/
def Builder.MakeIAdd (type a b : Nat) : M Instruction := Builder.Make (Op.IAdd type a b)

/-- Modelled from the spec: `Builder::MakeAccessChain(resultType, base, indexes)`. Every
index is an `IdRef` that the caller builds from an `Instruction *`, which reads the
identifier through the pointer: the run has no defined behaviour when one of the
pointers is null. -/
def Builder.MakeAccessChain (type base : Nat) (indexes : List IdRef) : M Instruction := do
  nonNull (indexes.all fun i => i.isSome)
  Builder.Make (Op.AccessChain type base indexes)

/-- Modelled from the spec: `Builder::MakeFunctionCall(resultType, function, args)`. -/
def Builder.MakeFunctionCall (type function : Nat) (args : List IdRef) : M Instruction :=
  Builder.Make (Op.FunctionCall type function args)

/-- Modelled from the spec: `Builder::MakeReturn`. -/
def Builder.MakeReturn : M Instruction := Builder.Make Op.Return

/-- Modelled from the spec: `Builder::MakeVariable(resultType, storageClass)`. -/
def Builder.MakeVariable (type : Nat) (storage : StorageClass) : M Instruction :=
  Builder.Make (Op.Variable type storage)

/-- Modelled from the spec: `FunctionControl::None`. -/
def FunctionControl.None : Nat := 0

/-- Modelled from the spec: `Builder::MakeFunctionDefinition(returnType, control,
functionType)`: a function instruction with a fresh identifier, no parameter and no
block yet. -/
def Builder.MakeFunctionDefinition (returnType control functionType : Nat) :
    M FunctionDefinition :=
  M.modifyGet fun s =>
    ({ inst := { id := s.1.nextId, mResultType := returnType, control := control,
                 functionType := functionType },
       params := [], blocks := [] },
     (s.1.next, s.2))

/-- Modelled from the spec: `Builder::MakeEntryPointDefinition(execModel, func, name)`:
empty interface, no local size yet. -/
def Builder.MakeEntryPointDefinition (execModel : ExecutionModel) (func : FunctionDefinition)
    (name : String) : EntryPointDefinition :=
  { executionModel := execModel, function := func.inst.id, name := name, interface := [],
    localSize := none }

/-- Modelled from the spec: `EntryPointDefinition::setLocalSize`. -/
def EntryPointDefinition.setLocalSize (e : EntryPointDefinition) (x y z : Nat) :
    EntryPointDefinition :=
  { e with localSize := some (x, y, z) }

/-- Modelled from the spec: `EntryPointDefinition::addToInterface`; the variable is
passed by a pointer that may be null. -/
def EntryPointDefinition.addToInterface (e : EntryPointDefinition) (var : Option Instruction) :
    EntryPointDefinition :=
  { e with interface := e.interface ++ [var.map (fun v => v.id)] }

/-! ## The module -/

/-- Modelled from the spec: "Type node ... Structurally interned — identical
descriptions share one node": the instruction of the global section with this opcode
and these operands if there is one, else a new one appended to the global section. -/
def Module.intern (op : Op) : M Instruction :=
  M.modifyGet fun s =>
    let r : Nat × St :=
      match s.2.globals.find? (fun x => x.op = op) with
      | some x => (x.id, s)
      | none => (s.1.nextId, (s.1.next, s.2.addGlobal ⟨s.1.nextId, op⟩))
    (⟨r.1, op⟩, r.2)

/-- Modelled from the spec: `Module::getVoidType`. -/
def Module.getVoidType : M Instruction := Module.intern Op.TypeVoid

/-- Modelled from the spec: `Module::getUnsignedIntType(width)`. -/
def Module.getUnsignedIntType (width : Nat) : M Instruction :=
  Module.intern (Op.TypeInt width 0)

/-- Modelled from the spec: `Module::getVectorType(component, count)`. -/
def Module.getVectorType (component : Nat) (count : Nat) : M Instruction :=
  Module.intern (Op.TypeVector component count)

/-- Modelled from the spec: `Module::getRuntimeArrayType(element)`. -/
def Module.getRuntimeArrayType (element : Nat) : M Instruction :=
  Module.intern (Op.TypeRuntimeArray element)

/-- Modelled from the spec: `Module::getStructType(members)`. -/
def Module.getStructType (members : List Nat) : M Instruction :=
  Module.intern (Op.TypeStruct members)

/-- Modelled from the spec: `Module::getPointerType(storageClass, pointee)`. -/
def Module.getPointerType (storage : StorageClass) (pointee : Nat) : M Instruction :=
  Module.intern (Op.TypePointer storage pointee)

/-- Modelled from the spec: `Module::getFunctionType(returnType, params, numParams)`. -/
def Module.getFunctionType (ret : Nat) (params : List Nat) : M Instruction :=
  Module.intern (Op.TypeFunction ret params)

/-- Modelled from the spec: `Module::getConstant(type, value)` ("Constant node: (type,
value) ...; interned like types"). -/
def Module.getConstant (type : Nat) (value : Nat) : M Instruction :=
  Module.intern (Op.Constant type value)

/-- Modelled from the spec: `Module::getConstantComposite(type, constituents ...)`. -/
def Module.getConstantComposite (type : Nat) (constituents : List Nat) : M Instruction :=
  Module.intern (Op.ConstantComposite type constituents)

/-- Modelled from the spec: `Instruction::decorate(kind)->addExtraOperand(...)`: one
decoration of the instruction with identifier `target`, with its extra operands. -/
def Instruction.decorate (target : Nat) (d : Decoration) (extra : List Nat) : M Unit :=
  M.modify fun s => (s.1, s.2.addDecoration (DecorateInst.Decorate target d extra))

/-- Modelled from the spec: `Instruction::memberDecorate(member, kind)` followed by
`addExtraOperand(...)`: a decoration "attachable to a ... struct member (keyed by member
index)". The result is `false`, and nothing is decorated, when `memberDecorate` yields
the null pointer, which it does for an instruction that is not a struct type. -/
def Instruction.memberDecorate (target : Instruction) (member : Nat) (d : Decoration)
    (extra : List Nat) : M Bool :=
  match target.op with
  | Op.TypeStruct _ => do
    M.modify fun s =>
      (s.1, s.2.addDecoration (DecorateInst.MemberDecorate target.id member d extra))
    pure true
  | _ => pure false

/-- Modelled from the spec: `Module::addVariable`: the variable joins the global
section. -/
def Module.addVariable (var : Instruction) : M Unit :=
  M.modify fun s => (s.1, s.2.addGlobal var)

/-- Modelled from the spec: `Module::addFunctionDefinition`. -/
def Module.addFunctionDefinition (func : FunctionDefinition) : M Unit :=
  M.modify fun s => (s.1, { s.2 with functions := s.2.functions ++ [func] })

/-- Modelled from the spec: `Module::addEntryPoint`. -/
def Module.addEntryPoint (entry : EntryPointDefinition) : M Unit :=
  M.modify fun s => (s.1, { s.2 with entryPoints := s.2.entryPoints ++ [entry] })

/-- Modelled from the spec: `Module::getInvocationId`, "the built-in 3-component
invocation-id": the module's variable if it has handed one out already, else a new
input variable of type pointer to a vector of three unsigned 32-bit integers, decorated
as the built-in `GlobalInvocationId`. The module keeps it apart from the global
section. -/
def Module.getInvocationId : M Instruction := do
  match (← M.get).2.invocationId with
  | some v => pure v
  | none =>
    let UIntTy ← Module.getUnsignedIntType 32
    let V3UIntTy ← Module.getVectorType UIntTy.id 3
    let V3UIntPtrTy ← Module.getPointerType StorageClass.Input V3UIntTy.id
    let InvocationId ← Builder.MakeVariable V3UIntPtrTy.id StorageClass.Input
    Instruction.decorate InvocationId.id Decoration.BuiltIn [BuiltIn.GlobalInvocationId]
    M.modify fun s => (s.1, { s.2 with invocationId := some InvocationId })
    pure InvocationId

/-- Modelled from the spec: `Module::getNumWorkgroups`, "the built-in num-workgroups
vector": as `getInvocationId`, for the built-in `NumWorkgroups`. -/
def Module.getNumWorkgroups : M Instruction := do
  match (← M.get).2.numWorkgroups with
  | some v => pure v
  | none =>
    let UIntTy ← Module.getUnsignedIntType 32
    let V3UIntTy ← Module.getVectorType UIntTy.id 3
    let V3UIntPtrTy ← Module.getPointerType StorageClass.Input V3UIntTy.id
    let NumWorkgroups ← Builder.MakeVariable V3UIntPtrTy.id StorageClass.Input
    Instruction.decorate NumWorkgroups.id Decoration.BuiltIn [BuiltIn.NumWorkgroups]
    M.modify fun s => (s.1, { s.2 with numWorkgroups := some NumWorkgroups })
    pure NumWorkgroups

/-- Modelled from the spec: `Module::lookupByName`: the instruction that the first debug
name equal to `name` names. -/
def Module.lookupByName (m : Module) (name : String) : Option Nat :=
  (m.names.find? (fun p => p.1 = name)).map (fun p => p.2)

/-- Modelled from the spec: "FunctionDefinition ... looked up by kernel name": the
definition of the function instruction that `name` names. -/
def Module.lookupFunctionDefinitionByName (m : Module) (name : String) :
    Option FunctionDefinition :=
  match m.lookupByName name with
  | some f => m.functions.find? (fun d => d.inst.id = f)
  | none => none

/-- Modelled from the spec: the instruction of the global section that an identifier
refers to (`IdRef::mInstruction` after identifier resolution). -/
def Module.getInstruction (m : Module) (id : Nat) : Option Instruction :=
  m.globals.find? (fun x => x.id = id)

/-- Modelled from the spec: `FunctionDefinition::getParameter(i)`; the source indexes
the parameter list without a range check, so an index past the end has no defined
result. -/
def FunctionDefinition.getParameter (f : FunctionDefinition) (i : Nat) :
    Option FunctionParameterInst :=
  f.params[i]?

/-- Modelled from the spec: `FunctionDefinition::getReturnType`: the result type of the
function instruction. -/
def FunctionDefinition.getReturnType (f : FunctionDefinition) : Nat :=
  f.inst.mResultType

/-- Modelled from the spec: `FunctionDefinition::getInstruction`: the function
instruction, which a call refers to. -/
def FunctionDefinition.getInstruction (f : FunctionDefinition) : FunctionInst :=
  f.inst

/-- Modelled from the spec: the largest identifier that a list of identifiers holds,
plus one (0 for the empty list). -/
def idsBound (ids : List Nat) : Nat :=
  ids.foldl (fun acc i => max acc (i + 1)) 0

/-- Modelled from the spec: the identifiers of the instructions a module holds: its
global section, its two built-in variables, and its functions with their parameters
and blocks. -/
def Module.ids (m : Module) : List Nat :=
  m.globals.map (fun x => x.id)
    ++ m.invocationId.toList.map (fun x => x.id)
    ++ m.numWorkgroups.toList.map (fun x => x.id)
    ++ m.functions.map (fun f => f.inst.id)
    ++ (m.functions.map (fun f => f.params.map (fun p => p.id))).flatten
    ++ (m.functions.map (fun f => f.blocks.flatten.map (fun x => x.id))).flatten

/-- Modelled from the spec: `Module::setBuilder`. The module is the "registry
guaranteeing ... identifier uniqueness" and the builder "allocates fresh identifiers":
a builder attached to a module hands out identifiers above those the module holds. -/
def Module.setBuilder (m : Module) (b : Builder) : Builder :=
  { nextId := max b.nextId (idsBound m.ids) }

/-- Modelled from the spec: `Module::consolidateAnnotations`, "Consolidate
(merge/de-duplicate) decoration instructions". -/
def Module.consolidateAnnotations (m : Module) : Module :=
  { m with decorations := m.decorations.dedup }

/-- Modelled from the spec: whether an opcode declares a variable. -/
def Op.isVariable : Op → Bool
  | Op.Variable _ _ => true
  | _ => false

/-- Modelled from the spec: the variables of the global section, in declaration
order. -/
def Module.variables (m : Module) : List Instruction :=
  m.globals.filter fun x => x.op.isVariable

/-! ## Collaborators -/

namespace LLVM

/-- The byte offsets of the members of a native struct, as the host compiler lays them
out (`llvm::StructLayout::getElementOffset`). -/
structure StructLayout where
  getElementOffset : Nat → Nat

/-- A native struct type (`llvm::StructType`): a name and a number of elements. -/
structure StructType where
  name : String
  getNumElements : Nat
  deriving DecidableEq, Repr

/-- The native types that `DecorateGlobalBuffer` tells apart with `dyn_cast`. -/
inductive LType
  | PointerType (getElementType : LType)
  | Struct (type : StructType)
  | Other (name : String)
  deriving DecidableEq, Repr

/-- A native global variable (`llvm::GlobalVariable`). -/
structure GlobalVariable where
  getName : String
  getType : LType
  deriving DecidableEq, Repr

/-- The native module (`llvm::Module`): its globals, and the struct layout of its data
layout (`getDataLayout().getStructLayout`), which the source tests for null. -/
structure Module where
  globals : List GlobalVariable
  getStructLayout : StructType → Option StructLayout

end LLVM

/-- One host-declared global allocation (`rs2spirv::RSAllocationInfo`); the source
reads its variable name. -/
structure RSAllocationInfo where
  VarName : String
  deriving DecidableEq, Repr

/-- The metadata of the exported foreach kernels (`bcinfo::MetadataExtractor`): their
number and the three lists the source indexes by kernel position. -/
structure MetadataExtractor where
  getExportForEachSignatureCount : Nat
  getExportForEachNameList : Nat → String
  getExportForEachSignatureList : Nat → Nat
  getExportForEachInputCountList : Nat → Nat

/-- The library functions and collaborators that `Wrapper.cpp` calls and that are
declared outside it: the static signature tests of `bcinfo::MetadataExtractor`,
`Module::getSize`, the word-stream decoder (`InputWordStream::Create` with
`Deserialize`), identifier resolution (which returns its verdict and leaves the module
resolved), the two lowering transforms (which may write the error code, and the first
of which may use the builder) and the reader of the allocation metadata. They are
parameters of the embedding. -/
structure Externals where
  hasForEachSignatureIn : Nat → Bool
  hasForEachSignatureOut : Nat → Bool
  hasForEachSignatureUsrData : Nat → Bool
  hasForEachSignatureX : Nat → Bool
  hasForEachSignatureY : Nat → Bool
  hasForEachSignatureKernel : Nat → Bool
  hasForEachSignatureZ : Nat → Bool
  hasForEachSignatureCtxt : Nat → Bool
  getSize : Module → Nat → Nat
  Deserialize : List Nat → Option Module
  resolveIds : Module → Bool × Module
  TranslateBuiltins : Builder → Module → Int → List Nat × Builder × Int
  TranslateGAAccessors : Builder → Module → Instruction → Int → List Nat × Int
  getRSAllocationInfo : LLVM.Module → Option (List RSAllocationInfo)

/-- The C library's `strncmp` on NUL-terminated strings, given without their
terminator: the difference of the first bytes that differ among the first `n`, or 0. -/
def strncmp : List Char → List Char → Nat → Int
  | _, _, 0 => 0
  | [], [], _ + 1 => 0
  | [], b :: _, _ + 1 => 0 - (b.toNat : Int)
  | a :: _, [], _ + 1 => (a.toNat : Int)
  | a :: as, b :: bs, n + 1 =>
    if a = b then strncmp as bs n else (a.toNat : Int) - (b.toNat : Int)

/-! ## Wrapper.cpp -/

/-- `AddGAMetadata` (lines 40-75): the metadata buffer for global allocations. -/
def AddGAMetadata : M Instruction := do
  let UInt32Ty ← Module.getUnsignedIntType 32
  let metadata : List Nat := [UInt32Ty.id, UInt32Ty.id, UInt32Ty.id, UInt32Ty.id]
  let MetadataStructTy ← Module.getStructType metadata
  nonNull (← MetadataStructTy.memberDecorate 0 Decoration.Offset [4])
  nonNull (← MetadataStructTy.memberDecorate 1 Decoration.Offset [8])
  nonNull (← MetadataStructTy.memberDecorate 2 Decoration.Offset [12])
  nonNull (← MetadataStructTy.memberDecorate 3 Decoration.Offset [16])
  let MetadataBufSTy ← Module.getRuntimeArrayType MetadataStructTy.id
  Instruction.decorate MetadataBufSTy.id Decoration.ArrayStride [metadata.length * 4]
  let MetadataSSBO ← Module.getStructType [MetadataBufSTy.id]
  Instruction.decorate MetadataSSBO.id Decoration.BufferBlock []
  let MetadataPtrTy ← Module.getPointerType StorageClass.Uniform MetadataSSBO.id
  let MetadataVar ← Builder.MakeVariable MetadataPtrTy.id StorageClass.Uniform
  Instruction.decorate MetadataVar.id Decoration.DescriptorSet [0]
  Instruction.decorate MetadataVar.id Decoration.Binding [0]
  Module.addVariable MetadataVar
  pure MetadataVar

/-- `AddBuffer` (lines 77-94): a bound buffer of `elementType` at `binding`. -/
def AddBuffer (E : Externals) (elementType : Nat) (binding : Nat) : M Instruction := do
  let ArrTy ← Module.getRuntimeArrayType elementType
  let stride := E.getSize (← M.get).2 elementType
  Instruction.decorate ArrTy.id Decoration.ArrayStride [stride]
  let StructTy ← Module.getStructType [ArrTy.id]
  Instruction.decorate StructTy.id Decoration.BufferBlock []
  nonNull (← StructTy.memberDecorate 0 Decoration.Offset [0])
  let StructPtrTy ← Module.getPointerType StorageClass.Uniform StructTy.id
  let bufferVar ← Builder.MakeVariable StructPtrTy.id StorageClass.Uniform
  Instruction.decorate bufferVar.id Decoration.DescriptorSet [0]
  Instruction.decorate bufferVar.id Decoration.Binding [binding]
  Module.addVariable bufferVar
  pure bufferVar

/-- The local variables of `AddWrapper` that its linear-index computation sets (lines
138-143); all are null when no index is computed. -/
structure IndexVars where
  XValue : Option Instruction
  YValue : Option Instruction
  ZValue : Option Instruction
  Index : Option Instruction
  InvocationId : Option Instruction
  NumWorkgroups : Option Instruction
  deriving DecidableEq, Repr

/-- Lines 138-143 of `AddWrapper`: every local starts as the null pointer. -/
def IndexVars.null : IndexVars :=
  { XValue := none, YValue := none, ZValue := none, Index := none, InvocationId := none,
    NumWorkgroups := none }

/-- Lines 150-201 of `AddWrapper`, the body of the conditional that computes the linear
index: the instructions are appended to `Blk` in the order of the source. -/
def AddWrapper.computeIndex (UIntTy : Instruction) (Blk : Block) : M (IndexVars × Block) := do
  let V3UIntTy ← Module.getVectorType UIntTy.id 3
  let InvocationId ← Module.getInvocationId
  let IID ← Builder.MakeLoad V3UIntTy.id InvocationId.id
  let Blk := Blk ++ [IID]
  let XValue ← Builder.MakeCompositeExtract UIntTy.id IID.id [0]
  let Blk := Blk ++ [XValue]
  let YValue ← Builder.MakeCompositeExtract UIntTy.id IID.id [1]
  let Blk := Blk ++ [YValue]
  let ZValue ← Builder.MakeCompositeExtract UIntTy.id IID.id [2]
  let Blk := Blk ++ [ZValue]
  let ConstOne ← Module.getConstant UIntTy.id 1
  let GroupSize ← Module.getConstantComposite V3UIntTy.id [ConstOne.id, ConstOne.id, ConstOne.id]
  let GroupSizeX ← Builder.MakeCompositeExtract UIntTy.id GroupSize.id [0]
  let Blk := Blk ++ [GroupSizeX]
  let GroupSizeY ← Builder.MakeCompositeExtract UIntTy.id GroupSize.id [1]
  let Blk := Blk ++ [GroupSizeY]
  let NumWorkgroups ← Module.getNumWorkgroups
  let NumGroup ← Builder.MakeLoad V3UIntTy.id NumWorkgroups.id
  let Blk := Blk ++ [NumGroup]
  let NumGroupX ← Builder.MakeCompositeExtract UIntTy.id NumGroup.id [0]
  let Blk := Blk ++ [NumGroupX]
  let NumGroupY ← Builder.MakeCompositeExtract UIntTy.id NumGroup.id [1]
  let Blk := Blk ++ [NumGroupY]
  let GlobalSizeX ← Builder.MakeIMul UIntTy.id GroupSizeX.id NumGroupX.id
  let Blk := Blk ++ [GlobalSizeX]
  let GlobalSizeY ← Builder.MakeIMul UIntTy.id GroupSizeY.id NumGroupY.id
  let Blk := Blk ++ [GlobalSizeY]
  let RowsAlongZ ← Builder.MakeIMul UIntTy.id GlobalSizeY.id ZValue.id
  let Blk := Blk ++ [RowsAlongZ]
  let NumRows ← Builder.MakeIAdd UIntTy.id YValue.id RowsAlongZ.id
  let Blk := Blk ++ [NumRows]
  let NumCellsFromYZ ← Builder.MakeIMul UIntTy.id GlobalSizeX.id NumRows.id
  let Blk := Blk ++ [NumCellsFromYZ]
  let Index ← Builder.MakeIAdd UIntTy.id NumCellsFromYZ.id XValue.id
  let Blk := Blk ++ [Index]
  pure ({ XValue := some XValue, YValue := some YValue, ZValue := some ZValue,
          Index := some Index, InvocationId := some InvocationId,
          NumWorkgroups := some NumWorkgroups }, Blk)

/-- Lines 208-223 of `AddWrapper`, the loop `for (i = 0; i < numInput; i++)` from
position `i` on, with `count = numInput - i` positions left: one bound buffer, one
access chain and one load per input. The counter and the binding `i + 2` are
`uint32_t` in the source; a kernel of a module with 32-bit identifiers has fewer than
2^32 - 2 parameters, so the sum does not wrap on a position that has a parameter. -/
def AddWrapper.loadInputs (E : Externals) (kernel : FunctionDefinition)
    (ConstZero : Instruction) (Index : Option Instruction) :
    Nat → Nat → Block → List IdRef → M (Block × List IdRef)
  | 0, _, Blk, inputs => pure (Blk, inputs)
  | count + 1, i, Blk, inputs => do
    let param ← unchecked (kernel.getParameter i)
    let elementType := param.mResultType
    let inputBuffer ← AddBuffer E elementType (i + 2)
    let PtrTy ← Module.getPointerType StorageClass.Function elementType
    let Ptr ← Builder.MakeAccessChain PtrTy.id inputBuffer.id
      [some ConstZero.id, Index.map fun x => x.id]
    let Blk := Blk ++ [Ptr]
    let input ← Builder.MakeLoad elementType Ptr.id
    let Blk := Blk ++ [input]
    AddWrapper.loadInputs E kernel ConstZero Index count (i + 1) Blk (inputs ++ [some input.id])

/-- Lines 227-235 of `AddWrapper`: the coordinates appended to the arguments of the
kernel call. -/
def AddWrapper.coordinates (E : Externals) (signature : Nat) (v : IndexVars)
    (inputs : List IdRef) : List IdRef :=
  if E.hasForEachSignatureX signature then
    let inputs := inputs ++ [v.XValue.map fun x => x.id]
    if E.hasForEachSignatureY signature then
      let inputs := inputs ++ [v.YValue.map fun x => x.id]
      if E.hasForEachSignatureZ signature then
        inputs ++ [v.ZValue.map fun x => x.id]
      else inputs
    else inputs
  else inputs

/-- Lines 243-248 of `AddWrapper`, the body of the conditional on the output flag: the
output buffer at binding 1, the access chain into it and the store of the call's
result. -/
def AddWrapper.storeOutput (E : Externals) (resultType : Nat) (ConstZero : Instruction)
    (Index : Option Instruction) (kernelCall : Instruction) (Blk : Block) : M Block := do
  let OutputBuffer ← AddBuffer E resultType 1
  let resultPtrType ← Module.getPointerType StorageClass.Function resultType
  let OutPtr ← Builder.MakeAccessChain resultPtrType.id OutputBuffer.id
    [some ConstZero.id, Index.map fun x => x.id]
  let Blk := Blk ++ [OutPtr]
  let store ← Builder.MakeStore OutPtr.id kernelCall.id
  let Blk := Blk ++ [store]
  pure Blk

/-- `AddWrapper` (lines 96-269). `Func` and `Blk` are held by pointer in the source, so
the instructions added to `Blk` after `m->addFunctionDefinition(Func)` (line 129) belong
to the registered function; here the block is built first and the function is
registered with it once the block is complete (after line 251). No other function is
added in between, so its place in the function list is the same. -/
def AddWrapper (E : Externals) (name : String) (signature numInput : Nat) : M Bool := do
  match (← M.get).2.lookupFunctionDefinitionByName name with
  | none => pure (strncmp name.data "root".data 4 == 0)
  | some kernel =>
    if !E.hasForEachSignatureKernel signature then pure false
    else if E.hasForEachSignatureUsrData signature then pure false
    else if E.hasForEachSignatureCtxt signature then pure false
    else do
      let VoidTy ← Module.getVoidType
      let FuncTy ← Module.getFunctionType VoidTy.id []
      let Func ← Builder.MakeFunctionDefinition VoidTy.id FunctionControl.None FuncTy.id
      let Blk : Block := []
      let Blk := Blk ++ [← Builder.MakeLabel]
      let UIntTy ← Module.getUnsignedIntType 32
      let (v, Blk) ←
        (if E.hasForEachSignatureIn signature || E.hasForEachSignatureOut signature ||
            E.hasForEachSignatureX signature || E.hasForEachSignatureY signature ||
            E.hasForEachSignatureZ signature then
          AddWrapper.computeIndex UIntTy Blk
        else pure (IndexVars.null, Blk))
      let ConstZero ← Module.getConstant UIntTy.id 0
      let (Blk, inputs) ← AddWrapper.loadInputs E kernel ConstZero v.Index numInput 0 Blk []
      let inputs := AddWrapper.coordinates E signature v inputs
      let resultType := kernel.getReturnType
      let kernelCall ← Builder.MakeFunctionCall resultType kernel.getInstruction.id inputs
      let Blk := Blk ++ [kernelCall]
      let Blk ←
        (if E.hasForEachSignatureOut signature then
          AddWrapper.storeOutput E resultType ConstZero v.Index kernelCall Blk
        else pure Blk)
      let Blk := Blk ++ [← Builder.MakeReturn]
      Module.addFunctionDefinition { Func with blocks := [Blk] }
      let wrapperName := "entry_" ++ name
      let entry := Builder.MakeEntryPointDefinition ExecutionModel.GLCompute Func wrapperName
      let entry := entry.setLocalSize 1 1 1
      let entry :=
        if v.Index.isSome then
          (entry.addToInterface v.InvocationId).addToInterface v.NumWorkgroups
        else entry
      Module.addEntryPoint entry
      pure true

/-- Lines 316-324 of `DecorateGlobalBuffer`, the loop `for (i = 0; i != e; ++i)` from
member `i` on, with `count = e - i` members left; `false` when a member decoration
could not be created. -/
def DecorateGlobalBuffer.decorateMembers (StructTy : Instruction) (SLayout : LLVM.StructLayout) :
    Nat → Nat → M Bool
  | 0, _ => pure true
  | count + 1, i => do
    let decor ← StructTy.memberDecorate i Decoration.Offset [SLayout.getElementOffset i % 2 ^ 32]
    if !decor then pure false
    else DecorateGlobalBuffer.decorateMembers StructTy SLayout count (i + 1)

/-- Lines 340-348 of `DecorateGlobalBuffer`, the loop over the global allocations with
the running binding number; `false` when an allocation is not in the module. -/
def DecorateGlobalBuffer.bindAllocations : List RSAllocationInfo → Nat → M Bool
  | [], _ => pure true
  | A :: rest, BindingNum => do
    match (← M.get).2.lookupByName A.VarName with
    | none => pure false
    | some bufferVar =>
      Instruction.decorate bufferVar Decoration.DescriptorSet [0]
      Instruction.decorate bufferVar Decoration.Binding [BindingNum]
      DecorateGlobalBuffer.bindAllocations rest (BindingNum + 1)

/-- `DecorateGlobalBuffer` (lines 271-351). The two `static_cast`s of lines 281-284 read
the result type of the named instruction as a pointer type and its second operand as a
struct type without a check; the run has no defined behaviour when the named
instruction is not a variable of the global section whose type is a pointer type. -/
def DecorateGlobalBuffer (E : Externals) (LM : LLVM.Module) : M Bool := do
  match (← M.get).2.lookupByName "__GPUBlock" with
  | none => pure true
  | some inst =>
    let bufferVar := inst
    Instruction.decorate bufferVar Decoration.DescriptorSet [0]
    Instruction.decorate bufferVar Decoration.Binding [0]
    let m := (← M.get).2
    let StructPtrTy ← unchecked (
      match (m.getInstruction bufferVar).map (fun x => x.op) with
      | some (Op.Variable type _) => m.getInstruction type
      | _ => none)
    let StructTy ← unchecked (
      match StructPtrTy.op with
      | Op.TypePointer _ pointee => m.getInstruction pointee
      | _ => none)
    Instruction.decorate StructTy.id Decoration.BufferBlock []
    match LM.globals.find? (fun GV => GV.getName = "__GPUBlock") with
    | none => pure true
    | some G =>
      match G.getType with
      | LLVM.LType.PointerType (LLVM.LType.Struct LStructTy) =>
        match LM.getStructLayout LStructTy with
        | none => pure false
        | some SLayout =>
          let decorated ←
            DecorateGlobalBuffer.decorateMembers StructTy SLayout LStructTy.getNumElements 0
          if !decorated then pure false
          else
            match E.getRSAllocationInfo LM with
            | none => pure true
            | some RSAllocs => DecorateGlobalBuffer.bindAllocations RSAllocs 3
      | _ => pure false

/-- `AddHeader` (lines 353-366). -/
def AddHeader (m : Module) : Module :=
  { m with
    capabilities := m.capabilities ++ ["Shader"]
    memoryModel := some ("Physical32", "GLSL450")
    extInstImports := m.extInstImports ++ ["GLSL.std.450"]
    source := some ("GLSL", 450)
    sourceExtensions := m.sourceExtensions ++
      ["GL_ARB_separate_shader_objects", "GL_ARB_shading_language_420pack",
       "GL_GOOGLE_cpp_style_line_directive", "GL_GOOGLE_include_directive"] }

/-- `StorageClassVisitor::matchAndReplace` (lines 383-387). -/
def StorageClassVisitor.matchAndReplace (storage : StorageClass) : StorageClass :=
  if storage = StorageClass.Function then StorageClass.Uniform else storage

/-- `StorageClassVisitor::visit` (lines 372-380): the three overrides; every other
instruction is left as it is (`DoNothingVisitor`). -/
def StorageClassVisitor.visit (inst : Instruction) : Instruction :=
  match inst.op with
  | Op.TypePointer storage pointee =>
    { inst with op := Op.TypePointer (StorageClassVisitor.matchAndReplace storage) pointee }
  | Op.TypeForwardPointer pointer storage =>
    { inst with op := Op.TypeForwardPointer pointer (StorageClassVisitor.matchAndReplace storage) }
  | Op.Variable type storage =>
    { inst with op := Op.Variable type (StorageClassVisitor.matchAndReplace storage) }
  | _ => inst

/-- `FixGlobalStorageClass` (lines 390-393): the visitor is applied to every instruction
of the global section. -/
def FixGlobalStorageClass (m : Module) : Module :=
  { m with globals := m.globals.map StorageClassVisitor.visit }

/-- Lines 442-449 of `AddGLComputeWrappers`, the loop `for (i = 0; i < numKernel; i++)`
from kernel `i` on, with `count = numKernel - i` kernels left; `false` as soon as one
`AddWrapper` fails. -/
def AddGLComputeWrappers.wrapKernels (E : Externals) (metadata : MetadataExtractor) :
    Nat → Nat → M Bool
  | 0, _ => pure true
  | count + 1, i => do
    let success ← AddWrapper E (metadata.getExportForEachNameList i)
      (metadata.getExportForEachSignatureList i) (metadata.getExportForEachInputCountList i)
    if !success then pure false
    else AddGLComputeWrappers.wrapKernels E metadata count (i + 1)

/-- Lines 474-484 of `AddGLComputeWrappers`: the metadata variable, and the types and
constants created ahead of the accessor transform. -/
def AddGLComputeWrappers.prepareMetadata : M Instruction := do
  let GAmetadata ← AddGAMetadata
  let UInt32Ty ← Module.getUnsignedIntType 32
  let _ ← Module.getConstant UInt32Ty.id 0
  let _ ← Module.getConstant UInt32Ty.id 1
  let _ ← Module.getPointerType StorageClass.Uniform UInt32Ty.id
  pure GAmetadata

/-- `AddGLComputeWrappers` (lines 408-491). The result is the returned word sequence
with the value of `*error` at return; `error` is its value at entry. `none` is a run
without defined behaviour (see `M`). -/
def AddGLComputeWrappers (E : Externals) (kernel_spirv : List Nat)
    (metadata : MetadataExtractor) (LM : LLVM.Module) (error : Int) :
    Option (List Nat × Int) :=
  match E.Deserialize kernel_spirv with
  | none => some ([], -1)
  | some m =>
    match E.resolveIds m with
    | (false, _) => some ([], -2)
    | (true, m) =>
      let b : Builder := { nextId := 1 }
      let b := m.setBuilder b
      let m := FixGlobalStorageClass m
      let m := AddHeader m
      match (DecorateGlobalBuffer E LM).run (b, m) with
      | none => none
      | some (_, s) =>
        let numKernel := metadata.getExportForEachSignatureCount
        match (AddGLComputeWrappers.wrapKernels E metadata numKernel 0).run s with
        | none => none
        | some (false, _) => some ([], -3)
        | some (true, (b, m)) =>
          let m := m.consolidateAnnotations
          let (words, b, error) := E.TranslateBuiltins b m error
          match E.Deserialize words with
          | none => some ([], -1)
          | some m1 =>
            match E.resolveIds m1 with
            | (false, _) => some ([], -2)
            | (true, m1) =>
              let b := m1.setBuilder b
              match AddGLComputeWrappers.prepareMetadata.run (b, m1) with
              | none => none
              | some (GAmetadata, (b, m1)) =>
                let m1 := m1.consolidateAnnotations
                some (E.TranslateGAAccessors b m1 GAmetadata error)

/-! ## Evaluation of the index arithmetic -/

/-- A run-time value of the index arithmetic: an unsigned 32-bit scalar or a vector of
such scalars. -/
inductive Value
  | scalar (n : Nat)
  | vector (components : List Nat)
  deriving DecidableEq, Repr

/-- The values of the two built-in inputs of one invocation: the global invocation id
and the number of workgroups, three components each. -/
structure BuiltInValues where
  GlobalInvocationId : Nat × Nat × Nat
  NumWorkgroups : Nat × Nat × Nat
  deriving DecidableEq, Repr

/-- The values of the scalar constants with the identifiers `ids`, in order. -/
def constituentValues (m : Module) : List Nat → Option (List Nat)
  | [] => some []
  | c :: cs =>
    match (m.getInstruction c).map (fun x => x.op), constituentValues m cs with
    | some (Op.Constant _ v), some vs => some (v :: vs)
    | _, _ => none

/-- The value of a constant of the global section. -/
def constantValue (m : Module) (id : Nat) : Option Value :=
  match (m.getInstruction id).map (fun x => x.op) with
  | some (Op.Constant _ v) => some (Value.scalar v)
  | some (Op.ConstantComposite _ cs) => (constituentValues m cs).map Value.vector
  | _ => none

/-- The value an operand refers to: the result of an earlier instruction of the block,
else a constant of the module. -/
def operandValue (m : Module) (env : List (Nat × Value)) (id : Nat) : Option Value :=
  match env.lookup id with
  | some v => some v
  | none => constantValue m id

/-- The value loaded through `pointer`, when it is one of the two built-in variables of
the module. -/
def loadValue (m : Module) (e : BuiltInValues) (pointer : Nat) : Option Value :=
  if m.invocationId.map (fun v => v.id) = some pointer then
    some (Value.vector [e.GlobalInvocationId.1, e.GlobalInvocationId.2.1, e.GlobalInvocationId.2.2])
  else if m.numWorkgroups.map (fun v => v.id) = some pointer then
    some (Value.vector [e.NumWorkgroups.1, e.NumWorkgroups.2.1, e.NumWorkgroups.2.2])
  else none

/-- The value that one instruction computes, if it is one of the instructions of the
index arithmetic: a load of a built-in, `OpCompositeExtract` with one index, and
`OpIMul` and `OpIAdd` as unsigned 32-bit arithmetic. -/
def instructionValue (m : Module) (e : BuiltInValues) (env : List (Nat × Value))
    (inst : Instruction) : Option Value :=
  match inst.op with
  | Op.Load _ pointer => loadValue m e pointer
  | Op.CompositeExtract _ composite [k] =>
    match operandValue m env composite with
    | some (Value.vector cs) => cs[k]?.map Value.scalar
    | _ => none
  | Op.IMul _ a b =>
    match operandValue m env a, operandValue m env b with
    | some (Value.scalar x), some (Value.scalar y) => some (Value.scalar (x * y % 2 ^ 32))
    | _, _ => none
  | Op.IAdd _ a b =>
    match operandValue m env a, operandValue m env b with
    | some (Value.scalar x), some (Value.scalar y) => some (Value.scalar ((x + y) % 2 ^ 32))
    | _, _ => none
  | _ => none

/-- The results of the instructions of a block, executed in order from the results
`env`: each instruction that computes a value records it under its identifier. -/
def evalBlock (m : Module) (e : BuiltInValues) : Block → List (Nat × Value) → List (Nat × Value)
  | [], env => env
  | inst :: rest, env =>
    match instructionValue m e env inst with
    | some v => evalBlock m e rest (env ++ [(inst.id, v)])
    | none => evalBlock m e rest env

/-! ## Predicates of the statements -/

/-- The identifiers of the global section and of the built-in variables are below the
next identifier of the builder, those of the global section are pairwise distinct, and
the two built-in variables are distinct: the builder hands out fresh identifiers. -/
def WellFormed (s : St) : Prop :=
  (∀ x ∈ s.2.globals, x.id < s.1.nextId) ∧
  (s.2.globals.map fun x => x.id).Nodup ∧
  (∀ v ∈ s.2.invocationId, v.id < s.1.nextId) ∧
  (∀ v ∈ s.2.numWorkgroups, v.id < s.1.nextId) ∧
  (∀ v ∈ s.2.invocationId, ∀ w ∈ s.2.numWorkgroups, v.id ≠ w.id)

/-- The variable `var` of module `m` is a bound buffer of `elementType` at `binding`: a
uniform variable of the global section whose type is a uniform pointer to a struct of
one runtime array of `elementType`, decorated with descriptor set 0 and `binding`. -/
def IsBuffer (m : Module) (var : Instruction) (elementType : Nat) (binding : Nat) : Prop :=
  var ∈ m.globals ∧
  ∃ arr struct ptr : Nat,
    var.op = Op.Variable ptr StorageClass.Uniform ∧
    (⟨ptr, Op.TypePointer StorageClass.Uniform struct⟩ : Instruction) ∈ m.globals ∧
    (⟨struct, Op.TypeStruct [arr]⟩ : Instruction) ∈ m.globals ∧
    (⟨arr, Op.TypeRuntimeArray elementType⟩ : Instruction) ∈ m.globals ∧
    DecorateInst.Decorate var.id Decoration.DescriptorSet [0] ∈ m.decorations ∧
    DecorateInst.Decorate var.id Decoration.Binding [binding] ∈ m.decorations

/-- The fifteen instructions that the linear-index computation of `AddWrapper` appends
to the block, in order, for the unsigned type `u`, the vector type `v3`, the two
built-in variables `inv` and `nwg`, the workgroup-size constant `gs`, and the
identifiers `a0` (load of the invocation id), `a1` (first extract of the workgroup
size) and `a2` (load of the number of workgroups) that the builder handed out. -/
def indexInstructions (u v3 inv gs nwg a0 a1 a2 : Nat) : Block :=
  [⟨a0, Op.Load v3 inv⟩,
   ⟨a0 + 1, Op.CompositeExtract u a0 [0]⟩,
   ⟨a0 + 2, Op.CompositeExtract u a0 [1]⟩,
   ⟨a0 + 3, Op.CompositeExtract u a0 [2]⟩,
   ⟨a1, Op.CompositeExtract u gs [0]⟩,
   ⟨a1 + 1, Op.CompositeExtract u gs [1]⟩,
   ⟨a2, Op.Load v3 nwg⟩,
   ⟨a2 + 1, Op.CompositeExtract u a2 [0]⟩,
   ⟨a2 + 2, Op.CompositeExtract u a2 [1]⟩,
   ⟨a2 + 3, Op.IMul u a1 (a2 + 1)⟩,
   ⟨a2 + 4, Op.IMul u (a1 + 1) (a2 + 2)⟩,
   ⟨a2 + 5, Op.IMul u (a2 + 4) (a0 + 3)⟩,
   ⟨a2 + 6, Op.IAdd u (a0 + 2) (a2 + 5)⟩,
   ⟨a2 + 7, Op.IMul u (a2 + 3) (a2 + 6)⟩,
   ⟨a2 + 8, Op.IAdd u (a2 + 7) (a0 + 1)⟩]

/-- What one round of the input loop of `AddWrapper` creates: the bound buffer, the
access chain into it and the load through the access chain. -/
structure InputRound where
  buffer : Instruction
  Ptr : Instruction
  input : Instruction
  deriving DecidableEq, Repr

/-- The round `r` is that of input position `i` of `kernel` in module `m`: a bound
buffer of the type of parameter `i` at binding `i + 2`, an access chain into it with
the indices `ConstZero` and `Index` whose type is a function-storage pointer to the
parameter type, and a load of the parameter type through the access chain. -/
def IsInputRound (m : Module) (kernel : FunctionDefinition) (ConstZero : Instruction)
    (Index : Option Instruction) (i : Nat) (r : InputRound) : Prop :=
  ∃ (param : FunctionParameterInst) (PtrTy : Nat),
    kernel.getParameter i = some param ∧
    IsBuffer m r.buffer param.mResultType (i + 2) ∧
    (⟨PtrTy, Op.TypePointer StorageClass.Function param.mResultType⟩ : Instruction) ∈ m.globals ∧
    r.Ptr.op = Op.AccessChain PtrTy r.buffer.id [some ConstZero.id, Index.map fun x => x.id] ∧
    r.input.op = Op.Load param.mResultType r.Ptr.id

/-- The linear-index computation of `AddWrapper` as it stands in the final module `m`,
for a run started in state `s`: the two built-in variables of the module, the constant
1 and the workgroup-size constant of the global section, the identifiers that the
builder handed out for the fifteen instructions `index`, and the locals `v` that refer
to them. -/
def IsLinearIndex (s : St) (m : Module) (UIntTy : Instruction) (v : IndexVars)
    (index : Block) : Prop :=
  ∃ (V3UIntTy inv ConstOne GroupSize nwg : Instruction) (a0 a1 a2 : Nat),
    m.invocationId = some inv ∧ m.numWorkgroups = some nwg ∧
    a0 + 4 ≤ a1 ∧ a1 + 2 ≤ a2 ∧
    ConstOne ∈ m.globals ∧ ConstOne.op = Op.Constant UIntTy.id 1 ∧
    GroupSize ∈ m.globals ∧
    GroupSize.op = Op.ConstantComposite V3UIntTy.id [ConstOne.id, ConstOne.id, ConstOne.id] ∧
    (WellFormed s → (GroupSize.id < a0 ∨ a0 + 4 ≤ GroupSize.id) ∧ GroupSize.id < a1) ∧
    v = { XValue := some ⟨a0 + 1, Op.CompositeExtract UIntTy.id a0 [0]⟩
          YValue := some ⟨a0 + 2, Op.CompositeExtract UIntTy.id a0 [1]⟩
          ZValue := some ⟨a0 + 3, Op.CompositeExtract UIntTy.id a0 [2]⟩
          Index := some ⟨a2 + 8, Op.IAdd UIntTy.id (a2 + 7) (a0 + 1)⟩
          InvocationId := some inv
          NumWorkgroups := some nwg } ∧
    index = indexInstructions UIntTy.id V3UIntTy.id inv.id GroupSize.id nwg.id a0 a1 a2

/-- The instruction `c` of block `Blk` is coordinate `k` of the invocation id: component
`k` of a load, in the block, of the built-in invocation-id variable of module `m`. -/
def IsCoordinate (m : Module) (Blk : Block) (k : Nat) (c : Instruction) : Prop :=
  c ∈ Blk ∧
  ∃ (ty ty1 : Nat) (IID inv : Instruction),
    c.op = Op.CompositeExtract ty IID.id [k] ∧ IID ∈ Blk ∧ IID.op = Op.Load ty1 inv.id ∧
    m.invocationId = some inv

/-- The parts of the wrapper that one successful run of `AddWrapper` builds: the types
and the constant 0 it asks the module for, the identifiers of the function, of the label,
of the kernel call and of the return, the locals and the instructions of the index
computation, the rounds of the input loop, and the variable and the instructions of the
output. -/
structure Wrapper where
  VoidTy : Instruction
  FuncTy : Instruction
  UIntTy : Instruction
  ConstZero : Instruction
  func : Nat
  label : Nat
  call : Nat
  ret : Nat
  v : IndexVars
  index : Block
  rounds : List InputRound
  outputs : List Instruction
  store : Block

/-- The kernel call of a wrapper. -/
def Wrapper.kernelCall (p : Wrapper) (E : Externals) (signature : Nat)
    (kernel : FunctionDefinition) : Instruction :=
  ⟨p.call, Op.FunctionCall kernel.getReturnType kernel.getInstruction.id
    (AddWrapper.coordinates E signature p.v (p.rounds.map fun r => some r.input.id))⟩

/-- The block of a wrapper: label, index computation, input rounds, kernel call, output,
return. -/
def Wrapper.block (p : Wrapper) (E : Externals) (signature : Nat)
    (kernel : FunctionDefinition) : Block :=
  [⟨p.label, Op.Label⟩] ++ p.index ++ (p.rounds.map fun r => [r.Ptr, r.input]).flatten ++
    [p.kernelCall E signature kernel] ++ p.store ++ [⟨p.ret, Op.Return⟩]

/-- The function definition of a wrapper. -/
def Wrapper.function (p : Wrapper) (E : Externals) (signature : Nat)
    (kernel : FunctionDefinition) : FunctionDefinition :=
  { inst := { id := p.func, mResultType := p.VoidTy.id, control := FunctionControl.None,
              functionType := p.FuncTy.id },
    params := [], blocks := [p.block E signature kernel] }

/-- The entry point of a wrapper. -/
def Wrapper.entry (p : Wrapper) (name : String) : EntryPointDefinition :=
  { executionModel := ExecutionModel.GLCompute, function := p.func, name := "entry_" ++ name,
    interface :=
      if p.v.Index.isSome then
        [p.v.InvocationId.map fun x => x.id, p.v.NumWorkgroups.map fun x => x.id]
      else [],
    localSize := some (1, 1, 1) }

/-- The run of `AddWrapper` from state `s` to state `s1` built the wrapper `p`. -/
structure IsWrapper (E : Externals) (name : String) (signature numInput : Nat)
    (kernel : FunctionDefinition) (s s1 : St) (p : Wrapper) : Prop where
  accepted : E.hasForEachSignatureKernel signature = true ∧
    E.hasForEachSignatureUsrData signature = false ∧
    E.hasForEachSignatureCtxt signature = false
  voidTy : p.VoidTy.op = Op.TypeVoid ∧ p.VoidTy ∈ s1.2.globals
  funcTy : p.FuncTy.op = Op.TypeFunction p.VoidTy.id [] ∧ p.FuncTy ∈ s1.2.globals
  uintTy : p.UIntTy.op = Op.TypeInt 32 0 ∧ p.UIntTy ∈ s1.2.globals
  constZero : p.ConstZero.op = Op.Constant p.UIntTy.id 0 ∧ p.ConstZero ∈ s1.2.globals
  fresh : s.1.nextId ≤ p.func
  indexed :
    (E.hasForEachSignatureIn signature || E.hasForEachSignatureOut signature ||
        E.hasForEachSignatureX signature || E.hasForEachSignatureY signature ||
        E.hasForEachSignatureZ signature) = true →
      IsLinearIndex s s1.2 p.UIntTy p.v p.index
  notIndexed :
    (E.hasForEachSignatureIn signature || E.hasForEachSignatureOut signature ||
        E.hasForEachSignatureX signature || E.hasForEachSignatureY signature ||
        E.hasForEachSignatureZ signature) = false →
      p.v = IndexVars.null ∧ p.index = []
  count : p.rounds.length = numInput
  rounds : ∀ j r, p.rounds[j]? = some r → IsInputRound s1.2 kernel p.ConstZero p.v.Index j r
  output : E.hasForEachSignatureOut signature = true →
    ∃ (buf PtrTy : Instruction) (ptr : Nat),
      p.outputs = [buf] ∧ IsBuffer s1.2 buf kernel.getReturnType 1 ∧
      PtrTy.op = Op.TypePointer StorageClass.Function kernel.getReturnType ∧
      PtrTy ∈ s1.2.globals ∧
      p.store =
        [⟨ptr, Op.AccessChain PtrTy.id buf.id
            [some p.ConstZero.id, p.v.Index.map fun x => x.id]⟩,
         ⟨ptr + 1, Op.Store ptr p.call⟩]
  noOutput : E.hasForEachSignatureOut signature = false → p.outputs = [] ∧ p.store = []
  defined : 0 < numInput ∨ E.hasForEachSignatureOut signature = true →
    ∃ idx, p.v.Index = some idx
  added : s1.2.variables = s.2.variables ++ (p.rounds.map fun r => r.buffer) ++ p.outputs
  functions : s1.2.functions = s.2.functions ++ [p.function E signature kernel]
  entryPoints : s1.2.entryPoints = s.2.entryPoints ++ [p.entry name]
  wellFormed : WellFormed s → WellFormed s1

/-- The computation returns from every state, with a result that satisfies `P`. -/
def Returns {α : Type} (x : M α) (P : α → Prop) : Prop :=
  ∀ s, ∃ a s1, x.run s = some (a, s1) ∧ P a

/-- The state `s1` is reached from `s` by adding the variables `vs`, in order, to the
global section, together with other instructions of the global section whose
identifiers the builder handed out in between, and decorations; functions, entry
points and names are the same, a built-in variable that `s` has stays, and
well-formedness is kept. -/
structure Step (vs : List Instruction) (s s1 : St) : Prop where
  nextId : s.1.nextId ≤ s1.1.nextId
  globals : ∃ l, s1.2.globals = s.2.globals ++ l ∧
    ∀ x ∈ l, s.1.nextId ≤ x.id ∧ x.id < s1.1.nextId
  added : s1.2.variables = s.2.variables ++ vs
  decorations : ∃ l, s1.2.decorations = s.2.decorations ++ l
  functions : s1.2.functions = s.2.functions
  entryPoints : s1.2.entryPoints = s.2.entryPoints
  names : s1.2.names = s.2.names
  invocationId : ∀ v, s.2.invocationId = some v → s1.2.invocationId = some v
  numWorkgroups : ∀ v, s.2.numWorkgroups = some v → s1.2.numWorkgroups = some v
  wellFormed : WellFormed s → WellFormed s1

/-! ## Examples -/

/-- The signature tests of `bcinfo::MetadataExtractor` with its bit masks (input 0x01,
output 0x02, user data 0x04, x 0x08, y 0x10, kernel 0x20, z 0x40, context 0x80), an
element size of 4 bytes, and stand-ins for the collaborators: a decoder that yields
`decoded` for a non-empty word sequence, and transforms that return fixed words. -/
def exampleExternals (decoded : Module) (allocs : Option (List RSAllocationInfo)) : Externals :=
  { hasForEachSignatureIn := fun s => s % 2 == 1
    hasForEachSignatureOut := fun s => s / 2 % 2 == 1
    hasForEachSignatureUsrData := fun s => s / 4 % 2 == 1
    hasForEachSignatureX := fun s => s / 8 % 2 == 1
    hasForEachSignatureY := fun s => s / 16 % 2 == 1
    hasForEachSignatureKernel := fun s => s / 32 % 2 == 1
    hasForEachSignatureZ := fun s => s / 64 % 2 == 1
    hasForEachSignatureCtxt := fun s => s / 128 % 2 == 1
    getSize := fun _ _ => 4
    Deserialize := fun words => if words = [] then none else some decoded
    resolveIds := fun m => (true, m)
    TranslateBuiltins := fun b _ error => ([119734787], b, error)
    TranslateGAAccessors := fun _ _ _ error => ([119734787], error)
    getRSAllocationInfo := fun _ => allocs }

/-- A module with one kernel `foo` of two parameters (an unsigned and a signed 32-bit
integer) that returns an unsigned 32-bit integer. -/
def exampleModule : Module :=
  { capabilities := [], extInstImports := [], memoryModel := none, entryPoints := [],
    source := none, sourceExtensions := [], names := [("foo", 5)], decorations := [],
    globals := [⟨1, Op.TypeInt 32 0⟩, ⟨2, Op.TypeInt 32 1⟩, ⟨3, Op.TypeFunction 1 [1, 2]⟩],
    invocationId := none, numWorkgroups := none,
    functions :=
      [{ inst := ⟨5, 1, 0, 3⟩, params := [⟨6, 1⟩, ⟨7, 2⟩],
         blocks := [[⟨8, Op.Label⟩, ⟨9, Op.Return⟩]] }] }

/-- The externals of the examples that do not decode. -/
def exampleE : Externals := exampleExternals exampleModule none

/-- The state of the examples: `exampleModule` with a builder above its identifiers. -/
def exampleState : St := ({ nextId := 10 }, exampleModule)

/-- The final state of a run, or `d` when the run has no defined behaviour. -/
def finalState {α : Type} (r : Option (α × St)) (d : St) : St :=
  match r with
  | some (_, s) => s
  | none => d


/-- The state after `AddWrapper` for the kernel `foo` of the examples with a signature
that has the input, output and kernel flags (0x23) and two inputs. -/
def exampleWrapped : St :=
  finalState ((AddWrapper exampleE "foo" 35 2).run exampleState) exampleState

/-- The state after `AddWrapper` for the kernel `foo` of the examples with a signature
that has the input, x, y, z and kernel flags (0x79) and one input. -/
def exampleWrappedXYZ : St :=
  finalState ((AddWrapper exampleE "foo" 121 1).run exampleState) exampleState


/-- A shader module with the global aggregate `__GPUBlock` (a variable whose type is a
pointer to a struct of one unsigned 32-bit integer) and no kernel. -/
def exampleGPUModule : Module :=
  { capabilities := [], extInstImports := [], memoryModel := none, entryPoints := [],
    source := none, sourceExtensions := [], names := [("__GPUBlock", 4)], decorations := [],
    globals :=
      [⟨1, Op.TypeInt 32 0⟩, ⟨2, Op.TypeStruct [1]⟩, ⟨3, Op.TypePointer StorageClass.Function 2⟩,
       ⟨4, Op.Variable 3 StorageClass.Function⟩],
    invocationId := none, numWorkgroups := none, functions := [] }

/-- A native module whose `__GPUBlock` global is a pointer to a struct of one element at
offset 0. -/
def exampleLM : LLVM.Module :=
  { globals :=
      [{ getName := "__GPUBlock",
         getType := LLVM.LType.PointerType (LLVM.LType.Struct ⟨"struct.GPUBlock", 1⟩) }],
    getStructLayout := fun _ => some { getElementOffset := fun _ => 0 } }

/-- The externals of the example in which the host declares the global allocation
`alloc`, which the shader module `exampleGPUModule` does not have. -/
def exampleMissingAlloc : Externals := exampleExternals exampleGPUModule (some [⟨"alloc"⟩])

/-- Metadata without exported kernels. -/
def exampleNoKernels : MetadataExtractor :=
  { getExportForEachSignatureCount := 0
    getExportForEachNameList := fun _ => ""
    getExportForEachSignatureList := fun _ => 0
    getExportForEachInputCountList := fun _ => 0 }

/-- Metadata of two exported kernels: `foo` with a signature that lacks the kernel flag
(0x03) and `bar`. -/
def exampleTwoKernels : MetadataExtractor :=
  { getExportForEachSignatureCount := 2
    getExportForEachNameList := fun i => if i = 0 then "foo" else "bar"
    getExportForEachSignatureList := fun i => if i = 0 then 3 else 35
    getExportForEachInputCountList := fun _ => 1 }

/-- The state in which `AddGLComputeWrappers` runs `DecorateGlobalBuffer` for a decoded
and resolved module `m`. -/
def decorateState (m : Module) : St :=
  (m.setBuilder { nextId := 1 }, AddHeader (FixGlobalStorageClass m))


/-- A native module without globals. -/
def exampleEmptyLM : LLVM.Module :=
  { globals := [], getStructLayout := fun _ => none }
/-! ## Further predicates and examples -/

/-- The name `__GPUBlock` of module `m` names the instruction `var`, a variable of the global
section whose type is a pointer type of the global section with the pointee `StructTy`:
what the casts of lines 277-284 of `DecorateGlobalBuffer` take for granted. -/
def IsGlobalAggregate (m : Module) (var : Nat) (StructTy : Instruction) : Prop :=
  m.lookupByName "__GPUBlock" = some var ∧
  ∃ (type : Nat) (storage storage1 : StorageClass) (StructPtrTy : Instruction),
    (m.getInstruction var).map (fun x => x.op) = some (Op.Variable type storage) ∧
    m.getInstruction type = some StructPtrTy ∧
    StructPtrTy.op = Op.TypePointer storage1 StructTy.id ∧
    m.getInstruction StructTy.id = some StructTy

/-- The state of `DecorateGlobalBuffer` after line 285: the aggregate has its descriptor
set and its binding 0, and its struct type is decorated as a buffer block. -/
def DecorateGlobalBuffer.decorated (s : St) (var : Nat) (StructTy : Instruction) : St :=
  (s.1,
    ((s.2.addDecoration (DecorateInst.Decorate var Decoration.DescriptorSet [0])).addDecoration
      (DecorateInst.Decorate var Decoration.Binding [0])).addDecoration
      (DecorateInst.Decorate StructTy.id Decoration.BufferBlock []))

/-- The offset decorations that the member loop of `DecorateGlobalBuffer` (lines 316-324)
gives the first `n` members of the struct type `StructTy`, in member order: the native
offsets as unsigned 32-bit values. -/
def DecorateGlobalBuffer.offsets (StructTy : Instruction) (SLayout : LLVM.StructLayout)
    (n : Nat) : List DecorateInst :=
  (List.range n).map fun i =>
    DecorateInst.MemberDecorate StructTy.id i Decoration.Offset
      [SLayout.getElementOffset i % 2 ^ 32]

/-- The state of `DecorateGlobalBuffer` after the member loop (line 326). -/
def DecorateGlobalBuffer.laidOut (s : St) (var : Nat) (StructTy : Instruction)
    (SLayout : LLVM.StructLayout) (n : Nat) : St :=
  (s.1,
    { (DecorateGlobalBuffer.decorated s var StructTy).2 with
      decorations := (DecorateGlobalBuffer.decorated s var StructTy).2.decorations ++
        DecorateGlobalBuffer.offsets StructTy SLayout n })

/-- A shader module with the global aggregate `__GPUBlock` (a variable whose type is a
pointer to a struct of two unsigned 32-bit integers), the global allocation `alloc` and
no kernel. -/
def exampleAllocModule : Module :=
  { capabilities := [], extInstImports := [], memoryModel := none, entryPoints := [],
    source := none, sourceExtensions := [], names := [("__GPUBlock", 4), ("alloc", 6)],
    decorations := [],
    globals :=
      [⟨1, Op.TypeInt 32 0⟩, ⟨2, Op.TypeStruct [1, 1]⟩, ⟨3, Op.TypePointer StorageClass.Uniform 2⟩,
       ⟨4, Op.Variable 3 StorageClass.Uniform⟩, ⟨5, Op.TypePointer StorageClass.Uniform 1⟩,
       ⟨6, Op.Variable 5 StorageClass.Uniform⟩],
    invocationId := none, numWorkgroups := none, functions := [] }

/-- The state of the examples of the global buffer: `exampleAllocModule` with a builder
above its identifiers. -/
def exampleAllocState : St := ({ nextId := 7 }, exampleAllocModule)

/-- A native module whose `__GPUBlock` global is a pointer to a struct of two elements,
at the offsets 0 and 8. -/
def exampleAllocLM : LLVM.Module :=
  { globals :=
      [{ getName := "__GPUBlock",
         getType := LLVM.LType.PointerType (LLVM.LType.Struct ⟨"struct.GPUBlock", 2⟩) }],
    getStructLayout := fun _ => some { getElementOffset := fun i => 8 * i } }

/-- The externals of the example in which the host declares the global allocation
`alloc`, which the shader module `exampleAllocModule` has. -/
def exampleAlloc : Externals := exampleExternals exampleAllocModule (some [⟨"alloc"⟩])

/-- A native module whose `__GPUBlock` global is a pointer to an integer. -/
def exampleWrongLM : LLVM.Module :=
  { globals :=
      [{ getName := "__GPUBlock", getType := LLVM.LType.PointerType (LLVM.LType.Other "i32") }],
    getStructLayout := fun _ => none }

/-- The target and the operands of a decoration, if it is a `Binding` decoration. -/
def DecorateInst.binding : DecorateInst → Option (Nat × List Nat)
  | DecorateInst.Decorate target Decoration.Binding extra => some (target, extra)
  | _ => none

/-- The `Binding` decorations of a module, in order: target and operands. -/
def Module.bindings (m : Module) : List (Nat × List Nat) :=
  m.decorations.filterMap DecorateInst.binding

/-- No two distinct variables of the module that are decorated with descriptor set 0
carry the same `Binding` value. -/
def DistinctBindings (m : Module) : Prop :=
  ∀ v ∈ m.variables, ∀ w ∈ m.variables, v ≠ w →
    DecorateInst.Decorate v.id Decoration.DescriptorSet [0] ∈ m.decorations →
    DecorateInst.Decorate w.id Decoration.DescriptorSet [0] ∈ m.decorations →
    ∀ k, DecorateInst.Decorate v.id Decoration.Binding k ∈ m.decorations →
      DecorateInst.Decorate w.id Decoration.Binding k ∉ m.decorations

/-- The state `s1` is reached from `s` by a step that adds the variables of `bs`, in
order, each with one `Binding` decoration, its number in `bs`, and no other `Binding`
decoration; the identifiers of the variables are pairwise distinct. -/
structure Binds (bs : List (Instruction × Nat)) (s s1 : St) : Prop where
  step : Step (bs.map Prod.fst) s s1
  bindings : s1.2.bindings = s.2.bindings ++ bs.map fun p => (p.1.id, [p.2])
  nodup : (bs.map fun p => p.1.id).Nodup

/-- A shader module with two kernels, `foo` and `bar`, of one unsigned 32-bit parameter
each, that return an unsigned 32-bit integer. -/
def exampleTwoKernelModule : Module :=
  { capabilities := [], extInstImports := [], memoryModel := none, entryPoints := [],
    source := none, sourceExtensions := [], names := [("foo", 5), ("bar", 10)], decorations := [],
    globals := [⟨1, Op.TypeInt 32 0⟩, ⟨3, Op.TypeFunction 1 [1]⟩],
    invocationId := none, numWorkgroups := none,
    functions :=
      [{ inst := ⟨5, 1, 0, 3⟩, params := [⟨6, 1⟩], blocks := [[⟨7, Op.Label⟩, ⟨8, Op.Return⟩]] },
       { inst := ⟨10, 1, 0, 3⟩, params := [⟨11, 1⟩],
         blocks := [[⟨12, Op.Label⟩, ⟨13, Op.Return⟩]] }] }

/-- Metadata of the two exported kernels `foo` and `bar`, each with the input, output
and kernel flags (0x23) and one input. -/
def exampleBothKernels : MetadataExtractor :=
  { getExportForEachSignatureCount := 2
    getExportForEachNameList := fun i => if i = 0 then "foo" else "bar"
    getExportForEachSignatureList := fun _ => 35
    getExportForEachInputCountList := fun _ => 1 }

/-- The shader module `exampleAllocModule` with a kernel `foo` of two unsigned 32-bit
parameters that returns an unsigned 32-bit integer. -/
def exampleAllocKernelModule : Module :=
  { exampleAllocModule with
    names := [("__GPUBlock", 4), ("alloc", 6), ("foo", 8)]
    globals := exampleAllocModule.globals ++ [⟨7, Op.TypeFunction 1 [1, 1]⟩]
    functions :=
      [{ inst := ⟨8, 1, 0, 7⟩, params := [⟨9, 1⟩, ⟨10, 1⟩],
         blocks := [[⟨11, Op.Label⟩, ⟨12, Op.Return⟩]] }] }

/-- Metadata of the one exported kernel `foo` with the input, output and kernel flags
(0x23) and two inputs. -/
def exampleOneKernel : MetadataExtractor :=
  { getExportForEachSignatureCount := 1
    getExportForEachNameList := fun _ => "foo"
    getExportForEachSignatureList := fun _ => 35
    getExportForEachInputCountList := fun _ => 2 }

/-- The state in which `AddGLComputeWrappers` ends its loop over the exported kernels
for a decoded and resolved module `m`, or the state `decorateState m` when the run has
no defined behaviour. -/
def wrappedState (E : Externals) (metadata : MetadataExtractor) (LM : LLVM.Module)
    (m : Module) : St :=
  finalState
    ((AddGLComputeWrappers.wrapKernels E metadata metadata.getExportForEachSignatureCount 0).run
      (finalState ((DecorateGlobalBuffer E LM).run (decorateState m)) (decorateState m)))
    (decorateState m)

/-- Metadata of three exported kernels with one input each: `foo` with the input, output
and kernel flags (0x23), then `bar` with the same flags, then `foo` with the kernel flag
alone (0x20). -/
def exampleThreeKernels : MetadataExtractor :=
  { getExportForEachSignatureCount := 3
    getExportForEachNameList := fun i => if i = 1 then "bar" else "foo"
    getExportForEachSignatureList := fun i => if i = 2 then 32 else 35
    getExportForEachInputCountList := fun _ => 1 }

/-- The externals of the examples with a builtin transform that returns no word. -/
def exampleNoWords : Externals :=
  { exampleE with TranslateBuiltins := fun b _ error => ([], b, error) }


/-- The state `s` with the decorations `D` after those of its module. -/
def withDecorations (s : St) (D : List DecorateInst) : St :=
  (s.1, { s.2 with decorations := s.2.decorations ++ D })

/-- The state `s1` is reached from `s` by a step that adds the variables of `bs`, in
order, each with one `Binding` decoration, its number in `bs`, and no other `Binding`
decoration; the identifiers of the variables are handed out by the builder during the
step, and well-formedness is kept. -/
structure Grows (bs : List (Instruction × Nat)) (s s1 : St) : Prop where
  nextId : s.1.nextId ≤ s1.1.nextId
  added : s1.2.variables = s.2.variables ++ bs.map Prod.fst
  bindings : s1.2.bindings = s.2.bindings ++ bs.map fun p => (p.1.id, [p.2])
  fresh : ∀ p ∈ bs, s.1.nextId ≤ p.1.id ∧ p.1.id < s1.1.nextId
  wellFormed : WellFormed s → WellFormed s1

/-- The state `s1` is reached from `s` by a successful call of `AddWrapper` with
`numInput` inputs that adds the input buffers `ins`, numbered with position + 2, and
the output buffers `outs` (at most one), numbered with 1. -/
def IsWrapStep (numInput : Nat) (ins outs : List (Instruction × Nat)) (s s1 : St) : Prop :=
  ins.length ≤ numInput ∧ (∀ (j : Nat) (p : Instruction × Nat), ins[j]? = some p → p.2 = j + 2) ∧
  outs.length ≤ 1 ∧ (∀ p ∈ outs, p.2 = 1) ∧ Grows (ins ++ outs) s s1

/-- Metadata of the one exported kernel `foo` with the input, output and kernel flags
(0x23) and one input. -/
def exampleOneInput : MetadataExtractor :=
  { getExportForEachSignatureCount := 1
    getExportForEachNameList := fun _ => "foo"
    getExportForEachSignatureList := fun _ => 35
    getExportForEachInputCountList := fun _ => 1 }

/-- The state after `DecorateGlobalBuffer` for the module `exampleAllocKernelModule`
and the allocation `alloc`. -/
def exampleDecorated : St :=
  finalState ((DecorateGlobalBuffer exampleAlloc exampleAllocLM).run
    (decorateState exampleAllocKernelModule)) (decorateState exampleAllocKernelModule)

/-- The state after `DecorateGlobalBuffer` and `AddWrapper` for the kernel `foo` of
`exampleAllocKernelModule` with one input and an output. -/
def exampleBound : St :=
  finalState ((AddWrapper exampleAlloc "foo" 35 1).run exampleDecorated) exampleDecorated

/-- The states of the run for `exampleAllocKernelModule` with the one exported kernel of
`exampleOneInput`: state 0 after `DecorateGlobalBuffer`, the later ones after
`AddWrapper`. -/
def exampleRun : Nat → St
  | 0 => exampleDecorated
  | _ + 1 => exampleBound

/-! ## Runs of the primitive computations -/

theorem run_pure {α : Type} (a : α) (s : St) : (pure a : M α).run s = some (a, s) := rfl

theorem run_bind {α β : Type} (x : M α) (f : α → M β) (s : St) :
    (x >>= f).run s = (x.run s).bind fun p => (f p.1).run p.2 := by
  show M.bind x f s = _
  unfold M.bind M.run
  cases x s <;> rfl

theorem run_bind_eq_some {α β : Type} {x : M α} {f : α → M β} {s : St} {r : β × St} :
    (x >>= f).run s = some r ↔ ∃ a s1, x.run s = some (a, s1) ∧ (f a).run s1 = some r := by
  rw [run_bind, Option.bind_eq_some]
  constructor
  · rintro ⟨⟨a, s1⟩, h1, h2⟩
    exact ⟨a, s1, h1, h2⟩
  · rintro ⟨a, s1, h1, h2⟩
    exact ⟨(a, s1), h1, h2⟩

theorem run_get (s : St) : M.get.run s = some (s, s) := rfl

theorem run_get_bind {β : Type} (f : St → M β) (s : St) :
    (M.get >>= f).run s = (f s).run s := rfl

theorem run_modify (f : St → St) (s : St) : (M.modify f).run s = some ((), f s) := rfl

theorem run_modifyGet {α : Type} (f : St → α × St) (s : St) :
    (M.modifyGet f).run s = some (f s) := rfl

theorem run_nonNull (p : Bool) (s : St) (r : Unit × St) :
    (nonNull p).run s = some r ↔ p = true ∧ r = ((), s) := by
  unfold nonNull M.run
  cases p <;> simp [eq_comm]

theorem run_unchecked {α : Type} (x : Option α) (s : St) (r : α × St) :
    (unchecked x).run s = some r ↔ x = some r.1 ∧ r.2 = s := by
  unfold unchecked M.run
  obtain ⟨r1, r2⟩ := r
  cases x <;> simp [eq_comm]

theorem Builder.run_Make (op : Op) (s : St) :
    (Builder.Make op).run s = some (⟨s.1.nextId, op⟩, (s.1.next, s.2)) := rfl

/-- An access chain is made when every index is defined, and only then. -/
theorem Builder.run_MakeAccessChain (type base : Nat) (indexes : List IdRef) (s : St)
    (a : Instruction) (s1 : St) :
    (Builder.MakeAccessChain type base indexes).run s = some (a, s1) ↔
      (indexes.all fun i => i.isSome) = true ∧
        (⟨s.1.nextId, Op.AccessChain type base indexes⟩ : Instruction) = a ∧
        (s.1.next, s.2) = s1 := by
  unfold Builder.MakeAccessChain
  rw [run_bind_eq_some]
  constructor
  · rintro ⟨u, s0, h1, h2⟩
    rw [run_nonNull] at h1
    obtain ⟨hp, h1⟩ := h1
    cases h1
    rw [Builder.run_Make] at h2
    simp only [Option.some.injEq, Prod.mk.injEq] at h2
    exact ⟨hp, h2.1, h2.2⟩
  · rintro ⟨hp, rfl, rfl⟩
    exact ⟨(), s, (run_nonNull _ _ _).mpr ⟨hp, rfl⟩, rfl⟩


/-! ## Steps -/

theorem Step.refl (s : St) : Step [] s s :=
  { nextId := Nat.le_refl _
    globals := ⟨[], by simp⟩
    added := by simp
    decorations := ⟨[], by simp⟩
    functions := rfl
    entryPoints := rfl
    names := rfl
    invocationId := fun _ h => h
    numWorkgroups := fun _ h => h
    wellFormed := fun h => h }

theorem Step.trans {vs ws : List Instruction} {s s1 s2 : St} (h1 : Step vs s s1)
    (h2 : Step ws s1 s2) : Step (vs ++ ws) s s2 := by
  obtain ⟨l1, hl1, hb1⟩ := h1.globals
  obtain ⟨l2, hl2, hb2⟩ := h2.globals
  obtain ⟨d1, hd1⟩ := h1.decorations
  obtain ⟨d2, hd2⟩ := h2.decorations
  have hn1 := h1.nextId
  have hn2 := h2.nextId
  refine
    { nextId := Nat.le_trans hn1 hn2
      globals := ⟨l1 ++ l2, by rw [hl2, hl1, List.append_assoc], ?_⟩
      added := by rw [h2.added, h1.added, List.append_assoc]
      decorations := ⟨d1 ++ d2, by rw [hd2, hd1, List.append_assoc]⟩
      functions := by rw [h2.functions, h1.functions]
      entryPoints := by rw [h2.entryPoints, h1.entryPoints]
      names := by rw [h2.names, h1.names]
      invocationId := fun v h => h2.invocationId v (h1.invocationId v h)
      numWorkgroups := fun v h => h2.numWorkgroups v (h1.numWorkgroups v h)
      wellFormed := fun h => h2.wellFormed (h1.wellFormed h) }
  intro x hx
  rcases List.mem_append.mp hx with hx | hx
  · have := hb1 x hx
    omega
  · have := hb2 x hx
    omega

/-- A step that adds no variable, followed by a step, is a step with the variables of
the second. -/
theorem Step.trans_nil {ws : List Instruction} {s s1 s2 : St} (h1 : Step [] s s1)
    (h2 : Step ws s1 s2) : Step ws s s2 := by
  simpa using h1.trans h2

theorem Step.trans_nil_right {vs : List Instruction} {s s1 s2 : St} (h1 : Step vs s s1)
    (h2 : Step [] s1 s2) : Step vs s s2 := by
  simpa using h1.trans h2

theorem Step.mem_globals {vs : List Instruction} {s s1 : St} (h : Step vs s s1)
    {x : Instruction} (hx : x ∈ s.2.globals) : x ∈ s1.2.globals := by
  obtain ⟨l, hl, _⟩ := h.globals
  rw [hl]
  exact List.mem_append_left _ hx

theorem Step.mem_decorations {vs : List Instruction} {s s1 : St} (h : Step vs s s1)
    {d : DecorateInst} (hd : d ∈ s.2.decorations) : d ∈ s1.2.decorations := by
  obtain ⟨l, hl⟩ := h.decorations
  rw [hl]
  exact List.mem_append_left _ hd

theorem Step.isBuffer {vs : List Instruction} {s s1 : St} (h : Step vs s s1)
    {var : Instruction} {elementType : Nat} {binding : Nat}
    (hb : IsBuffer s.2 var elementType binding) : IsBuffer s1.2 var elementType binding := by
  obtain ⟨hv, arr, st, ptr, h1, h2, h3, h4, h5, h6⟩ := hb
  exact ⟨h.mem_globals hv, arr, st, ptr, h1, h.mem_globals h2, h.mem_globals h3,
    h.mem_globals h4, h.mem_decorations h5, h.mem_decorations h6⟩

/-- The builder hands out one identifier. -/
theorem Step.make (s : St) : Step [] s (s.1.next, s.2) :=
  { nextId := Nat.le_succ _
    globals := ⟨[], by simp⟩
    added := by simp
    decorations := ⟨[], by simp⟩
    functions := rfl
    entryPoints := rfl
    names := rfl
    invocationId := fun _ h => h
    numWorkgroups := fun _ h => h
    wellFormed := by
      rintro ⟨h1, h2, h3, h4, h5⟩
      refine ⟨fun x hx => Nat.lt_succ_of_lt (h1 x hx), h2, fun v hv => Nat.lt_succ_of_lt (h3 v hv),
        fun v hv => Nat.lt_succ_of_lt (h4 v hv), h5⟩ }

/-- One more decoration. -/
theorem Step.decorate (s : St) (d : DecorateInst) :
    Step [] s (s.1, s.2.addDecoration d) :=
  { nextId := Nat.le_refl _
    globals := ⟨[], by simp [Module.addDecoration]⟩
    added := by simp [Module.variables, Module.addDecoration]
    decorations := ⟨[d], rfl⟩
    functions := rfl
    entryPoints := rfl
    names := rfl
    invocationId := fun _ h => h
    numWorkgroups := fun _ h => h
    wellFormed := fun h => h }


/-- A new instruction of the global section that is not a variable, with the next
identifier of the builder. -/
theorem Step.addGlobal (s : St) (op : Op) (hop : op.isVariable = false) :
    Step [] s (s.1.next, s.2.addGlobal ⟨s.1.nextId, op⟩) :=
  { nextId := Nat.le_succ _
    globals := ⟨[⟨s.1.nextId, op⟩], rfl, by simp [Builder.next]⟩
    added := by simp [Module.variables, Module.addGlobal, List.filter_append, hop]
    decorations := ⟨[], by simp [Module.addGlobal]⟩
    functions := rfl
    entryPoints := rfl
    names := rfl
    invocationId := fun _ h => h
    numWorkgroups := fun _ h => h
    wellFormed := by
      rintro ⟨h1, h2, h3, h4, h5⟩
      refine ⟨?_, ?_, fun v hv => Nat.lt_succ_of_lt (h3 v hv),
        fun v hv => Nat.lt_succ_of_lt (h4 v hv), h5⟩
      · intro x hx
        simp only [Module.addGlobal, List.mem_append, List.mem_singleton] at hx
        rcases hx with hx | hx
        · exact Nat.lt_succ_of_lt (h1 x hx)
        · subst hx
          exact Nat.lt_succ_self _
      · simp only [Module.addGlobal, List.map_append, List.map_cons, List.map_nil]
        rw [List.nodup_append]
        refine ⟨h2, List.nodup_singleton _, ?_⟩
        intro i hi hi2
        simp only [List.mem_singleton] at hi2
        obtain ⟨x, hx, rfl⟩ := List.mem_map.mp hi
        have := h1 x hx
        omega }

theorem Module.intern_spec {op : Op} {s s1 : St} {a : Instruction}
    (h : (Module.intern op).run s = some (a, s1)) (hop : op.isVariable = false) :
    Step [] s s1 ∧ a.op = op ∧ a ∈ s1.2.globals ∧
      s1.2.invocationId = s.2.invocationId ∧ s1.2.numWorkgroups = s.2.numWorkgroups := by
  unfold Module.intern at h
  rw [run_modifyGet] at h
  cases hf : s.2.globals.find? (fun x => x.op = op) with
  | some x =>
    simp only [hf, Option.some.injEq, Prod.mk.injEq] at h
    obtain ⟨rfl, rfl⟩ := h
    have hx := List.find?_some hf
    have hm := List.mem_of_find?_eq_some hf
    simp only [decide_eq_true_eq] at hx
    refine ⟨Step.refl _, rfl, ?_, rfl, rfl⟩
    have : (⟨x.id, op⟩ : Instruction) = x := by
      cases x
      simp_all
    rw [this]
    exact hm
  | none =>
    simp only [hf, Option.some.injEq, Prod.mk.injEq] at h
    obtain ⟨rfl, rfl⟩ := h
    exact ⟨Step.addGlobal s op hop, rfl, by simp [Module.addGlobal], rfl, rfl⟩

theorem Instruction.run_memberDecorate {target : Instruction} {member : Nat} {d : Decoration}
    {extra : List Nat} {s : St} {r : Bool × St}
    (h : (target.memberDecorate member d extra).run s = some r) :
    (r.1 = true ∧ (∃ ms, target.op = Op.TypeStruct ms) ∧
        r.2 = (s.1, s.2.addDecoration (DecorateInst.MemberDecorate target.id member d extra))) ∨
      (r.1 = false ∧ r.2 = s) := by
  unfold Instruction.memberDecorate at h
  split at h
  · rename_i ms hms
    left
    rw [run_bind_eq_some] at h
    obtain ⟨a, s1, h1, h2⟩ := h
    rw [run_modify] at h1
    rw [run_pure] at h2
    cases h1
    cases h2
    exact ⟨rfl, ⟨ms, hms⟩, rfl⟩
  · right
    rw [run_pure] at h
    cases h
    exact ⟨rfl, rfl⟩

/-- A member decoration that is then used through its pointer. -/
theorem Instruction.memberDecorate_nonNull {target : Instruction} {member : Nat}
    {d : Decoration} {extra : List Nat} {s s1 s2 : St} {ok : Bool} {u : Unit}
    (h : (target.memberDecorate member d extra).run s = some (ok, s1))
    (h2 : (nonNull ok).run s1 = some (u, s2)) :
    (∃ ms, target.op = Op.TypeStruct ms) ∧
      s2 = (s.1, s.2.addDecoration (DecorateInst.MemberDecorate target.id member d extra)) := by
  rw [run_nonNull] at h2
  obtain ⟨hok, h2⟩ := h2
  cases h2
  rcases Instruction.run_memberDecorate h with ⟨_, hs, heq⟩ | ⟨hf, _⟩
  · exact ⟨hs, heq⟩
  · simp only at hf
    rw [hok] at hf
    cases hf


/-- A new variable with the next identifier of the builder, decorated twice and added
to the global section. -/
theorem Step.addVariable (s : St) (type : Nat) (storage : StorageClass) (d1 d2 : DecorateInst) :
    Step [⟨s.1.nextId, Op.Variable type storage⟩] s
      (s.1.next,
       ((s.2.addDecoration d1).addDecoration d2).addGlobal ⟨s.1.nextId, Op.Variable type storage⟩) :=
  { nextId := Nat.le_succ _
    globals := ⟨[⟨s.1.nextId, Op.Variable type storage⟩], rfl, by simp [Builder.next]⟩
    added := by
      simp [Module.variables, Module.addGlobal, Module.addDecoration, List.filter_append,
        Op.isVariable]
    decorations := ⟨[d1, d2], by simp [Module.addGlobal, Module.addDecoration]⟩
    functions := rfl
    entryPoints := rfl
    names := rfl
    invocationId := fun _ h => h
    numWorkgroups := fun _ h => h
    wellFormed := by
      rintro ⟨h1, h2, h3, h4, h5⟩
      refine ⟨?_, ?_, fun v hv => Nat.lt_succ_of_lt (h3 v hv),
        fun v hv => Nat.lt_succ_of_lt (h4 v hv), h5⟩
      · intro x hx
        simp only [Module.addGlobal, Module.addDecoration, List.mem_append,
          List.mem_singleton] at hx
        rcases hx with hx | hx
        · exact Nat.lt_succ_of_lt (h1 x hx)
        · subst hx
          exact Nat.lt_succ_self _
      · simp only [Module.addGlobal, Module.addDecoration, List.map_append, List.map_cons,
          List.map_nil]
        rw [List.nodup_append]
        refine ⟨h2, List.nodup_singleton _, ?_⟩
        intro i hi hi2
        simp only [List.mem_singleton] at hi2
        obtain ⟨x, hx, rfl⟩ := List.mem_map.mp hi
        have := h1 x hx
        omega }

theorem Instruction.eta {a : Instruction} {op : Op} (h : a.op = op) :
    (⟨a.id, op⟩ : Instruction) = a := by
  cases a
  simp_all

theorem AddBuffer_spec {E : Externals} {elementType binding : Nat} {s s1 : St}
    {var : Instruction} (h : (AddBuffer E elementType binding).run s = some (var, s1)) :
    Step [var] s s1 ∧ IsBuffer s1.2 var elementType binding ∧ s.1.nextId ≤ var.id := by
  unfold AddBuffer at h
  simp only [run_bind_eq_some, run_get, run_pure, Instruction.decorate, run_modify,
    Builder.MakeVariable, Builder.run_Make, Module.addVariable, Option.some.injEq,
    Prod.mk.injEq] at h
  obtain ⟨ArrTy, sA, hA, _, _, ⟨rfl, rfl⟩, _, _, ⟨-, rfl⟩, StructTy, sB, hB, _, _, ⟨-, rfl⟩,
    ok, sC, hC, u, sD, hD, PtrTy, sE, hE, _, _, ⟨rfl, rfl⟩, _, _, ⟨-, rfl⟩, _, _, ⟨-, rfl⟩,
    _, _, ⟨-, rfl⟩, rfl, rfl⟩ := h
  obtain ⟨-, rfl⟩ := Instruction.memberDecorate_nonNull hC hD
  dsimp only at hE
  obtain ⟨stA, opA, memA, -, -⟩ := Module.intern_spec hA rfl
  obtain ⟨stB, opB, memB, -, -⟩ := Module.intern_spec hB rfl
  obtain ⟨stE, opE, memE, -, -⟩ := Module.intern_spec hE rfl
  have stAB : Step [] sA sB := (Step.decorate _ _).trans_nil stB
  have stBE : Step [] sB sE := (Step.decorate _ _).trans_nil ((Step.decorate _ _).trans_nil stE)
  have st2 : Step [] s sE := stA.trans_nil (stAB.trans_nil stBE)
  have st3 := Step.addVariable sE PtrTy.id StorageClass.Uniform
    (DecorateInst.Decorate sE.1.nextId Decoration.DescriptorSet [0])
    (DecorateInst.Decorate sE.1.nextId Decoration.Binding [binding])
  refine ⟨st2.trans_nil st3, ?_, st2.nextId⟩
  have hm : ∀ x, x ∈ sE.2.globals →
      x ∈ (((sE.2.addDecoration (DecorateInst.Decorate sE.1.nextId Decoration.DescriptorSet [0])).addDecoration
        (DecorateInst.Decorate sE.1.nextId Decoration.Binding [binding])).addGlobal
          ⟨sE.1.nextId, Op.Variable PtrTy.id StorageClass.Uniform⟩).globals := by
    intro x hx
    simp [Module.addGlobal, Module.addDecoration, hx]
  refine ⟨by simp [Module.addGlobal], ArrTy.id, StructTy.id, PtrTy.id, rfl, ?_, ?_, ?_, ?_, ?_⟩
  · rw [Instruction.eta opE]
    exact hm _ memE
  · rw [Instruction.eta opB]
    exact hm _ (stBE.mem_globals memB)
  · rw [Instruction.eta opA]
    exact hm _ (stBE.mem_globals (stAB.mem_globals memA))
  · simp [Module.addGlobal, Module.addDecoration]
  · simp [Module.addGlobal, Module.addDecoration]


/-- A new built-in variable for the invocation id, with the next identifier of the
builder and one decoration. -/
theorem Step.setInvocationId (s : St) (op : Op) (d : DecorateInst)
    (h : s.2.invocationId = none) :
    Step [] s
      (s.1.next, { s.2.addDecoration d with invocationId := some ⟨s.1.nextId, op⟩ }) :=
  { nextId := Nat.le_succ _
    globals := ⟨[], by simp [Module.addDecoration]⟩
    added := by simp [Module.variables, Module.addDecoration]
    decorations := ⟨[d], rfl⟩
    functions := rfl
    entryPoints := rfl
    names := rfl
    invocationId := fun v hv => by rw [h] at hv; cases hv
    numWorkgroups := fun _ hv => hv
    wellFormed := by
      rintro ⟨h1, h2, h3, h4, h5⟩
      refine ⟨fun x hx => Nat.lt_succ_of_lt (h1 x hx), h2, ?_,
        fun v hv => Nat.lt_succ_of_lt (h4 v hv), ?_⟩
      · intro v hv
        simp only [Option.mem_def, Option.some.injEq] at hv
        subst hv
        exact Nat.lt_succ_self _
      · intro v hv w hw
        simp only [Option.mem_def, Option.some.injEq] at hv
        subst hv
        have := h4 w hw
        simp only [Module.addDecoration] at this ⊢
        omega }

/-- A new built-in variable for the number of workgroups. -/
theorem Step.setNumWorkgroups (s : St) (op : Op) (d : DecorateInst)
    (h : s.2.numWorkgroups = none) :
    Step [] s
      (s.1.next, { s.2.addDecoration d with numWorkgroups := some ⟨s.1.nextId, op⟩ }) :=
  { nextId := Nat.le_succ _
    globals := ⟨[], by simp [Module.addDecoration]⟩
    added := by simp [Module.variables, Module.addDecoration]
    decorations := ⟨[d], rfl⟩
    functions := rfl
    entryPoints := rfl
    names := rfl
    invocationId := fun _ hv => hv
    numWorkgroups := fun v hv => by rw [h] at hv; cases hv
    wellFormed := by
      rintro ⟨h1, h2, h3, h4, h5⟩
      refine ⟨fun x hx => Nat.lt_succ_of_lt (h1 x hx), h2,
        fun v hv => Nat.lt_succ_of_lt (h3 v hv), ?_, ?_⟩
      · intro v hv
        simp only [Option.mem_def, Option.some.injEq] at hv
        subst hv
        exact Nat.lt_succ_self _
      · intro v hv w hw
        simp only [Option.mem_def, Option.some.injEq] at hw
        subst hw
        have := h3 v hv
        simp only [Module.addDecoration] at this ⊢
        omega }

theorem Module.getInvocationId_spec {s s1 : St} {v : Instruction}
    (h : Module.getInvocationId.run s = some (v, s1)) :
    Step [] s s1 ∧ s1.2.invocationId = some v := by
  unfold Module.getInvocationId at h
  rw [run_bind_eq_some] at h
  obtain ⟨s0, _, h0, h⟩ := h
  rw [run_get] at h0
  cases h0
  cases hi : s.2.invocationId with
  | some w =>
    simp only [hi, run_pure, Option.some.injEq, Prod.mk.injEq] at h
    obtain ⟨rfl, rfl⟩ := h
    exact ⟨Step.refl _, hi⟩
  | none =>
    simp only [hi, run_bind_eq_some, run_pure, Instruction.decorate, run_modify,
      Builder.MakeVariable, Builder.run_Make, Option.some.injEq, Prod.mk.injEq] at h
    obtain ⟨UIntTy, sA, hA, V3, sB, hB, PtrTy, sC, hC, _, _, ⟨rfl, rfl⟩, _, _, ⟨-, rfl⟩,
      _, _, ⟨-, rfl⟩, rfl, rfl⟩ := h
    obtain ⟨stA, -, -, iA, -⟩ := Module.intern_spec hA rfl
    obtain ⟨stB, -, -, iB, -⟩ := Module.intern_spec hB rfl
    obtain ⟨stC, -, -, iC, -⟩ := Module.intern_spec hC rfl
    have hn : sC.2.invocationId = none := by rw [iC, iB, iA, hi]
    exact ⟨stA.trans_nil (stB.trans_nil (stC.trans_nil (Step.setInvocationId sC _ _ hn))), rfl⟩

theorem Module.getNumWorkgroups_spec {s s1 : St} {v : Instruction}
    (h : Module.getNumWorkgroups.run s = some (v, s1)) :
    Step [] s s1 ∧ s1.2.numWorkgroups = some v := by
  unfold Module.getNumWorkgroups at h
  rw [run_bind_eq_some] at h
  obtain ⟨s0, _, h0, h⟩ := h
  rw [run_get] at h0
  cases h0
  cases hi : s.2.numWorkgroups with
  | some w =>
    simp only [hi, run_pure, Option.some.injEq, Prod.mk.injEq] at h
    obtain ⟨rfl, rfl⟩ := h
    exact ⟨Step.refl _, hi⟩
  | none =>
    simp only [hi, run_bind_eq_some, run_pure, Instruction.decorate, run_modify,
      Builder.MakeVariable, Builder.run_Make, Option.some.injEq, Prod.mk.injEq] at h
    obtain ⟨UIntTy, sA, hA, V3, sB, hB, PtrTy, sC, hC, _, _, ⟨rfl, rfl⟩, _, _, ⟨-, rfl⟩,
      _, _, ⟨-, rfl⟩, rfl, rfl⟩ := h
    obtain ⟨stA, -, -, -, iA⟩ := Module.intern_spec hA rfl
    obtain ⟨stB, -, -, -, iB⟩ := Module.intern_spec hB rfl
    obtain ⟨stC, -, -, -, iC⟩ := Module.intern_spec hC rfl
    have hn : sC.2.numWorkgroups = none := by rw [iC, iB, iA, hi]
    exact ⟨stA.trans_nil (stB.trans_nil (stC.trans_nil (Step.setNumWorkgroups sC _ _ hn))), rfl⟩

/-- The builder hands out `k` identifiers. -/
theorem Step.makes (s : St) (k : Nat) : Step [] s ({ nextId := s.1.nextId + k }, s.2) := by
  induction k with
  | zero => exact Step.refl s
  | succ k ih => exact ih.trans_nil (Step.make _)

theorem AddWrapper.computeIndex_spec {UIntTy : Instruction} {Blk Blk' : Block} {v : IndexVars}
    {s s' : St} (h : (AddWrapper.computeIndex UIntTy Blk).run s = some ((v, Blk'), s')) :
    ∃ (V3UIntTy inv ConstOne GroupSize nwg : Instruction) (a0 a1 a2 : Nat),
      Step [] s s' ∧ s'.2.invocationId = some inv ∧ s'.2.numWorkgroups = some nwg ∧
      s.1.nextId ≤ a0 ∧ a0 + 4 ≤ a1 ∧ a1 + 2 ≤ a2 ∧ a2 + 9 = s'.1.nextId ∧
      ConstOne ∈ s'.2.globals ∧ ConstOne.op = Op.Constant UIntTy.id 1 ∧
      GroupSize ∈ s'.2.globals ∧
      GroupSize.op = Op.ConstantComposite V3UIntTy.id [ConstOne.id, ConstOne.id, ConstOne.id] ∧
      (WellFormed s → (GroupSize.id < a0 ∨ a0 + 4 ≤ GroupSize.id) ∧ GroupSize.id < a1) ∧
      v = { XValue := some ⟨a0 + 1, Op.CompositeExtract UIntTy.id a0 [0]⟩
            YValue := some ⟨a0 + 2, Op.CompositeExtract UIntTy.id a0 [1]⟩
            ZValue := some ⟨a0 + 3, Op.CompositeExtract UIntTy.id a0 [2]⟩
            Index := some ⟨a2 + 8, Op.IAdd UIntTy.id (a2 + 7) (a0 + 1)⟩
            InvocationId := some inv
            NumWorkgroups := some nwg } ∧
      Blk' = Blk ++
        indexInstructions UIntTy.id V3UIntTy.id inv.id GroupSize.id nwg.id a0 a1 a2 := by
  unfold AddWrapper.computeIndex at h
  simp only [run_bind_eq_some, run_pure, Builder.MakeLoad, Builder.MakeCompositeExtract,
    Builder.MakeIMul, Builder.MakeIAdd, Builder.run_Make, Option.some.injEq,
    Prod.mk.injEq, exists_and_left, exists_eq_left', and_assoc] at h
  obtain ⟨V3, sA, hA, inv, sB, hB, ConstOne, sC, hC, GroupSize, sD, hD, nwg, sE, hE,
    rfl, rfl, rfl⟩ := h
  obtain ⟨stA, -, -, -, -⟩ := Module.intern_spec hA rfl
  obtain ⟨stB, invB⟩ := Module.getInvocationId_spec hB
  obtain ⟨stC, opC, memC, -, -⟩ := Module.intern_spec hC rfl
  obtain ⟨stD, opD, memD, -, -⟩ := Module.intern_spec hD rfl
  obtain ⟨stE, nwgE⟩ := Module.getNumWorkgroups_spec hE
  have stSB : Step [] s sB := stA.trans_nil stB
  have stB4 : Step [] sB (sB.1.next.next.next.next, sB.2) := Step.makes sB 4
  have stBD : Step [] (sB.1.next.next.next.next, sB.2) sD := stC.trans_nil stD
  have stD2 : Step [] sD (sD.1.next.next, sD.2) := Step.makes sD 2
  have stBE : Step [] (sB.1.next.next.next.next, sB.2) sE := stBD.trans_nil (stD2.trans_nil stE)
  have stE9 : Step [] sE (sE.1.next.next.next.next.next.next.next.next.next, sE.2) :=
    Step.makes sE 9
  refine ⟨V3, inv, ConstOne, GroupSize, nwg, sB.1.nextId, sD.1.nextId, sE.1.nextId,
    stSB.trans_nil (stB4.trans_nil (stBE.trans_nil stE9)), ?_, nwgE, stSB.nextId, stBD.nextId,
    stE.nextId, rfl, ?_, opC, ?_, opD, ?_, rfl, ?_⟩
  · exact stBE.invocationId _ invB
  · exact stE.mem_globals (stD2.mem_globals (stD.mem_globals memC))
  · exact stE.mem_globals (stD2.mem_globals memD)
  · intro hwf
    obtain ⟨l, hl, hb⟩ := stBD.globals
    have hwB := stSB.wellFormed hwf
    have hwD := stBD.wellFormed (stB4.wellFormed hwB)
    refine ⟨?_, hwD.1 _ memD⟩
    have hx := memD
    rw [hl] at hx
    rcases List.mem_append.mp hx with hx | hx
    · left
      exact hwB.1 _ hx
    · right
      exact (hb _ hx).1
  · simp [indexInstructions, Builder.next]

/-- The access chains of `AddWrapper` are made only when `Index` is defined. -/
theorem index_defined {c : Nat} {Index : Option Instruction}
    (h : ([some c, Index.map fun x => x.id].all fun i => i.isSome) = true) :
    ∃ idx, Index = some idx := by
  cases Index with
  | none => simp at h
  | some x => exact ⟨x, rfl⟩

theorem IsInputRound.mono {vs : List Instruction} {s s1 : St} (h : Step vs s s1)
    {kernel : FunctionDefinition} {ConstZero : Instruction} {Index : Option Instruction}
    {i : Nat} {r : InputRound} (hr : IsInputRound s.2 kernel ConstZero Index i r) :
    IsInputRound s1.2 kernel ConstZero Index i r := by
  obtain ⟨param, PtrTy, h1, h2, h3, h4, h5⟩ := hr
  exact ⟨param, PtrTy, h1, h.isBuffer h2, h.mem_globals h3, h4, h5⟩

theorem AddWrapper.loadInputs_spec {E : Externals} {kernel : FunctionDefinition}
    {ConstZero : Instruction} {Index : Option Instruction} :
    ∀ (count i : Nat) (Blk : Block) (inputs : List IdRef) (s : St) (Blk' : Block)
      (inputs' : List IdRef) (s' : St),
      (AddWrapper.loadInputs E kernel ConstZero Index count i Blk inputs).run s
          = some ((Blk', inputs'), s') →
      ∃ rounds : List InputRound,
        rounds.length = count ∧
        Step (rounds.map fun r => r.buffer) s s' ∧
        Blk' = Blk ++ (rounds.map fun r => [r.Ptr, r.input]).flatten ∧
        inputs' = inputs ++ rounds.map (fun r => some r.input.id) ∧
        (∀ j r, rounds[j]? = some r → IsInputRound s'.2 kernel ConstZero Index (i + j) r) ∧
        (0 < count → ∃ idx, Index = some idx) := by
  intro count
  induction count with
  | zero =>
    intro i Blk inputs s Blk' inputs' s' h
    rw [AddWrapper.loadInputs, run_pure] at h
    simp only [Option.some.injEq, Prod.mk.injEq] at h
    obtain ⟨⟨rfl, rfl⟩, rfl⟩ := h
    exact ⟨[], rfl, Step.refl _, by simp, by simp, by simp, fun h0 => absurd h0 (Nat.lt_irrefl 0)⟩
  | succ count ih =>
    intro i Blk inputs s Blk' inputs' s' h
    rw [AddWrapper.loadInputs] at h
    simp only [run_bind_eq_some, run_unchecked, Builder.run_MakeAccessChain, Builder.MakeLoad,
      Builder.run_Make, Option.some.injEq, Prod.mk.injEq, exists_and_left, exists_eq_left',
      and_assoc] at h
    obtain ⟨param, hparam, _, rfl, buf, sA, hA, PtrTy, sB, hB, hidx, h⟩ := h
    obtain ⟨stA, bufA, -⟩ := AddBuffer_spec hA
    obtain ⟨stB, opB, memB, -, -⟩ := Module.intern_spec hB rfl
    obtain ⟨rounds, hlen, stR, hBlk, hin, hrounds, -⟩ := ih _ _ _ _ _ _ _ h
    have stB2 : Step [] sB (sB.1.next.next, sB.2) := Step.makes sB 2
    have stBR := stB.trans_nil (stB2.trans_nil stR)
    refine ⟨⟨buf, ⟨sB.1.nextId, Op.AccessChain PtrTy.id buf.id
        [some ConstZero.id, Index.map fun x => x.id]⟩,
        ⟨sB.1.next.nextId, Op.Load param.mResultType sB.1.nextId⟩⟩ :: rounds, ?_, ?_, ?_, ?_, ?_,
        fun _ => index_defined hidx⟩
    · simp [hlen]
    · exact stA.trans stBR
    · rw [hBlk]
      simp
    · rw [hin]
      simp
    · intro j r hj
      cases j with
      | zero =>
        simp only [List.getElem?_cons_zero, Option.some.injEq] at hj
        subst hj
        refine ⟨param, PtrTy.id, hparam, stBR.isBuffer bufA, ?_, rfl, rfl⟩
        rw [Instruction.eta opB]
        exact stR.mem_globals (stB2.mem_globals memB)
      | succ j =>
        simp only [List.getElem?_cons_succ] at hj
        have := hrounds j r hj
        rw [show i + (j + 1) = i + 1 + j by omega]
        exact this

theorem AddWrapper.storeOutput_spec {E : Externals} {resultType : Nat}
    {ConstZero kernelCall : Instruction} {Index : Option Instruction} {Blk Blk' : Block}
    {s s' : St}
    (h : (AddWrapper.storeOutput E resultType ConstZero Index kernelCall Blk).run s
      = some (Blk', s')) :
    ∃ (buf PtrTy : Instruction) (p : Nat),
      Step [buf] s s' ∧ IsBuffer s'.2 buf resultType 1 ∧
      PtrTy.op = Op.TypePointer StorageClass.Function resultType ∧ PtrTy ∈ s'.2.globals ∧
      Blk' = Blk ++
        [⟨p, Op.AccessChain PtrTy.id buf.id [some ConstZero.id, Index.map fun x => x.id]⟩,
         ⟨p + 1, Op.Store p kernelCall.id⟩] ∧
      ∃ idx, Index = some idx := by
  unfold AddWrapper.storeOutput at h
  simp only [run_bind_eq_some, run_pure, Builder.run_MakeAccessChain, Builder.MakeStore,
    Builder.run_Make, Option.some.injEq, Prod.mk.injEq, exists_and_left, exists_eq_left',
    and_assoc] at h
  obtain ⟨buf, sA, hA, PtrTy, sB, hB, hidx, rfl, rfl⟩ := h
  obtain ⟨stA, bufA, -⟩ := AddBuffer_spec hA
  obtain ⟨stB, opB, memB, -, -⟩ := Module.intern_spec hB rfl
  have stB2 : Step [] sB (sB.1.next.next, sB.2) := Step.makes sB 2
  have stBR := stB.trans_nil stB2
  refine ⟨buf, PtrTy, sB.1.nextId, stA.trans_nil_right stBR, stBR.isBuffer bufA, opB,
    stB2.mem_globals memB, ?_, index_defined hidx⟩
  simp [Builder.next]

theorem Builder.run_MakeFunctionDefinition (returnType control functionType : Nat) (s : St) :
    (Builder.MakeFunctionDefinition returnType control functionType).run s =
      some ({ inst := { id := s.1.nextId, mResultType := returnType, control := control,
                        functionType := functionType },
              params := [], blocks := [] }, (s.1.next, s.2)) := rfl

/-- The registration of the function and of the entry point at the end of `AddWrapper`
keeps the global section, the built-in variables and well-formedness. -/
theorem WellFormed.register {s : St} (h : WellFormed s) (fs : List FunctionDefinition)
    (es : List EntryPointDefinition) :
    WellFormed (s.1.next, { s.2 with functions := fs, entryPoints := es }) := by
  obtain ⟨h1, h2, h3, h4, h5⟩ := h
  exact ⟨fun x hx => Nat.lt_succ_of_lt (h1 x hx), h2, fun v hv => Nat.lt_succ_of_lt (h3 v hv),
    fun v hv => Nat.lt_succ_of_lt (h4 v hv), h5⟩

theorem AddWrapper_spec {E : Externals} {name : String} {signature numInput : Nat} {s s' : St}
    {kernel : FunctionDefinition}
    (hk : s.2.lookupFunctionDefinitionByName name = some kernel)
    (h : (AddWrapper E name signature numInput).run s = some (true, s')) :
    ∃ p : Wrapper, IsWrapper E name signature numInput kernel s s' p := by
  unfold AddWrapper at h
  rw [run_bind_eq_some] at h
  obtain ⟨s0, _, h0, h⟩ := h
  rw [run_get] at h0
  cases h0
  simp only [hk] at h
  split at h
  · simp [run_pure] at h
  split at h
  · simp [run_pure] at h
  split at h
  · simp [run_pure] at h
  rename_i hK hU hC
  simp only [run_bind_eq_some, run_pure, Builder.MakeLabel, Builder.MakeFunctionCall,
    Builder.MakeReturn, Builder.run_Make, Builder.run_MakeFunctionDefinition,
    Module.addFunctionDefinition, Module.addEntryPoint,
    run_modify, Option.some.injEq, Prod.mk.injEq, exists_and_left, exists_eq_left', and_assoc,
    true_and, exists_const] at h
  obtain ⟨VoidTy, sA, hA, FuncTy, sB, hB, UIntTy, sD, hD, ⟨v, Blk⟩, sE, hE, ConstZero, sF, hF,
    ⟨BlkIn, inputs⟩, sG, hG, BlkOut, sH, hH, rfl⟩ := h
  dsimp only at hG hH ⊢
  have hKt : E.hasForEachSignatureKernel signature = true := by simpa using hK
  have hUf : E.hasForEachSignatureUsrData signature = false := by simpa using hU
  have hCf : E.hasForEachSignatureCtxt signature = false := by simpa using hC
  obtain ⟨stA, opA, memA, -, -⟩ := Module.intern_spec hA rfl
  obtain ⟨stB, opB, memB, -, -⟩ := Module.intern_spec hB rfl
  obtain ⟨stD, opD, memD, -, -⟩ := Module.intern_spec hD rfl
  obtain ⟨stF, opF, memF, -, -⟩ := Module.intern_spec hF rfl
  obtain ⟨rounds, hlen, stG, hBlkIn, hinputs, hrounds, hdefIn⟩ :=
    AddWrapper.loadInputs_spec _ _ _ _ _ _ _ _ hG
  have stB2 : Step [] sB (sB.1.next.next, sB.2) := Step.makes sB 2
  have stBD : Step [] sB sD := stB2.trans_nil stD
  have stSD : Step [] s sD := stA.trans_nil (stB.trans_nil stBD)
  -- the index computation
  have hidx : ∃ index : Block, Step [] sD sE ∧
      Blk = [⟨sB.1.next.nextId, Op.Label⟩] ++ index ∧
      ((E.hasForEachSignatureIn signature || E.hasForEachSignatureOut signature ||
          E.hasForEachSignatureX signature || E.hasForEachSignatureY signature ||
          E.hasForEachSignatureZ signature) = true → IsLinearIndex s sE.2 UIntTy v index) ∧
      ((E.hasForEachSignatureIn signature || E.hasForEachSignatureOut signature ||
          E.hasForEachSignatureX signature || E.hasForEachSignatureY signature ||
          E.hasForEachSignatureZ signature) = false → v = IndexVars.null ∧ index = []) := by
    split at hE
    · rename_i hflag
      obtain ⟨V3, inv, c1, gs, nwg, a0, a1, a2, st, hinv, hnwg, -, h01, h12, -, memc, opc, memg,
        opg, hrange, hv, hblk⟩ := AddWrapper.computeIndex_spec hE
      refine ⟨_, st, ?_, fun _ => ⟨V3, inv, c1, gs, nwg, a0, a1, a2, hinv, hnwg, h01, h12, memc,
        opc, memg, opg, fun hwf => hrange (stSD.wellFormed hwf), hv, rfl⟩, ?_⟩
      · simp [hblk]
      · intro hf
        rw [hflag] at hf
        cases hf
    · rename_i hflag
      rw [run_pure] at hE
      simp only [Option.some.injEq, Prod.mk.injEq] at hE
      obtain ⟨⟨rfl, rfl⟩, rfl⟩ := hE
      refine ⟨[], Step.refl _, by simp, ?_, fun _ => ⟨rfl, rfl⟩⟩
      intro ht
      exact absurd ht hflag
  obtain ⟨index, stE, hBlk, hyes, hno⟩ := hidx
  -- the output
  have hout : ∃ (outs : List Instruction) (store : Block),
      Step outs (sG.1.next, sG.2) sH ∧
      BlkOut = BlkIn ++
        [⟨sG.1.nextId, Op.FunctionCall kernel.getReturnType kernel.getInstruction.id
          (AddWrapper.coordinates E signature v inputs)⟩] ++ store ∧
      (E.hasForEachSignatureOut signature = true →
        ∃ (buf PtrTy : Instruction) (ptr : Nat),
          outs = [buf] ∧ IsBuffer sH.2 buf kernel.getReturnType 1 ∧
          PtrTy.op = Op.TypePointer StorageClass.Function kernel.getReturnType ∧
          PtrTy ∈ sH.2.globals ∧
          store =
            [⟨ptr, Op.AccessChain PtrTy.id buf.id
                [some ConstZero.id, v.Index.map fun x => x.id]⟩,
             ⟨ptr + 1, Op.Store ptr sG.1.nextId⟩]) ∧
      (E.hasForEachSignatureOut signature = false → outs = [] ∧ store = []) ∧
      (E.hasForEachSignatureOut signature = true → ∃ idx, v.Index = some idx) := by
    split at hH
    · rename_i hflag
      obtain ⟨buf, PtrTy, ptr, st, hbuf, opP, memP, hblk, hidx⟩ :=
        AddWrapper.storeOutput_spec hH
      refine ⟨[buf], _, st, ?_, fun _ => ⟨buf, PtrTy, ptr, rfl, hbuf, opP, memP, rfl⟩, ?_,
        fun _ => hidx⟩
      · simp [hblk]
      · intro hf
        rw [hflag] at hf
        cases hf
    · rename_i hflag
      rw [run_pure] at hH
      simp only [Option.some.injEq, Prod.mk.injEq] at hH
      obtain ⟨rfl, rfl⟩ := hH
      refine ⟨[], [], Step.refl _, by simp, ?_, fun _ => ⟨rfl, rfl⟩, ?_⟩
      · intro ht
        exact absurd ht hflag
      · intro ht
        exact absurd ht hflag
  obtain ⟨outs, store, stH, hBlkOut, hOutYes, hOutNo, hdefOut⟩ := hout
  have stG1 : Step [] sG (sG.1.next, sG.2) := Step.make sG
  have stGH : Step outs sG sH := stG1.trans_nil stH
  have stFH : Step ((rounds.map fun r => r.buffer) ++ outs) sF sH := stG.trans stGH
  have stEH := stF.trans_nil stFH
  have stDH := stE.trans_nil stEH
  have stSH := stSD.trans_nil stDH
  refine ⟨⟨VoidTy, FuncTy, UIntTy, ConstZero, sB.1.nextId, sB.1.next.nextId, sG.1.nextId,
    sH.1.nextId, v, index, rounds, outs, store⟩, ?_⟩
  refine
    { accepted := ⟨hKt, hUf, hCf⟩
      voidTy := ⟨opA, (stB.trans_nil (stBD.trans_nil stDH)).mem_globals memA⟩
      funcTy := ⟨opB, (stBD.trans_nil stDH).mem_globals memB⟩
      uintTy := ⟨opD, stDH.mem_globals memD⟩
      constZero := ⟨opF, stFH.mem_globals memF⟩
      fresh := (stA.trans_nil stB).nextId
      indexed := ?_
      notIndexed := hno
      count := hlen
      rounds := fun j r hj => by
        have := hrounds j r hj
        rw [Nat.zero_add] at this
        exact IsInputRound.mono stGH this
      output := hOutYes
      noOutput := hOutNo
      defined := fun h => h.elim hdefIn hdefOut
      added := by
        rw [List.append_assoc]
        exact stSH.added
      functions := ?_
      entryPoints := ?_
      wellFormed := fun hwf => (stSH.wellFormed hwf).register _ _ }
  · intro hflag
    obtain ⟨V3, inv, c1, gs, nwg, a0, a1, a2, hinv, hnwg, h01, h12, memc, opc, memg, opg, hrange,
      hv, hblk⟩ := hyes hflag
    exact ⟨V3, inv, c1, gs, nwg, a0, a1, a2, stEH.invocationId _ hinv, stEH.numWorkgroups _ hnwg,
      h01, h12, stEH.mem_globals memc, opc, stEH.mem_globals memg, opg, hrange, hv, hblk⟩
  · show sH.2.functions ++ _ = _
    rw [stSH.functions, hBlkOut, hBlkIn, hBlk, hinputs]
    simp [Wrapper.function, Wrapper.block, Wrapper.kernelCall]
  · show sH.2.entryPoints ++ _ = _
    rw [stSH.entryPoints]
    cases hI : v.Index <;>
      simp [Wrapper.entry, Builder.MakeEntryPointDefinition, EntryPointDefinition.setLocalSize,
        EntryPointDefinition.addToInterface, hI]

/-! ## Evaluation of the index arithmetic -/

theorem lookup_append_of_lookup {env l : List (Nat × Value)} {i : Nat} {v : Value}
    (h : env.lookup i = some v) : (env ++ l).lookup i = some v := by
  induction env with
  | nil => simp at h
  | cons p env ih =>
    obtain ⟨k, w⟩ := p
    simp only [List.cons_append, List.lookup_cons] at h ⊢
    split
    · rename_i hk
      rw [hk] at h
      exact h
    · rename_i hk
      rw [hk] at h
      exact ih h

/-- A result that is recorded stays recorded while the rest of a block is executed. -/
theorem evalBlock_lookup_stable (m : Module) (e : BuiltInValues) (i : Nat) (v : Value) :
    ∀ (blk : Block) (env : List (Nat × Value)), env.lookup i = some v →
      (evalBlock m e blk env).lookup i = some v := by
  intro blk
  induction blk with
  | nil => intro env h; exact h
  | cons inst rest ih =>
    intro env h
    rw [evalBlock]
    split
    · exact ih _ (lookup_append_of_lookup h)
    · exact ih _ h

theorem evalBlock_append (m : Module) (e : BuiltInValues) :
    ∀ (blk rest : Block) (env : List (Nat × Value)),
      evalBlock m e (blk ++ rest) env = evalBlock m e rest (evalBlock m e blk env) := by
  intro blk
  induction blk with
  | nil => intro rest env; rfl
  | cons inst blk ih =>
    intro rest env
    rw [List.cons_append, evalBlock, evalBlock]
    split <;> exact ih _ _

/-- In a well-formed state the identifier of an instruction of the global section
resolves to that instruction. -/
theorem WellFormed.getInstruction {s : St} (h : WellFormed s) {x : Instruction}
    (hx : x ∈ s.2.globals) : s.2.getInstruction x.id = some x := by
  have hnd := h.2.1
  unfold Module.getInstruction
  generalize s.2.globals = l at hx hnd
  induction l with
  | nil => simp at hx
  | cons y l ih =>
    simp only [List.map_cons, List.nodup_cons, List.mem_map, not_exists, not_and] at hnd
    rw [List.find?_cons]
    by_cases hy : y.id = x.id
    · simp only [hy, decide_True]
      rcases List.mem_cons.mp hx with hx | hx
      · rw [hx]
      · exact absurd hy.symm (hnd.1 x hx)
    · simp only [hy, decide_False]
      rcases List.mem_cons.mp hx with hx | hx
      · rw [hx] at hy
        exact absurd rfl hy
      · exact ih hx hnd.2

theorem index_arith (x y z Nx Ny : Nat) :
    ((1 * Nx % 2 ^ 32) * ((y + (1 * Ny % 2 ^ 32) * z % 2 ^ 32) % 2 ^ 32) % 2 ^ 32 + x) % 2 ^ 32
      = (x + 1 * Nx * (y + 1 * Ny * z)) % 2 ^ 32 := by
  have h1 : (1 * Nx % 2 ^ 32) ≡ 1 * Nx [MOD 2 ^ 32] := Nat.mod_modEq _ _
  have h2 : (1 * Ny % 2 ^ 32) ≡ 1 * Ny [MOD 2 ^ 32] := Nat.mod_modEq _ _
  have h3 : (1 * Ny % 2 ^ 32) * z % 2 ^ 32 ≡ 1 * Ny * z [MOD 2 ^ 32] :=
    (Nat.mod_modEq _ _).trans (h2.mul_right z)
  have h4 : (y + (1 * Ny % 2 ^ 32) * z % 2 ^ 32) % 2 ^ 32 ≡ y + 1 * Ny * z [MOD 2 ^ 32] :=
    (Nat.mod_modEq _ _).trans (h3.add_left y)
  have h5 : (1 * Nx % 2 ^ 32) * ((y + (1 * Ny % 2 ^ 32) * z % 2 ^ 32) % 2 ^ 32) % 2 ^ 32
      ≡ 1 * Nx * (y + 1 * Ny * z) [MOD 2 ^ 32] :=
    (Nat.mod_modEq _ _).trans (h1.mul h4)
  have h6 := h5.add_right x
  rw [Nat.add_comm x]
  exact h6

theorem lookup_cons_ne {a k : Nat} {b : Value} {es : List (Nat × Value)} (h : a ≠ k) :
    List.lookup a ((k, b) :: es) = List.lookup a es := by
  rw [List.lookup_cons]
  have : (a == k) = false := by simpa using h
  rw [this]

theorem lookup_cons_self {a : Nat} {b : Value} {es : List (Nat × Value)} :
    List.lookup a ((a, b) :: es) = some b := by
  rw [List.lookup_cons]
  simp

theorem evalBlock_cons_some {m : Module} {e : BuiltInValues} {inst : Instruction} {rest : Block}
    {env : List (Nat × Value)} (v : Value) (h : instructionValue m e env inst = some v) :
    evalBlock m e (inst :: rest) env = evalBlock m e rest (env ++ [(inst.id, v)]) := by
  rw [evalBlock, h]

theorem instructionValue_load (m : Module) (e : BuiltInValues) (env : List (Nat × Value))
    (i t p : Nat) : instructionValue m e env ⟨i, Op.Load t p⟩ = loadValue m e p := rfl

theorem instructionValue_extract {m : Module} {e : BuiltInValues} {env : List (Nat × Value)}
    {i t c k : Nat} (cs : List Nat) (h : operandValue m env c = some (Value.vector cs)) :
    instructionValue m e env ⟨i, Op.CompositeExtract t c [k]⟩ = cs[k]?.map Value.scalar := by
  simp only [instructionValue, h]

theorem instructionValue_imul {m : Module} {e : BuiltInValues} {env : List (Nat × Value)}
    {i t a b x y : Nat} (ha : operandValue m env a = some (Value.scalar x))
    (hb : operandValue m env b = some (Value.scalar y)) :
    instructionValue m e env ⟨i, Op.IMul t a b⟩ = some (Value.scalar (x * y % 2 ^ 32)) := by
  simp only [instructionValue, ha, hb]

theorem instructionValue_iadd {m : Module} {e : BuiltInValues} {env : List (Nat × Value)}
    {i t a b x y : Nat} (ha : operandValue m env a = some (Value.scalar x))
    (hb : operandValue m env b = some (Value.scalar y)) :
    instructionValue m e env ⟨i, Op.IAdd t a b⟩ = some (Value.scalar ((x + y) % 2 ^ 32)) := by
  simp only [instructionValue, ha, hb]

theorem operandValue_of_lookup {m : Module} {env : List (Nat × Value)} {i : Nat} {v : Value}
    (h : env.lookup i = some v) : operandValue m env i = some v := by
  simp only [operandValue, h]

theorem operandValue_of_constant {m : Module} {env : List (Nat × Value)} {i : Nat} {v : Value}
    (h : env.lookup i = none) (hc : constantValue m i = some v) :
    operandValue m env i = some v := by
  simp only [operandValue, h, hc]

/-- The fifteen instructions of the index computation, executed from no result, leave
the linear index under the identifier of the last one. -/
theorem evalBlock_indexInstructions (m : Module) (e : BuiltInValues)
    (u v3 inv gs nwg a0 a1 a2 x y z Nx Ny Nz : Nat)
    (hinv : loadValue m e inv = some (Value.vector [x, y, z]))
    (hnwg : loadValue m e nwg = some (Value.vector [Nx, Ny, Nz]))
    (hgs : constantValue m gs = some (Value.vector [1, 1, 1]))
    (hr : gs < a0 ∨ a0 + 4 ≤ gs) (hr1 : gs < a1) (h01 : a0 + 4 ≤ a1) (h12 : a1 + 2 ≤ a2) :
    (evalBlock m e (indexInstructions u v3 inv gs nwg a0 a1 a2) []).lookup (a2 + 8)
      = some (Value.scalar ((x + 1 * Nx * (y + 1 * Ny * z)) % 2 ^ 32)) := by
  rw [← index_arith]
  unfold indexInstructions
  rw [evalBlock_cons_some (Value.vector [x, y, z]) (by rw [instructionValue_load, hinv])]
  dsimp only [List.nil_append, List.cons_append]
  rw [evalBlock_cons_some (Value.scalar x)
    (by rw [instructionValue_extract [x, y, z] (operandValue_of_lookup (by simp (disch := omega) only [lookup_cons_self, lookup_cons_ne]))]; rfl)]
  dsimp only [List.nil_append, List.cons_append]
  rw [evalBlock_cons_some (Value.scalar y)
    (by rw [instructionValue_extract [x, y, z] (operandValue_of_lookup (by simp (disch := omega) only [lookup_cons_self, lookup_cons_ne]))]; rfl)]
  dsimp only [List.nil_append, List.cons_append]
  rw [evalBlock_cons_some (Value.scalar z)
    (by rw [instructionValue_extract [x, y, z] (operandValue_of_lookup (by simp (disch := omega) only [lookup_cons_self, lookup_cons_ne]))]; rfl)]
  dsimp only [List.nil_append, List.cons_append]
  rw [evalBlock_cons_some (Value.scalar 1)
    (by rw [instructionValue_extract [1, 1, 1] (operandValue_of_constant (by simp (disch := omega) only [lookup_cons_ne, List.lookup_nil]) hgs)]; rfl)]
  dsimp only [List.nil_append, List.cons_append]
  rw [evalBlock_cons_some (Value.scalar 1)
    (by rw [instructionValue_extract [1, 1, 1] (operandValue_of_constant (by simp (disch := omega) only [lookup_cons_ne, List.lookup_nil]) hgs)]; rfl)]
  dsimp only [List.nil_append, List.cons_append]
  rw [evalBlock_cons_some (Value.vector [Nx, Ny, Nz]) (by rw [instructionValue_load, hnwg])]
  dsimp only [List.nil_append, List.cons_append]
  rw [evalBlock_cons_some (Value.scalar Nx)
    (by rw [instructionValue_extract [Nx, Ny, Nz] (operandValue_of_lookup (by simp (disch := omega) only [lookup_cons_self, lookup_cons_ne]))]; rfl)]
  dsimp only [List.nil_append, List.cons_append]
  rw [evalBlock_cons_some (Value.scalar Ny)
    (by rw [instructionValue_extract [Nx, Ny, Nz] (operandValue_of_lookup (by simp (disch := omega) only [lookup_cons_self, lookup_cons_ne]))]; rfl)]
  dsimp only [List.nil_append, List.cons_append]
  rw [evalBlock_cons_some (Value.scalar (1 * Nx % 2 ^ 32))
    (instructionValue_imul (operandValue_of_lookup (by simp (disch := omega) only [lookup_cons_self, lookup_cons_ne]))
      (operandValue_of_lookup (by simp (disch := omega) only [lookup_cons_self, lookup_cons_ne])))]
  dsimp only [List.nil_append, List.cons_append]
  rw [evalBlock_cons_some (Value.scalar (1 * Ny % 2 ^ 32))
    (instructionValue_imul (operandValue_of_lookup (by simp (disch := omega) only [lookup_cons_self, lookup_cons_ne]))
      (operandValue_of_lookup (by simp (disch := omega) only [lookup_cons_self, lookup_cons_ne])))]
  dsimp only [List.nil_append, List.cons_append]
  rw [evalBlock_cons_some (Value.scalar (1 * Ny % 2 ^ 32 * z % 2 ^ 32))
    (instructionValue_imul (operandValue_of_lookup (by simp (disch := omega) only [lookup_cons_self, lookup_cons_ne]))
      (operandValue_of_lookup (by simp (disch := omega) only [lookup_cons_self, lookup_cons_ne])))]
  dsimp only [List.nil_append, List.cons_append]
  rw [evalBlock_cons_some (Value.scalar ((y + 1 * Ny % 2 ^ 32 * z % 2 ^ 32) % 2 ^ 32))
    (instructionValue_iadd (operandValue_of_lookup (by simp (disch := omega) only [lookup_cons_self, lookup_cons_ne]))
      (operandValue_of_lookup (by simp (disch := omega) only [lookup_cons_self, lookup_cons_ne])))]
  dsimp only [List.nil_append, List.cons_append]
  rw [evalBlock_cons_some (Value.scalar (1 * Nx % 2 ^ 32 * ((y + 1 * Ny % 2 ^ 32 * z % 2 ^ 32) % 2 ^ 32) % 2 ^ 32))
    (instructionValue_imul (operandValue_of_lookup (by simp (disch := omega) only [lookup_cons_self, lookup_cons_ne]))
      (operandValue_of_lookup (by simp (disch := omega) only [lookup_cons_self, lookup_cons_ne])))]
  dsimp only [List.nil_append, List.cons_append]
  rw [evalBlock_cons_some (Value.scalar ((1 * Nx % 2 ^ 32 * ((y + 1 * Ny % 2 ^ 32 * z % 2 ^ 32) % 2 ^ 32) % 2 ^ 32 + x) % 2 ^ 32))
    (instructionValue_iadd (operandValue_of_lookup (by simp (disch := omega) only [lookup_cons_self, lookup_cons_ne]))
      (operandValue_of_lookup (by simp (disch := omega) only [lookup_cons_self, lookup_cons_ne])))]
  dsimp only [List.nil_append, List.cons_append]
  rw [evalBlock]
  simp (disch := omega) only [lookup_cons_self, lookup_cons_ne]

/-! ## Runs that return -/

theorem Returns.pure {α : Type} (a : α) {P : α → Prop} (h : P a) :
    Returns (Pure.pure a : M α) P :=
  fun s => ⟨a, s, rfl, h⟩

theorem Returns.bind {α β : Type} {x : M α} {f : α → M β} {P : α → Prop} {Q : β → Prop}
    (hx : Returns x P) (hf : ∀ a, P a → Returns (f a) Q) : Returns (x >>= f) Q := by
  intro s
  obtain ⟨a, s1, h1, ha⟩ := hx s
  obtain ⟨b, s2, h2, hb⟩ := hf a ha s1
  exact ⟨b, s2, run_bind_eq_some.mpr ⟨a, s1, h1, h2⟩, hb⟩

theorem Returns.weaken {α : Type} {x : M α} {P Q : α → Prop} (hx : Returns x P)
    (h : ∀ a, P a → Q a) : Returns x Q := by
  intro s
  obtain ⟨a, s1, h1, ha⟩ := hx s
  exact ⟨a, s1, h1, h a ha⟩

theorem Returns.modifyGet {α : Type} (f : St → α × St) {P : α → Prop} (h : ∀ s, P (f s).1) :
    Returns (M.modifyGet f) P :=
  fun s => ⟨(f s).1, (f s).2, rfl, h s⟩

theorem Returns.modify (f : St → St) : Returns (M.modify f) fun _ => True :=
  fun s => ⟨(), f s, rfl, trivial⟩

theorem Returns.get : Returns M.get fun _ => True :=
  fun s => ⟨s, s, rfl, trivial⟩

theorem Returns.ofMake (op : Op) : Returns (Builder.Make op) fun _ => True :=
  Returns.modifyGet _ fun _ => trivial

theorem Returns.makeFunctionDefinition (returnType control functionType : Nat) :
    Returns (Builder.MakeFunctionDefinition returnType control functionType) fun _ => True :=
  Returns.modifyGet _ fun _ => trivial

theorem Returns.intern (op : Op) : Returns (Module.intern op) fun a => a.op = op :=
  Returns.modifyGet _ fun _ => rfl

theorem Returns.ofDecorate (target : Nat) (d : Decoration) (extra : List Nat) :
    Returns (Instruction.decorate target d extra) fun _ => True :=
  Returns.modify _

theorem Returns.memberDecorate {target : Instruction} {ms : List Nat}
    (h : target.op = Op.TypeStruct ms) (member : Nat) (d : Decoration) (extra : List Nat) :
    Returns (target.memberDecorate member d extra) fun ok => ok = true := by
  unfold Instruction.memberDecorate
  rw [h]
  exact Returns.bind (Returns.modify _) fun _ _ => Returns.pure true rfl

theorem Returns.nonNull : Returns (nonNull true) fun _ => True :=
  fun s => ⟨(), s, rfl, trivial⟩

theorem AddBuffer_returns (E : Externals) (elementType binding : Nat) :
    Returns (AddBuffer E elementType binding) fun _ => True := by
  unfold AddBuffer
  refine Returns.bind (Returns.intern _) fun ArrTy _ => ?_
  refine Returns.bind Returns.get fun _ _ => ?_
  refine Returns.bind (Returns.ofDecorate _ _ _) fun _ _ => ?_
  refine Returns.bind (Returns.intern _) fun StructTy hS => ?_
  refine Returns.bind (Returns.ofDecorate _ _ _) fun _ _ => ?_
  refine Returns.bind (Returns.memberDecorate hS _ _ _) fun ok hok => ?_
  subst hok
  refine Returns.bind Returns.nonNull fun _ _ => ?_
  refine Returns.bind (Returns.intern _) fun _ _ => ?_
  refine Returns.bind (Returns.ofMake _) fun _ _ => ?_
  refine Returns.bind (Returns.ofDecorate _ _ _) fun _ _ => ?_
  refine Returns.bind (Returns.ofDecorate _ _ _) fun _ _ => ?_
  refine Returns.bind (Returns.modify _) fun _ _ => ?_
  exact Returns.pure _ trivial


theorem Returns.ite {α : Type} {c : Prop} [Decidable c] {x y : M α} {P : α → Prop}
    (hx : Returns x P) (hy : Returns y P) : Returns (if c then x else y) P := by
  split
  · exact hx
  · exact hy

theorem Module.getInvocationId_returns : Returns Module.getInvocationId fun _ => True := by
  unfold Module.getInvocationId
  refine Returns.bind Returns.get fun st _ => ?_
  cases st.2.invocationId with
  | some v => exact Returns.pure _ trivial
  | none =>
    refine Returns.bind (Returns.intern _) fun _ _ => ?_
    refine Returns.bind (Returns.intern _) fun _ _ => ?_
    refine Returns.bind (Returns.intern _) fun _ _ => ?_
    refine Returns.bind (Returns.ofMake _) fun _ _ => ?_
    refine Returns.bind (Returns.ofDecorate _ _ _) fun _ _ => ?_
    refine Returns.bind (Returns.modify _) fun _ _ => ?_
    exact Returns.pure _ trivial

theorem Module.getNumWorkgroups_returns : Returns Module.getNumWorkgroups fun _ => True := by
  unfold Module.getNumWorkgroups
  refine Returns.bind Returns.get fun st _ => ?_
  cases st.2.numWorkgroups with
  | some v => exact Returns.pure _ trivial
  | none =>
    refine Returns.bind (Returns.intern _) fun _ _ => ?_
    refine Returns.bind (Returns.intern _) fun _ _ => ?_
    refine Returns.bind (Returns.intern _) fun _ _ => ?_
    refine Returns.bind (Returns.ofMake _) fun _ _ => ?_
    refine Returns.bind (Returns.ofDecorate _ _ _) fun _ _ => ?_
    refine Returns.bind (Returns.modify _) fun _ _ => ?_
    exact Returns.pure _ trivial

theorem AddWrapper.computeIndex_returns (UIntTy : Instruction) (Blk : Block) :
    Returns (AddWrapper.computeIndex UIntTy Blk) fun _ => True := by
  unfold AddWrapper.computeIndex
  refine Returns.bind (Returns.intern _) fun _ _ => ?_
  refine Returns.bind Module.getInvocationId_returns fun _ _ => ?_
  refine Returns.bind (Returns.ofMake _) fun _ _ => ?_
  refine Returns.bind (Returns.ofMake _) fun _ _ => ?_
  refine Returns.bind (Returns.ofMake _) fun _ _ => ?_
  refine Returns.bind (Returns.ofMake _) fun _ _ => ?_
  refine Returns.bind (Returns.intern _) fun _ _ => ?_
  refine Returns.bind (Returns.intern _) fun _ _ => ?_
  refine Returns.bind (Returns.ofMake _) fun _ _ => ?_
  refine Returns.bind (Returns.ofMake _) fun _ _ => ?_
  refine Returns.bind Module.getNumWorkgroups_returns fun _ _ => ?_
  refine Returns.bind (Returns.ofMake _) fun _ _ => ?_
  refine Returns.bind (Returns.ofMake _) fun _ _ => ?_
  refine Returns.bind (Returns.ofMake _) fun _ _ => ?_
  refine Returns.bind (Returns.ofMake _) fun _ _ => ?_
  refine Returns.bind (Returns.ofMake _) fun _ _ => ?_
  refine Returns.bind (Returns.ofMake _) fun _ _ => ?_
  refine Returns.bind (Returns.ofMake _) fun _ _ => ?_
  refine Returns.bind (Returns.ofMake _) fun _ _ => ?_
  refine Returns.bind (Returns.ofMake _) fun _ _ => ?_
  exact Returns.pure _ trivial

theorem Returns.makeAccessChain (type base : Nat) {indexes : List IdRef}
    (h : (indexes.all fun i => i.isSome) = true) :
    Returns (Builder.MakeAccessChain type base indexes) fun _ => True := by
  unfold Builder.MakeAccessChain
  rw [h]
  exact Returns.bind Returns.nonNull fun _ _ => Returns.ofMake _

theorem Returns.ite_of {α : Type} {c : Prop} [Decidable c] {x y : M α} {P : α → Prop}
    (hx : c → Returns x P) (hy : ¬c → Returns y P) : Returns (if c then x else y) P := by
  split
  · rename_i h
    exact hx h
  · rename_i h
    exact hy h

/-- The index computation returns, with a defined `Index`. -/
theorem AddWrapper.computeIndex_returns_index (UIntTy : Instruction) (Blk : Block) :
    Returns (AddWrapper.computeIndex UIntTy Blk) fun r => ∃ idx, r.1.Index = some idx := by
  intro s
  obtain ⟨⟨v, Blk1⟩, s1, h, -⟩ := AddWrapper.computeIndex_returns UIntTy Blk s
  obtain ⟨_, _, _, _, _, _, _, _, -, -, -, -, -, -, -, -, -, -, -, -, hv, -⟩ :=
    AddWrapper.computeIndex_spec h
  exact ⟨(v, Blk1), s1, h, ⟨_, by rw [hv]⟩⟩

theorem AddWrapper.loadInputs_returns (E : Externals) (kernel : FunctionDefinition)
    (ConstZero : Instruction) (Index : Option Instruction) :
    ∀ (count i : Nat) (Blk : Block) (inputs : List IdRef), i + count ≤ kernel.params.length →
      (count = 0 ∨ ∃ idx, Index = some idx) →
      Returns (AddWrapper.loadInputs E kernel ConstZero Index count i Blk inputs) fun _ => True := by
  intro count
  induction count with
  | zero =>
    intro i Blk inputs _ _
    rw [AddWrapper.loadInputs]
    exact Returns.pure _ trivial
  | succ count ih =>
    intro i Blk inputs hi hI
    rw [AddWrapper.loadInputs]
    have hlt : i < kernel.params.length := by omega
    have hp : kernel.getParameter i = some kernel.params[i] := by
      unfold FunctionDefinition.getParameter
      exact List.getElem?_eq_getElem hlt
    have hidx : ∃ idx, Index = some idx := hI.resolve_left (Nat.succ_ne_zero count)
    obtain ⟨idx, rfl⟩ := hidx
    rw [hp]
    refine Returns.bind (P := fun _ => True) (fun s => ⟨_, s, rfl, trivial⟩) fun _ _ => ?_
    refine Returns.bind (AddBuffer_returns _ _ _) fun _ _ => ?_
    refine Returns.bind (Returns.intern _) fun _ _ => ?_
    refine Returns.bind (Returns.makeAccessChain _ _ rfl) fun _ _ => ?_
    refine Returns.bind (Returns.ofMake _) fun _ _ => ?_
    exact ih _ _ _ (by omega) (Or.inr ⟨idx, rfl⟩)

theorem AddWrapper.storeOutput_returns (E : Externals) (resultType : Nat)
    (ConstZero kernelCall : Instruction) (Index : Option Instruction) (Blk : Block)
    (hI : ∃ idx, Index = some idx) :
    Returns (AddWrapper.storeOutput E resultType ConstZero Index kernelCall Blk)
      fun _ => True := by
  obtain ⟨idx, rfl⟩ := hI
  unfold AddWrapper.storeOutput
  refine Returns.bind (AddBuffer_returns _ _ _) fun _ _ => ?_
  refine Returns.bind (Returns.intern _) fun _ _ => ?_
  refine Returns.bind (Returns.makeAccessChain _ _ rfl) fun _ _ => ?_
  refine Returns.bind (Returns.ofMake _) fun _ _ => ?_
  exact Returns.pure _ trivial

theorem exists_run_get_bind {β : Type} {f : St → M β} {s : St} {Q : β → Prop}
    (h : ∃ a s1, (f s).run s = some (a, s1) ∧ Q a) :
    ∃ a s1, (M.get >>= f).run s = some (a, s1) ∧ Q a := by
  obtain ⟨a, s1, h1, h2⟩ := h
  exact ⟨a, s1, run_bind_eq_some.mpr ⟨s, s, run_get s, h1⟩, h2⟩

/-- `AddWrapper` returns true for an existing kernel with an accepted signature that has
a parameter for every input position, when the signature has one of the flags that make
it compute `Index`, or when there is no input and no output. -/
theorem AddWrapper_returns {E : Externals} {name : String} {signature numInput : Nat} {s : St}
    {kernel : FunctionDefinition}
    (hk : s.2.lookupFunctionDefinitionByName name = some kernel)
    (hK : E.hasForEachSignatureKernel signature = true)
    (hU : E.hasForEachSignatureUsrData signature = false)
    (hC : E.hasForEachSignatureCtxt signature = false)
    (hn : numInput ≤ kernel.params.length)
    (hI : (E.hasForEachSignatureIn signature || E.hasForEachSignatureOut signature ||
        E.hasForEachSignatureX signature || E.hasForEachSignatureY signature ||
        E.hasForEachSignatureZ signature) = true ∨
      (numInput = 0 ∧ E.hasForEachSignatureOut signature = false)) :
    ∃ s', (AddWrapper E name signature numInput).run s = some (true, s') := by
  suffices h : ∃ a s1, (AddWrapper E name signature numInput).run s = some (a, s1) ∧ a = true by
    obtain ⟨a, s1, h1, rfl⟩ := h
    exact ⟨s1, h1⟩
  unfold AddWrapper
  refine exists_run_get_bind ?_
  simp only [hk, hK, hU, hC, Bool.not_true, Bool.false_eq_true, if_false]
  refine (?_ : Returns _ _) s
  refine Returns.bind (Returns.intern _) fun _ _ => ?_
  refine Returns.bind (Returns.intern _) fun _ _ => ?_
  refine Returns.bind (Returns.makeFunctionDefinition _ _ _) fun _ _ => ?_
  refine Returns.bind (Returns.ofMake _) fun _ _ => ?_
  refine Returns.bind (Returns.intern _) fun _ _ => ?_
  refine Returns.bind
    (P := fun r => (E.hasForEachSignatureIn signature || E.hasForEachSignatureOut signature ||
        E.hasForEachSignatureX signature || E.hasForEachSignatureY signature ||
        E.hasForEachSignatureZ signature) = true → ∃ idx, r.1.Index = some idx)
    (Returns.ite_of
      (fun _ => (AddWrapper.computeIndex_returns_index _ _).weaken fun _ h _ => h)
      (fun hf => Returns.pure _ fun ht => absurd ht hf)) fun r hr => ?_
  refine Returns.bind (Returns.intern _) fun _ _ => ?_
  refine Returns.bind (AddWrapper.loadInputs_returns _ _ _ _ _ _ _ _ (by omega)
    (hI.elim (fun hf => Or.inr (hr hf)) fun h0 => Or.inl h0.1)) fun _ _ => ?_
  refine Returns.bind (Returns.ofMake _) fun _ _ => ?_
  refine Returns.bind (Returns.ite_of
    (fun hO => AddWrapper.storeOutput_returns _ _ _ _ _ _
      (hI.elim hr fun h0 => by rw [h0.2] at hO; cases hO))
    (fun _ => Returns.pure _ trivial)) fun _ _ => ?_
  refine Returns.bind (Returns.ofMake _) fun _ _ => ?_
  refine Returns.bind (Returns.modify _) fun _ _ => ?_
  refine Returns.bind (Returns.modify _) fun _ _ => ?_
  exact Returns.pure _ rfl

theorem AddGAMetadata_returns : Returns AddGAMetadata fun _ => True := by
  unfold AddGAMetadata
  refine Returns.bind (Returns.intern _) fun _ _ => ?_
  refine Returns.bind (Returns.intern _) fun StructTy hS => ?_
  refine Returns.bind (Returns.memberDecorate hS _ _ _) fun ok hok => ?_
  subst hok
  refine Returns.bind Returns.nonNull fun _ _ => ?_
  refine Returns.bind (Returns.memberDecorate hS _ _ _) fun ok hok => ?_
  subst hok
  refine Returns.bind Returns.nonNull fun _ _ => ?_
  refine Returns.bind (Returns.memberDecorate hS _ _ _) fun ok hok => ?_
  subst hok
  refine Returns.bind Returns.nonNull fun _ _ => ?_
  refine Returns.bind (Returns.memberDecorate hS _ _ _) fun ok hok => ?_
  subst hok
  refine Returns.bind Returns.nonNull fun _ _ => ?_
  refine Returns.bind (Returns.intern _) fun _ _ => ?_
  refine Returns.bind (Returns.ofDecorate _ _ _) fun _ _ => ?_
  refine Returns.bind (Returns.intern _) fun _ _ => ?_
  refine Returns.bind (Returns.ofDecorate _ _ _) fun _ _ => ?_
  refine Returns.bind (Returns.intern _) fun _ _ => ?_
  refine Returns.bind (Returns.ofMake _) fun _ _ => ?_
  refine Returns.bind (Returns.ofDecorate _ _ _) fun _ _ => ?_
  refine Returns.bind (Returns.ofDecorate _ _ _) fun _ _ => ?_
  refine Returns.bind (Returns.modify _) fun _ _ => ?_
  exact Returns.pure _ trivial

theorem AddGLComputeWrappers.prepareMetadata_returns :
    Returns AddGLComputeWrappers.prepareMetadata fun _ => True := by
  unfold AddGLComputeWrappers.prepareMetadata
  refine Returns.bind AddGAMetadata_returns fun _ _ => ?_
  refine Returns.bind (Returns.intern _) fun _ _ => ?_
  refine Returns.bind (Returns.intern _) fun _ _ => ?_
  refine Returns.bind (Returns.intern _) fun _ _ => ?_
  refine Returns.bind (Returns.intern _) fun _ _ => ?_
  exact Returns.pure _ trivial

/-- A run that returns true ends in the state that `finalState` reads off. -/
theorem run_eq_finalState {x : M Bool} {s : St} (d : St)
    (h : ∃ s', x.run s = some (true, s')) :
    x.run s = some (true, ((finalState (x.run s) d).1, (finalState (x.run s) d).2)) := by
  obtain ⟨s', h⟩ := h
  rw [h]
  rfl

/-! ## Properties of the wrapper synthesis -/

/-- C1: for every invocation id (x, y, z) and every number of workgroups (Nx, Ny, Nz),
in the wrapper that a successful `AddWrapper` builds for an existing kernel whose
signature has the input, output, x, y or z flag, the `Index` instruction is the
sixteenth instruction of the block and the second index of every access chain, and
executing the block (with `OpIMul` and `OpIAdd` as unsigned 32-bit arithmetic, and the
constant workgroup size 1x1x1) gives it the value (x + Gx * (y + Gy * z)) mod 2^32
with Gx = 1 * Nx and Gy = 1 * Ny. The builder is assumed to hand out fresh
identifiers (`WellFormed`). -/
theorem C1_linear_index (E : Externals) (name : String) (signature numInput : Nat)
    (b b' : Builder) (m m' : Module) (kernel : FunctionDefinition) (x y z Nx Ny Nz : Nat)
    (hwf : WellFormed (b, m))
    (hk : m.lookupFunctionDefinitionByName name = some kernel)
    (hrun : (AddWrapper E name signature numInput).run (b, m) = some (true, (b', m')))
    (hflag : (E.hasForEachSignatureIn signature || E.hasForEachSignatureOut signature ||
      E.hasForEachSignatureX signature || E.hasForEachSignatureY signature ||
      E.hasForEachSignatureZ signature) = true) :
    ∃ (wrapper : FunctionDefinition) (Blk : Block) (Index : Instruction),
      m'.functions = m.functions ++ [wrapper] ∧ wrapper.blocks = [Blk] ∧
      Blk[15]? = some Index ∧
      (∀ a ∈ Blk, ∀ ty base idxs, a.op = Op.AccessChain ty base idxs →
        ∃ c0, idxs = [some c0, some Index.id]) ∧
      (evalBlock m' ⟨(x, y, z), (Nx, Ny, Nz)⟩ Blk []).lookup Index.id
        = some (Value.scalar ((x + 1 * Nx * (y + 1 * Ny * z)) % 2 ^ 32)) := by
  obtain ⟨p, hp⟩ := AddWrapper_spec (s := (b, m)) hk hrun
  obtain ⟨V3, inv, c1, gs, nwg, a0, a1, a2, hinv, hnwg, h01, h12, memc, opc, memg, opg, hrange,
    hv, hindex⟩ := hp.indexed hflag
  have hwf' := hp.wellFormed hwf
  obtain ⟨hr, hr1⟩ := hrange hwf
  have hI : p.v.Index = some ⟨a2 + 8, Op.IAdd p.UIntTy.id (a2 + 7) (a0 + 1)⟩ := by rw [hv]
  refine ⟨p.function E signature kernel, p.block E signature kernel,
    ⟨a2 + 8, Op.IAdd p.UIntTy.id (a2 + 7) (a0 + 1)⟩, hp.functions, rfl, ?_, ?_, ?_⟩
  · simp [Wrapper.block, hindex, indexInstructions]
  · intro a ha ty base idxs hop
    simp only [Wrapper.block, List.mem_append, List.mem_singleton, List.mem_flatten,
      List.mem_map] at ha
    rcases ha with ((((ha | ha) | ha) | ha) | ha) | ha
    · subst ha
      cases hop
    · rw [hindex] at ha
      simp only [indexInstructions, List.mem_cons, List.mem_singleton, List.not_mem_nil,
        or_false] at ha
      rcases ha with ha | ha | ha | ha | ha | ha | ha | ha | ha | ha | ha | ha | ha | ha | ha <;>
        (subst ha; cases hop)
    · obtain ⟨l, ⟨r, hr, rfl⟩, hal⟩ := ha
      obtain ⟨j, hj⟩ := List.mem_iff_getElem?.mp hr
      obtain ⟨param, PtrTy, -, -, -, hPtr, hinput⟩ := hp.rounds j r hj
      simp only [List.mem_cons, List.mem_singleton, List.not_mem_nil, or_false] at hal
      rcases hal with hal | hal
      · subst hal
        rw [hPtr, hI] at hop
        simp only [Op.AccessChain.injEq] at hop
        exact ⟨p.ConstZero.id, by rw [← hop.2.2]; rfl⟩
      · subst hal
        rw [hinput] at hop
        cases hop
    · subst ha
      simp only [Wrapper.kernelCall] at hop
      cases hop
    · cases hout : E.hasForEachSignatureOut signature with
      | true =>
        obtain ⟨buf, PtrTy, ptr, -, -, -, -, hstore⟩ := hp.output hout
        rw [hstore] at ha
        simp only [List.mem_cons, List.mem_singleton, List.not_mem_nil, or_false] at ha
        rcases ha with ha | ha
        · subst ha
          rw [hI] at hop
          simp only [Op.AccessChain.injEq] at hop
          exact ⟨p.ConstZero.id, by rw [← hop.2.2]; rfl⟩
        · subst ha
          cases hop
      | false =>
        rw [(hp.noOutput hout).2] at ha
        cases ha
    · subst ha
      cases hop
  · have hload1 : loadValue m' ⟨(x, y, z), (Nx, Ny, Nz)⟩ inv.id
        = some (Value.vector [x, y, z]) := by
      simp only [loadValue]
      rw [show m'.invocationId = some inv from hinv]
      simp
    have hne : inv.id ≠ nwg.id := hwf'.2.2.2.2 inv hinv nwg hnwg
    have hload2 : loadValue m' ⟨(x, y, z), (Nx, Ny, Nz)⟩ nwg.id
        = some (Value.vector [Nx, Ny, Nz]) := by
      simp only [loadValue]
      rw [show m'.invocationId = some inv from hinv, show m'.numWorkgroups = some nwg from hnwg]
      simp [hne]
    have hc : m'.getInstruction c1.id = some c1 := hwf'.getInstruction memc
    have hg : m'.getInstruction gs.id = some gs := hwf'.getInstruction memg
    have hgs : constantValue m' gs.id = some (Value.vector [1, 1, 1]) := by
      simp [constantValue, constituentValues, hg, hc, opg, opc]
    have hev := evalBlock_indexInstructions m' ⟨(x, y, z), (Nx, Ny, Nz)⟩ p.UIntTy.id V3.id inv.id
      gs.id nwg.id a0 a1 a2 x y z Nx Ny Nz hload1 hload2 hgs hr hr1 h01 h12
    simp only [Wrapper.block, List.append_assoc]
    have hl : evalBlock m' ⟨(x, y, z), (Nx, Ny, Nz)⟩ [⟨p.label, Op.Label⟩] [] = [] := rfl
    rw [evalBlock_append, hl, evalBlock_append, hindex]
    exact evalBlock_lookup_stable _ _ _ _ _ _ hev

theorem exampleState_wellFormed : WellFormed exampleState := by
  simp [WellFormed, exampleState, exampleModule]

theorem exampleModule_foo :
    exampleModule.lookupFunctionDefinitionByName "foo" =
      some ⟨⟨5, 1, 0, 3⟩, [⟨6, 1⟩, ⟨7, 2⟩], [[⟨8, Op.Label⟩, ⟨9, Op.Return⟩]]⟩ := by
  decide

/-- The run of the examples with the input, output and kernel flags and two inputs
returns true and ends in `exampleWrapped`. -/
theorem exampleWrapped_run :
    (AddWrapper exampleE "foo" 35 2).run (exampleState.1, exampleModule)
      = some (true, (exampleWrapped.1, exampleWrapped.2)) :=
  run_eq_finalState exampleState
    (AddWrapper_returns (s := exampleState) exampleModule_foo (by decide) (by decide) (by decide)
      (by decide) (Or.inl (by decide)))

/-- The run of the examples with the input, x, y, z and kernel flags and one input
returns true and ends in `exampleWrappedXYZ`. -/
theorem exampleWrappedXYZ_run :
    (AddWrapper exampleE "foo" 121 1).run (exampleState.1, exampleModule)
      = some (true, (exampleWrappedXYZ.1, exampleWrappedXYZ.2)) :=
  run_eq_finalState exampleState
    (AddWrapper_returns (s := exampleState) exampleModule_foo (by decide) (by decide) (by decide)
      (by decide) (Or.inl (by decide)))

/-- Witness of C1 on the kernel of the examples, for the two examples of the
specification: (Gx=4, Gy=3, x=1, y=2, z=1) gives 21 and (Gx=4, Gy=1, x=3, y=0, z=0)
gives 3. -/
theorem C1_linear_index_witness :
    WellFormed exampleState ∧
    (∃ (wrapper : FunctionDefinition) (Blk : Block) (Index : Instruction),
      exampleWrapped.2.functions = exampleModule.functions ++ [wrapper] ∧ wrapper.blocks = [Blk] ∧
      Blk[15]? = some Index ∧
      (∀ a ∈ Blk, ∀ ty base idxs, a.op = Op.AccessChain ty base idxs →
        ∃ c0, idxs = [some c0, some Index.id]) ∧
      (evalBlock exampleWrapped.2 ⟨(1, 2, 1), (4, 3, 1)⟩ Blk []).lookup Index.id
        = some (Value.scalar 21)) ∧
    (∃ (wrapper : FunctionDefinition) (Blk : Block) (Index : Instruction),
      exampleWrapped.2.functions = exampleModule.functions ++ [wrapper] ∧ wrapper.blocks = [Blk] ∧
      Blk[15]? = some Index ∧
      (∀ a ∈ Blk, ∀ ty base idxs, a.op = Op.AccessChain ty base idxs →
        ∃ c0, idxs = [some c0, some Index.id]) ∧
      (evalBlock exampleWrapped.2 ⟨(3, 0, 0), (4, 1, 1)⟩ Blk []).lookup Index.id
        = some (Value.scalar 3)) :=
  ⟨exampleState_wellFormed,
    C1_linear_index exampleE "foo" 35 2 exampleState.1 exampleWrapped.1 exampleModule
      exampleWrapped.2 _ 1 2 1 4 3 1 exampleState_wellFormed exampleModule_foo
      exampleWrapped_run (by decide),
    C1_linear_index exampleE "foo" 35 2 exampleState.1 exampleWrapped.1 exampleModule
      exampleWrapped.2 _ 3 0 0 4 1 1 exampleState_wellFormed exampleModule_foo
      exampleWrapped_run (by decide)⟩

/-- C2: for a module that has a function definition named `name`, a signature that
lacks the foreach-kernel flag, or has the user-data flag, or has the context flag makes
`AddWrapper` return false and leave the builder and the module as they are (so the
entry points, the functions and the variables are those of before the call). -/
theorem C2_rejected_signature (E : Externals) (name : String) (signature numInput : Nat)
    (b : Builder) (m : Module)
    (hk : (m.lookupFunctionDefinitionByName name).isSome = true)
    (hs : E.hasForEachSignatureKernel signature = false ∨
      E.hasForEachSignatureUsrData signature = true ∨
      E.hasForEachSignatureCtxt signature = true) :
    (AddWrapper E name signature numInput).run (b, m) = some (false, (b, m)) := by
  obtain ⟨kernel, hk⟩ := Option.isSome_iff_exists.mp hk
  unfold AddWrapper
  rw [run_get_bind]
  simp only [hk]
  rcases hs with h | h | h
  · simp only [h, Bool.not_false, if_true]
    rfl
  · cases E.hasForEachSignatureKernel signature <;> simp only [h, Bool.not_false, Bool.not_true,
      Bool.false_eq_true, if_true, if_false] <;> rfl
  · cases E.hasForEachSignatureKernel signature <;>
      cases E.hasForEachSignatureUsrData signature <;>
        simp only [h, Bool.not_false, Bool.not_true, Bool.false_eq_true, if_true, if_false] <;> rfl

/-- Witness of C2: the kernel of the examples with a signature that has the context flag
(0xA1). -/
theorem C2_rejected_signature_witness :
    (exampleModule.lookupFunctionDefinitionByName "foo").isSome = true ∧
    exampleE.hasForEachSignatureCtxt 161 = true ∧
    (AddWrapper exampleE "foo" 161 1).run exampleState = some (false, exampleState) :=
  ⟨by decide, by decide,
    C2_rejected_signature exampleE "foo" 161 1 exampleState.1 exampleModule (by decide)
      (Or.inr (Or.inr (by decide)))⟩

/-- C3: for a module with no function definition named "root", `AddWrapper` for "root"
returns true and leaves the builder and the module as they are, whatever the signature
and the input count. -/
theorem C3_absent_root (E : Externals) (signature numInput : Nat) (b : Builder) (m : Module)
    (hk : m.lookupFunctionDefinitionByName "root" = none) :
    (AddWrapper E "root" signature numInput).run (b, m) = some (true, (b, m)) := by
  unfold AddWrapper
  rw [run_get_bind]
  simp only [hk]
  rfl

/-- Witness of C3: the module of the examples has no function named "root". -/
theorem C3_absent_root_witness :
    exampleModule.lookupFunctionDefinitionByName "root" = none ∧
    (AddWrapper exampleE "root" 35 1).run exampleState = some (true, exampleState) :=
  ⟨by decide, C3_absent_root exampleE 35 1 exampleState.1 exampleModule (by decide)⟩

/-- C4 (what the code does): the kernel name "root2" is not the reserved name "root"
and the module of the examples has no such function, yet `AddWrapper` returns true,
whatever the signature and the input count: `strncmp(name, "root", 4)` compares the
first four characters only. -/
theorem C4_root_prefix_returns_true (E : Externals) (signature numInput : Nat) (b : Builder) :
    "root2" ≠ "root" ∧ exampleModule.lookupFunctionDefinitionByName "root2" = none ∧
    (AddWrapper E "root2" signature numInput).run (b, exampleModule)
      = some (true, (b, exampleModule)) := by
  refine ⟨by decide, by decide, ?_⟩
  unfold AddWrapper
  rw [run_get_bind]
  have hk : exampleModule.lookupFunctionDefinitionByName "root2" = none := by decide
  simp only [hk]
  rfl

/-- C5: a successful `AddWrapper` for an existing kernel with input count n adds to the
variables of the module exactly n input buffers, in position order, followed by one
output buffer if the output flag is set and by nothing otherwise; each is a bound
buffer with descriptor set 0; the buffer of input position i has binding i + 2 and the
type of kernel parameter i as element type, and the output buffer has binding 1. -/
theorem C5_buffers (E : Externals) (name : String) (signature numInput : Nat)
    (b b' : Builder) (m m' : Module) (kernel : FunctionDefinition)
    (hk : m.lookupFunctionDefinitionByName name = some kernel)
    (hrun : (AddWrapper E name signature numInput).run (b, m) = some (true, (b', m'))) :
    ∃ inputs outputs : List Instruction,
      m'.variables = m.variables ++ inputs ++ outputs ∧
      inputs.length = numInput ∧
      outputs.length = (if E.hasForEachSignatureOut signature = true then 1 else 0) ∧
      (∀ i v, inputs[i]? = some v →
        ∃ param, kernel.getParameter i = some param ∧ IsBuffer m' v param.mResultType (i + 2)) ∧
      (∀ v ∈ outputs, IsBuffer m' v kernel.getReturnType 1) := by
  obtain ⟨p, hp⟩ := AddWrapper_spec (s := (b, m)) hk hrun
  refine ⟨p.rounds.map fun r => r.buffer, p.outputs, hp.added, ?_, ?_, ?_, ?_⟩
  · rw [List.length_map, hp.count]
  · cases hout : E.hasForEachSignatureOut signature with
    | true =>
      obtain ⟨buf, _, _, hb, -⟩ := hp.output hout
      rw [hb]
      rfl
    | false =>
      rw [(hp.noOutput hout).1]
      rfl
  · intro i v hv
    rw [List.getElem?_map] at hv
    obtain ⟨r, hr, rfl⟩ := Option.map_eq_some'.mp hv
    obtain ⟨param, _, hparam, hbuf, -⟩ := hp.rounds i r hr
    exact ⟨param, hparam, hbuf⟩
  · intro v hv
    cases hout : E.hasForEachSignatureOut signature with
    | true =>
      obtain ⟨buf, _, _, hb, hbuf, -⟩ := hp.output hout
      rw [hb] at hv
      rw [List.mem_singleton.mp hv]
      exact hbuf
    | false =>
      rw [(hp.noOutput hout).1] at hv
      cases hv

/-- Witness of C5: the kernel of the examples with two inputs and an output. -/
theorem C5_buffers_witness :
    ∃ inputs outputs : List Instruction,
      exampleWrapped.2.variables = exampleModule.variables ++ inputs ++ outputs ∧
      inputs.length = 2 ∧
      outputs.length = (if exampleE.hasForEachSignatureOut 35 = true then 1 else 0) ∧
      (∀ i v, inputs[i]? = some v →
        ∃ param, (⟨⟨5, 1, 0, 3⟩, [⟨6, 1⟩, ⟨7, 2⟩], [[⟨8, Op.Label⟩, ⟨9, Op.Return⟩]]⟩ :
            FunctionDefinition).getParameter i = some param ∧
          IsBuffer exampleWrapped.2 v param.mResultType (i + 2)) ∧
      (∀ v ∈ outputs, IsBuffer exampleWrapped.2 v 1 1) :=
  C5_buffers exampleE "foo" 35 2 exampleState.1 exampleWrapped.1 exampleModule exampleWrapped.2 _
    exampleModule_foo exampleWrapped_run

/-- C6: in the wrapper that a successful `AddWrapper` builds for an existing kernel with
input count n, the block has one function call; it calls the kernel, and its arguments
are the n loaded input values in position order (the load of input position i reads
the type of parameter i through an access chain into the buffer at binding i + 2),
followed by nothing if the x flag is clear, by x if x is set and y is clear, by x and y
if x and y are set and z is clear, and by x, y and z if all three are set. -/
theorem C6_call_arguments (E : Externals) (name : String) (signature numInput : Nat)
    (b b' : Builder) (m m' : Module) (kernel : FunctionDefinition)
    (hk : m.lookupFunctionDefinitionByName name = some kernel)
    (hrun : (AddWrapper E name signature numInput).run (b, m) = some (true, (b', m'))) :
    ∃ (wrapper : FunctionDefinition) (Blk : Block) (loads : List Instruction)
      (call : Instruction) (coords : List IdRef),
      m'.functions = m.functions ++ [wrapper] ∧ wrapper.blocks = [Blk] ∧
      call ∈ Blk ∧
      (∀ c ∈ Blk, ∀ ty f args, c.op = Op.FunctionCall ty f args → c = call) ∧
      call.op = Op.FunctionCall kernel.getReturnType kernel.getInstruction.id
        (loads.map (fun l => some l.id) ++ coords) ∧
      loads.length = numInput ∧
      (∀ i l, loads[i]? = some l →
        l ∈ Blk ∧
        ∃ (param : FunctionParameterInst) (chain buffer : Instruction) (ty : Nat)
          (idxs : List IdRef),
          kernel.getParameter i = some param ∧ l.op = Op.Load param.mResultType chain.id ∧
          chain ∈ Blk ∧ chain.op = Op.AccessChain ty buffer.id idxs ∧
          IsBuffer m' buffer param.mResultType (i + 2)) ∧
      (E.hasForEachSignatureX signature = false → coords = []) ∧
      (E.hasForEachSignatureX signature = true → E.hasForEachSignatureY signature = false →
        ∃ cx, coords = [some cx.id] ∧ IsCoordinate m' Blk 0 cx) ∧
      (E.hasForEachSignatureX signature = true → E.hasForEachSignatureY signature = true →
        E.hasForEachSignatureZ signature = false →
        ∃ cx cy, coords = [some cx.id, some cy.id] ∧ IsCoordinate m' Blk 0 cx ∧
          IsCoordinate m' Blk 1 cy) ∧
      (E.hasForEachSignatureX signature = true → E.hasForEachSignatureY signature = true →
        E.hasForEachSignatureZ signature = true →
        ∃ cx cy cz, coords = [some cx.id, some cy.id, some cz.id] ∧ IsCoordinate m' Blk 0 cx ∧
          IsCoordinate m' Blk 1 cy ∧ IsCoordinate m' Blk 2 cz) := by
  obtain ⟨p, hp⟩ := AddWrapper_spec (s := (b, m)) hk hrun
  have hmemIdx : ∀ a, a ∈ p.index → a ∈ p.block E signature kernel := by
    intro a ha
    simp [Wrapper.block, ha]
  -- the coordinates, when the x flag is set
  have hcoord : E.hasForEachSignatureX signature = true →
      ∃ cx cy cz : Instruction, p.v.XValue = some cx ∧ p.v.YValue = some cy ∧
        p.v.ZValue = some cz ∧ IsCoordinate m' (p.block E signature kernel) 0 cx ∧
        IsCoordinate m' (p.block E signature kernel) 1 cy ∧
        IsCoordinate m' (p.block E signature kernel) 2 cz := by
    intro hX
    obtain ⟨V3, inv, c1, gs, nwg, a0, a1, a2, hinv, -, -, -, -, -, -, -, -, hv, hindex⟩ :=
      hp.indexed (by simp [hX])
    have hIID : (⟨a0, Op.Load V3.id inv.id⟩ : Instruction) ∈ p.block E signature kernel :=
      hmemIdx _ (by rw [hindex]; simp [indexInstructions])
    refine ⟨_, _, _, by rw [hv], by rw [hv], by rw [hv], ?_, ?_, ?_⟩
    · exact ⟨hmemIdx _ (by rw [hindex]; simp [indexInstructions]), _, _,
        ⟨a0, Op.Load V3.id inv.id⟩, inv, rfl, hIID, rfl, hinv⟩
    · exact ⟨hmemIdx _ (by rw [hindex]; simp [indexInstructions]), _, _,
        ⟨a0, Op.Load V3.id inv.id⟩, inv, rfl, hIID, rfl, hinv⟩
    · exact ⟨hmemIdx _ (by rw [hindex]; simp [indexInstructions]), _, _,
        ⟨a0, Op.Load V3.id inv.id⟩, inv, rfl, hIID, rfl, hinv⟩
  refine ⟨p.function E signature kernel, p.block E signature kernel,
    p.rounds.map fun r => r.input, p.kernelCall E signature kernel,
    AddWrapper.coordinates E signature p.v [], hp.functions, rfl, ?_, ?_, ?_, ?_, ?_, ?_, ?_,
    ?_, ?_⟩
  · simp [Wrapper.block]
  · intro c hc ty f args hop
    simp only [Wrapper.block, List.mem_append, List.mem_singleton, List.mem_flatten,
      List.mem_map] at hc
    rcases hc with ((((hc | hc) | hc) | hc) | hc) | hc
    · subst hc
      cases hop
    · by_cases hflag : (E.hasForEachSignatureIn signature || E.hasForEachSignatureOut signature ||
          E.hasForEachSignatureX signature || E.hasForEachSignatureY signature ||
          E.hasForEachSignatureZ signature) = true
      · obtain ⟨V3, inv, c1, gs, nwg, a0, a1, a2, -, -, -, -, -, -, -, -, -, -, hindex⟩ :=
          hp.indexed hflag
        rw [hindex] at hc
        simp only [indexInstructions, List.mem_cons, List.mem_singleton, List.not_mem_nil,
          or_false] at hc
        rcases hc with hc | hc | hc | hc | hc | hc | hc | hc | hc | hc | hc | hc | hc | hc | hc <;>
          (subst hc; cases hop)
      · rw [(hp.notIndexed (by simpa using hflag)).2] at hc
        cases hc
    · obtain ⟨l, ⟨r, hr, rfl⟩, hcl⟩ := hc
      obtain ⟨j, hj⟩ := List.mem_iff_getElem?.mp hr
      obtain ⟨param, PtrTy, -, -, -, hPtr, hinput⟩ := hp.rounds j r hj
      simp only [List.mem_cons, List.mem_singleton, List.not_mem_nil, or_false] at hcl
      rcases hcl with hcl | hcl
      · subst hcl
        rw [hPtr] at hop
        cases hop
      · subst hcl
        rw [hinput] at hop
        cases hop
    · exact hc
    · cases hout : E.hasForEachSignatureOut signature with
      | true =>
        obtain ⟨buf, PtrTy, ptr, -, -, -, -, hstore⟩ := hp.output hout
        rw [hstore] at hc
        simp only [List.mem_cons, List.mem_singleton, List.not_mem_nil, or_false] at hc
        rcases hc with hc | hc <;> (subst hc; cases hop)
      | false =>
        rw [(hp.noOutput hout).2] at hc
        cases hc
    · subst hc
      cases hop
  · simp only [Wrapper.kernelCall, AddWrapper.coordinates, List.map_map, Function.comp_def,
      List.nil_append]
    split
    · split
      · split <;> simp
      · simp
    · simp
  · rw [List.length_map, hp.count]
  · intro i l hl
    rw [List.getElem?_map] at hl
    obtain ⟨r, hr, rfl⟩ := Option.map_eq_some'.mp hl
    obtain ⟨param, PtrTy, hparam, hbuf, -, hPtr, hinput⟩ := hp.rounds i r hr
    have hrm : r ∈ p.rounds := List.mem_iff_getElem?.mpr ⟨i, hr⟩
    have hmem : ∀ a, a ∈ [r.Ptr, r.input] → a ∈ p.block E signature kernel := by
      intro a ha
      simp only [Wrapper.block, List.mem_append, List.mem_flatten, List.mem_map]
      exact Or.inl (Or.inl (Or.inl (Or.inr ⟨_, ⟨r, hrm, rfl⟩, ha⟩)))
    exact ⟨hmem _ (by simp), param, r.Ptr, r.buffer, _, _, hparam, hinput, hmem _ (by simp), hPtr,
      hbuf⟩
  · intro hX
    simp [AddWrapper.coordinates, hX]
  · intro hX hY
    obtain ⟨cx, cy, cz, hx, hy, hz, hcx, hcy, hcz⟩ := hcoord hX
    exact ⟨cx, by simp [AddWrapper.coordinates, hX, hY, hx], hcx⟩
  · intro hX hY hZ
    obtain ⟨cx, cy, cz, hx, hy, hz, hcx, hcy, hcz⟩ := hcoord hX
    exact ⟨cx, cy, by simp [AddWrapper.coordinates, hX, hY, hZ, hx, hy], hcx, hcy⟩
  · intro hX hY hZ
    obtain ⟨cx, cy, cz, hx, hy, hz, hcx, hcy, hcz⟩ := hcoord hX
    exact ⟨cx, cy, cz, by simp [AddWrapper.coordinates, hX, hY, hZ, hx, hy, hz], hcx, hcy, hcz⟩

/-- Witness of C6: the kernel of the examples with one input and the x, y and z flags. -/
theorem C6_call_arguments_witness :
    ∃ (wrapper : FunctionDefinition) (Blk : Block) (loads : List Instruction)
      (call : Instruction) (coords : List IdRef),
      exampleWrappedXYZ.2.functions = exampleModule.functions ++ [wrapper] ∧
      wrapper.blocks = [Blk] ∧ call ∈ Blk ∧
      (∀ c ∈ Blk, ∀ ty f args, c.op = Op.FunctionCall ty f args → c = call) ∧
      call.op = Op.FunctionCall 1 5 (loads.map (fun l => some l.id) ++ coords) ∧
      loads.length = 1 ∧
      (∀ i l, loads[i]? = some l →
        l ∈ Blk ∧
        ∃ (param : FunctionParameterInst) (chain buffer : Instruction) (ty : Nat)
          (idxs : List IdRef),
          (⟨⟨5, 1, 0, 3⟩, [⟨6, 1⟩, ⟨7, 2⟩], [[⟨8, Op.Label⟩, ⟨9, Op.Return⟩]]⟩ :
            FunctionDefinition).getParameter i = some param ∧
          l.op = Op.Load param.mResultType chain.id ∧
          chain ∈ Blk ∧ chain.op = Op.AccessChain ty buffer.id idxs ∧
          IsBuffer exampleWrappedXYZ.2 buffer param.mResultType (i + 2)) ∧
      (exampleE.hasForEachSignatureX 121 = false → coords = []) ∧
      (exampleE.hasForEachSignatureX 121 = true → exampleE.hasForEachSignatureY 121 = false →
        ∃ cx, coords = [some cx.id] ∧ IsCoordinate exampleWrappedXYZ.2 Blk 0 cx) ∧
      (exampleE.hasForEachSignatureX 121 = true → exampleE.hasForEachSignatureY 121 = true →
        exampleE.hasForEachSignatureZ 121 = false →
        ∃ cx cy, coords = [some cx.id, some cy.id] ∧ IsCoordinate exampleWrappedXYZ.2 Blk 0 cx ∧
          IsCoordinate exampleWrappedXYZ.2 Blk 1 cy) ∧
      (exampleE.hasForEachSignatureX 121 = true → exampleE.hasForEachSignatureY 121 = true →
        exampleE.hasForEachSignatureZ 121 = true →
        ∃ cx cy cz, coords = [some cx.id, some cy.id, some cz.id] ∧
          IsCoordinate exampleWrappedXYZ.2 Blk 0 cx ∧ IsCoordinate exampleWrappedXYZ.2 Blk 1 cy ∧
          IsCoordinate exampleWrappedXYZ.2 Blk 2 cz) :=
  C6_call_arguments exampleE "foo" 121 1 exampleState.1 exampleWrappedXYZ.1 exampleModule
    exampleWrappedXYZ.2 _ exampleModule_foo exampleWrappedXYZ_run

/-- C7: the entry point that a successful `AddWrapper` adds for an existing kernel has
the interface list [invocation-id built-in, num-workgroups built-in] of the module if
at least one of the input, output, x, y or z flags is set in the signature, and the
empty interface list otherwise. -/
theorem C7_interface (E : Externals) (name : String) (signature numInput : Nat)
    (b b' : Builder) (m m' : Module) (kernel : FunctionDefinition)
    (hk : m.lookupFunctionDefinitionByName name = some kernel)
    (hrun : (AddWrapper E name signature numInput).run (b, m) = some (true, (b', m'))) :
    ∃ entry : EntryPointDefinition,
      m'.entryPoints = m.entryPoints ++ [entry] ∧
      ((E.hasForEachSignatureIn signature || E.hasForEachSignatureOut signature ||
          E.hasForEachSignatureX signature || E.hasForEachSignatureY signature ||
          E.hasForEachSignatureZ signature) = true →
        ∃ inv nwg : Instruction, m'.invocationId = some inv ∧ m'.numWorkgroups = some nwg ∧
          entry.interface = [some inv.id, some nwg.id]) ∧
      ((E.hasForEachSignatureIn signature || E.hasForEachSignatureOut signature ||
          E.hasForEachSignatureX signature || E.hasForEachSignatureY signature ||
          E.hasForEachSignatureZ signature) = false →
        entry.interface = []) := by
  obtain ⟨p, hp⟩ := AddWrapper_spec (s := (b, m)) hk hrun
  refine ⟨p.entry name, hp.entryPoints, ?_, ?_⟩
  · intro hflag
    obtain ⟨V3, inv, c1, gs, nwg, a0, a1, a2, hinv, hnwg, -, -, -, -, -, -, -, hv, -⟩ :=
      hp.indexed hflag
    refine ⟨inv, nwg, hinv, hnwg, ?_⟩
    simp [Wrapper.entry, hv]
  · intro hflag
    obtain ⟨hv, -⟩ := hp.notIndexed hflag
    simp [Wrapper.entry, hv, IndexVars.null]

/-- Witness of C7: a foreach kernel with the input and output flags and no coordinate
flag has both built-ins in its interface. -/
theorem C7_interface_witness :
    ∃ entry : EntryPointDefinition,
      exampleWrapped.2.entryPoints = exampleModule.entryPoints ++ [entry] ∧
      ((exampleE.hasForEachSignatureIn 35 || exampleE.hasForEachSignatureOut 35 ||
          exampleE.hasForEachSignatureX 35 || exampleE.hasForEachSignatureY 35 ||
          exampleE.hasForEachSignatureZ 35) = true →
        ∃ inv nwg : Instruction, exampleWrapped.2.invocationId = some inv ∧
          exampleWrapped.2.numWorkgroups = some nwg ∧
          entry.interface = [some inv.id, some nwg.id]) ∧
      ((exampleE.hasForEachSignatureIn 35 || exampleE.hasForEachSignatureOut 35 ||
          exampleE.hasForEachSignatureX 35 || exampleE.hasForEachSignatureY 35 ||
          exampleE.hasForEachSignatureZ 35) = false →
        entry.interface = []) :=
  C7_interface exampleE "foo" 35 2 exampleState.1 exampleWrapped.1 exampleModule exampleWrapped.2 _
    exampleModule_foo exampleWrapped_run

/-- C8: a successful `AddWrapper` for an existing kernel appends exactly one entry point
and one function definition to the module; the entry point is named "entry_" followed
by the kernel name, its execution model is GLCompute, its local size is (1, 1, 1), and
it refers to the new function, whose identifier is fresh, whose type is void() and
whose single block begins with a label and ends with a return. -/
theorem C8_entry_point (E : Externals) (name : String) (signature numInput : Nat)
    (b b' : Builder) (m m' : Module) (kernel : FunctionDefinition)
    (hk : m.lookupFunctionDefinitionByName name = some kernel)
    (hrun : (AddWrapper E name signature numInput).run (b, m) = some (true, (b', m'))) :
    ∃ (entry : EntryPointDefinition) (wrapper : FunctionDefinition) (Blk : Block)
      (first last : Instruction),
      m'.entryPoints = m.entryPoints ++ [entry] ∧ m'.functions = m.functions ++ [wrapper] ∧
      entry.name = "entry_" ++ name ∧ entry.executionModel = ExecutionModel.GLCompute ∧
      entry.localSize = some (1, 1, 1) ∧ entry.function = wrapper.inst.id ∧
      b.nextId ≤ wrapper.inst.id ∧ wrapper.params = [] ∧
      (⟨wrapper.inst.mResultType, Op.TypeVoid⟩ : Instruction) ∈ m'.globals ∧
      (⟨wrapper.inst.functionType, Op.TypeFunction wrapper.inst.mResultType []⟩ : Instruction)
        ∈ m'.globals ∧
      wrapper.blocks = [Blk] ∧
      Blk.head? = some first ∧ first.op = Op.Label ∧
      Blk.getLast? = some last ∧ last.op = Op.Return := by
  obtain ⟨p, hp⟩ := AddWrapper_spec (s := (b, m)) hk hrun
  refine ⟨p.entry name, p.function E signature kernel, p.block E signature kernel,
    ⟨p.label, Op.Label⟩, ⟨p.ret, Op.Return⟩, hp.entryPoints, hp.functions, rfl, rfl, rfl, rfl,
    hp.fresh, rfl, ?_, ?_, rfl, ?_, rfl, ?_, rfl⟩
  · show (⟨p.VoidTy.id, Op.TypeVoid⟩ : Instruction) ∈ m'.globals
    rw [Instruction.eta hp.voidTy.1]
    exact hp.voidTy.2
  · show (⟨p.FuncTy.id, Op.TypeFunction p.VoidTy.id []⟩ : Instruction) ∈ m'.globals
    rw [Instruction.eta hp.funcTy.1]
    exact hp.funcTy.2
  · simp [Wrapper.block]
  · unfold Wrapper.block
    exact List.getLast?_concat _

/-- Witness of C8: the kernel of the examples. -/
theorem C8_entry_point_witness :
    ∃ (entry : EntryPointDefinition) (wrapper : FunctionDefinition) (Blk : Block)
      (first last : Instruction),
      exampleWrapped.2.entryPoints = exampleModule.entryPoints ++ [entry] ∧
      exampleWrapped.2.functions = exampleModule.functions ++ [wrapper] ∧
      entry.name = "entry_" ++ "foo" ∧ entry.executionModel = ExecutionModel.GLCompute ∧
      entry.localSize = some (1, 1, 1) ∧ entry.function = wrapper.inst.id ∧
      exampleState.1.nextId ≤ wrapper.inst.id ∧ wrapper.params = [] ∧
      (⟨wrapper.inst.mResultType, Op.TypeVoid⟩ : Instruction) ∈ exampleWrapped.2.globals ∧
      (⟨wrapper.inst.functionType, Op.TypeFunction wrapper.inst.mResultType []⟩ : Instruction)
        ∈ exampleWrapped.2.globals ∧
      wrapper.blocks = [Blk] ∧
      Blk.head? = some first ∧ first.op = Op.Label ∧
      Blk.getLast? = some last ∧ last.op = Op.Return :=
  C8_entry_point exampleE "foo" 35 2 exampleState.1 exampleWrapped.1 exampleModule
    exampleWrapped.2 _ exampleModule_foo exampleWrapped_run

/-! ## The pipeline -/

theorem AddGLComputeWrappers.wrapKernels_congr (E : Externals) (md md' : MetadataExtractor) :
    ∀ (count i : Nat),
      (∀ j, i ≤ j → j < i + count →
        md'.getExportForEachNameList j = md.getExportForEachNameList j ∧
        md'.getExportForEachSignatureList j = md.getExportForEachSignatureList j ∧
        md'.getExportForEachInputCountList j = md.getExportForEachInputCountList j) →
      AddGLComputeWrappers.wrapKernels E md' count i
        = AddGLComputeWrappers.wrapKernels E md count i := by
  intro count
  induction count with
  | zero =>
    intro i _
    rw [AddGLComputeWrappers.wrapKernels, AddGLComputeWrappers.wrapKernels]
  | succ count ih =>
    intro i h
    rw [AddGLComputeWrappers.wrapKernels, AddGLComputeWrappers.wrapKernels]
    obtain ⟨h1, h2, h3⟩ := h i (Nat.le_refl _) (by omega)
    rw [h1, h2, h3, ih (i + 1) (fun j hj1 hj2 => h j (by omega) (by omega))]

/-- When the first `k` kernels from position `i` succeed and the next one fails, the
loop returns false in the state of that failure, however many kernels follow. -/
theorem AddGLComputeWrappers.wrapKernels_fail (E : Externals) (md : MetadataExtractor) :
    ∀ (k i : Nat) (s s1 s2 : St) (rest : Nat),
      (AddGLComputeWrappers.wrapKernels E md k i).run s = some (true, s1) →
      (AddWrapper E (md.getExportForEachNameList (i + k))
          (md.getExportForEachSignatureList (i + k))
          (md.getExportForEachInputCountList (i + k))).run s1 = some (false, s2) →
      (AddGLComputeWrappers.wrapKernels E md (k + 1 + rest) i).run s = some (false, s2) := by
  intro k
  induction k with
  | zero =>
    intro i s s1 s2 rest h1 h2
    rw [AddGLComputeWrappers.wrapKernels, run_pure] at h1
    cases h1
    rw [show 0 + 1 + rest = rest + 1 by omega, AddGLComputeWrappers.wrapKernels]
    rw [Nat.add_zero] at h2
    rw [run_bind, h2]
    rfl
  | succ k ih =>
    intro i s s1 s2 rest h1 h2
    rw [AddGLComputeWrappers.wrapKernels, run_bind_eq_some] at h1
    obtain ⟨ok, sa, ha, h1⟩ := h1
    cases ok with
    | false =>
      rw [Bool.not_false, if_pos rfl, run_pure] at h1
      cases h1
    | true =>
      rw [Bool.not_true, if_neg Bool.false_ne_true] at h1
      rw [show i + (k + 1) = i + 1 + k by omega] at h2
      have := ih (i + 1) sa s1 s2 rest h1 h2
      rw [show k + 1 + 1 + rest = (k + 1 + rest) + 1 by omega, AddGLComputeWrappers.wrapKernels]
      rw [run_bind, ha]
      exact this

/-- When every stage up to the second resolution succeeds, `AddGLComputeWrappers`
returns what the accessor transform returns; the verdict `d` of `DecorateGlobalBuffer`
plays no part. -/
theorem AddGLComputeWrappers_continues (E : Externals) (kernel_spirv : List Nat)
    (metadata : MetadataExtractor) (LM : LLVM.Module) (error : Int) (m0 m m1 m2 m3 : Module)
    (d : Bool) (s : St) (b1 b2 : Builder) (words : List Nat) (e2 : Int)
    (h1 : E.Deserialize kernel_spirv = some m0) (h2 : E.resolveIds m0 = (true, m))
    (h3 : (DecorateGlobalBuffer E LM).run (decorateState m) = some (d, s))
    (h4 : (AddGLComputeWrappers.wrapKernels E metadata
      metadata.getExportForEachSignatureCount 0).run s = some (true, (b1, m1)))
    (h5 : E.TranslateBuiltins b1 m1.consolidateAnnotations error = (words, b2, e2))
    (h6 : E.Deserialize words = some m2) (h7 : E.resolveIds m2 = (true, m3)) :
    ∃ GA b3 m4,
      AddGLComputeWrappers E kernel_spirv metadata LM error
        = some (E.TranslateGAAccessors b3 m4 GA e2) := by
  obtain ⟨GA, ⟨b3, m4⟩, h8, -⟩ := AddGLComputeWrappers.prepareMetadata_returns (m3.setBuilder b2, m3)
  have h3' : (DecorateGlobalBuffer E LM).run
      (m.setBuilder { nextId := 1 }, AddHeader (FixGlobalStorageClass m)) = some (d, s) := h3
  exact ⟨GA, b3, m4.consolidateAnnotations, by
    simp only [AddGLComputeWrappers, h1, h2, h3', h4, h5, h6, h7, h8]⟩

/-- The loop over the exported kernels follows the metadata lists in order: when the
calls of `AddWrapper` for the kernels `i`, `i + 1`, .., `i + k - 1` succeed one after
the other through the states `seq 0`, `seq 1`, .., the loop over these `k` kernels
returns true in state `seq k`. -/
theorem AddGLComputeWrappers.wrapKernels_chain (E : Externals) (md : MetadataExtractor) :
    ∀ (k i : Nat) (seq : Nat → St),
      (∀ j, j < k →
        (AddWrapper E (md.getExportForEachNameList (i + j))
          (md.getExportForEachSignatureList (i + j))
          (md.getExportForEachInputCountList (i + j))).run (seq j) = some (true, seq (j + 1))) →
      (AddGLComputeWrappers.wrapKernels E md k i).run (seq 0) = some (true, seq k) := by
  intro k
  induction k with
  | zero =>
    intro i seq _
    rw [AddGLComputeWrappers.wrapKernels, run_pure]
  | succ k ih =>
    intro i seq h
    have h0 := h 0 (by omega)
    rw [Nat.add_zero] at h0
    rw [AddGLComputeWrappers.wrapKernels, run_bind, h0]
    have hrest := ih (i + 1) (fun j => seq (j + 1)) (fun j hj => by
      have := h (j + 1) (by omega)
      rw [show i + (j + 1) = i + 1 + j by omega] at this
      exact this)
    simpa using hrest

/-- C9: `AddGLComputeWrappers` returns no word and the error code -1 when a word stream
decodes to no module, -2 when a decoded module does not resolve, and -3 when
`AddWrapper` returns false for an exported kernel. The kernels are processed in the
order of the metadata lists: when the calls of `AddWrapper` for the kernels 0, .., i - 1
return true one after the other, each in the state its predecessor left, and the call
for kernel i in the state after them returns false, the result is -3 whatever the
metadata hold after position i (no later kernel is processed); when the calls for all
exported kernels return true one after the other, the run goes on with the builtin
transform in the state after the last call, and gives -1 or -2 only as its output does
not decode or does not resolve. -/
theorem C9_error_codes (E : Externals) (kernel_spirv : List Nat) (metadata : MetadataExtractor)
    (LM : LLVM.Module) (error : Int) :
    (E.Deserialize kernel_spirv = none →
      AddGLComputeWrappers E kernel_spirv metadata LM error = some ([], -1)) ∧
    (∀ m0 m, E.Deserialize kernel_spirv = some m0 → E.resolveIds m0 = (false, m) →
      AddGLComputeWrappers E kernel_spirv metadata LM error = some ([], -2)) ∧
    (∀ (m0 m : Module) (d : Bool) (seq : Nat → St) (i : Nat) (s2 : St),
      E.Deserialize kernel_spirv = some m0 → E.resolveIds m0 = (true, m) →
      (DecorateGlobalBuffer E LM).run (decorateState m) = some (d, seq 0) →
      (∀ j, j < i →
        (AddWrapper E (metadata.getExportForEachNameList j)
          (metadata.getExportForEachSignatureList j)
          (metadata.getExportForEachInputCountList j)).run (seq j) = some (true, seq (j + 1))) →
      (AddWrapper E (metadata.getExportForEachNameList i)
        (metadata.getExportForEachSignatureList i)
        (metadata.getExportForEachInputCountList i)).run (seq i) = some (false, s2) →
      ∀ metadata' : MetadataExtractor,
        i < metadata'.getExportForEachSignatureCount →
        (∀ j, j ≤ i →
          metadata'.getExportForEachNameList j = metadata.getExportForEachNameList j ∧
          metadata'.getExportForEachSignatureList j = metadata.getExportForEachSignatureList j ∧
          metadata'.getExportForEachInputCountList j
            = metadata.getExportForEachInputCountList j) →
        AddGLComputeWrappers E kernel_spirv metadata' LM error = some ([], -3)) ∧
    (∀ (m0 m : Module) (d : Bool) (seq : Nat → St) (words : List Nat) (b2 : Builder) (e2 : Int),
      E.Deserialize kernel_spirv = some m0 → E.resolveIds m0 = (true, m) →
      (DecorateGlobalBuffer E LM).run (decorateState m) = some (d, seq 0) →
      (∀ j, j < metadata.getExportForEachSignatureCount →
        (AddWrapper E (metadata.getExportForEachNameList j)
          (metadata.getExportForEachSignatureList j)
          (metadata.getExportForEachInputCountList j)).run (seq j) = some (true, seq (j + 1))) →
      E.TranslateBuiltins (seq metadata.getExportForEachSignatureCount).1
        (seq metadata.getExportForEachSignatureCount).2.consolidateAnnotations error
          = (words, b2, e2) →
      (E.Deserialize words = none →
        AddGLComputeWrappers E kernel_spirv metadata LM error = some ([], -1)) ∧
      (∀ m2 m3, E.Deserialize words = some m2 → E.resolveIds m2 = (false, m3) →
        AddGLComputeWrappers E kernel_spirv metadata LM error = some ([], -2)) ∧
      (∀ m2 m3, E.Deserialize words = some m2 → E.resolveIds m2 = (true, m3) →
        ∃ GA b3 m4, AddGLComputeWrappers E kernel_spirv metadata LM error
          = some (E.TranslateGAAccessors b3 m4 GA e2))) := by
  refine ⟨?_, ?_, ?_, ?_⟩
  · intro h
    simp only [AddGLComputeWrappers, h]
  · intro m0 m h1 h2
    simp only [AddGLComputeWrappers, h1, h2]
  · intro m0 m d seq i s2 h1 h2 h3 h4 h5 metadata' hi hagree
    have hpre : (AddGLComputeWrappers.wrapKernels E metadata' i 0).run (seq 0)
        = some (true, seq i) := by
      rw [AddGLComputeWrappers.wrapKernels_congr E metadata metadata' i 0
        (fun j _ hj => hagree j (by omega))]
      exact AddGLComputeWrappers.wrapKernels_chain E metadata i 0 seq
        (fun j hj => by rw [Nat.zero_add]; exact h4 j hj)
    obtain ⟨a1, a2, a3⟩ := hagree i (Nat.le_refl _)
    have hfail := AddGLComputeWrappers.wrapKernels_fail E metadata' i 0 (seq 0) (seq i) s2
      (metadata'.getExportForEachSignatureCount - i - 1) hpre
      (by rw [Nat.zero_add, a1, a2, a3]; exact h5)
    rw [show i + 1 + (metadata'.getExportForEachSignatureCount - i - 1)
      = metadata'.getExportForEachSignatureCount by omega] at hfail
    have h3' : (DecorateGlobalBuffer E LM).run
        (m.setBuilder { nextId := 1 }, AddHeader (FixGlobalStorageClass m))
          = some (d, seq 0) := h3
    simp only [AddGLComputeWrappers, h1, h2, h3', hfail]
  · intro m0 m d seq words b2 e2 h1 h2 h3 h4 h5
    have h3' : (DecorateGlobalBuffer E LM).run
        (m.setBuilder { nextId := 1 }, AddHeader (FixGlobalStorageClass m))
          = some (d, seq 0) := h3
    have hall := AddGLComputeWrappers.wrapKernels_chain E metadata
      metadata.getExportForEachSignatureCount 0 seq
      (fun j hj => by rw [Nat.zero_add]; exact h4 j hj)
    refine ⟨?_, ?_, ?_⟩
    · intro h6
      simp only [AddGLComputeWrappers, h1, h2, h3', hall, h5, h6]
    · intro m2 m3 h6 h7
      simp only [AddGLComputeWrappers, h1, h2, h3', hall, h5, h6, h7]
    · intro m2 m3 h6 h7
      exact AddGLComputeWrappers_continues E kernel_spirv metadata LM error m0 m
        (seq metadata.getExportForEachSignatureCount).2 m2 m3 d (seq 0)
        (seq metadata.getExportForEachSignatureCount).1 b2 words e2 h1 h2 h3 hall h5 h6 h7

/-- Witness of C9: an empty word stream gives -1; with three exported kernels of which
the first is wrapped and the second is not in the module, the result is -3; with one
exported kernel that is wrapped and a builtin transform that returns no word, the
result is -1; with two exported kernels of which the first has a signature without the
kernel flag, the result is -3. -/
theorem C9_error_codes_witness :
    AddGLComputeWrappers exampleE [] exampleThreeKernels exampleEmptyLM 0 = some ([], -1) ∧
    AddGLComputeWrappers exampleE [0] exampleThreeKernels exampleEmptyLM 0 = some ([], -3) ∧
    AddGLComputeWrappers exampleNoWords [0] exampleOneKernel exampleEmptyLM 0
      = some ([], -1) ∧
    AddGLComputeWrappers exampleE [0] exampleTwoKernels exampleEmptyLM 0 = some ([], -3) :=
  ⟨(C9_error_codes exampleE [] exampleThreeKernels exampleEmptyLM 0).1 rfl,
    (C9_error_codes exampleE [0] exampleThreeKernels exampleEmptyLM 0).2.2.1
      exampleModule exampleModule true
      (fun j => if j = 0 then decorateState exampleModule
        else finalState ((AddWrapper exampleE "foo" 35 1).run (decorateState exampleModule))
          (decorateState exampleModule))
      1
      (finalState ((AddWrapper exampleE "foo" 35 1).run (decorateState exampleModule))
          (decorateState exampleModule))
      rfl rfl rfl
      (fun j hj => by
        obtain rfl : j = 0 := by omega
        decide!)
      (by decide!)
      exampleThreeKernels (by decide) (fun _ _ => ⟨rfl, rfl, rfl⟩),
    ((C9_error_codes exampleNoWords [0] exampleOneKernel exampleEmptyLM 0).2.2.2
      exampleModule exampleModule true
      (fun j => if j = 0 then decorateState exampleModule
        else finalState ((AddWrapper exampleNoWords "foo" 35 2).run (decorateState exampleModule))
          (decorateState exampleModule))
      [] _ 0 rfl rfl rfl
      (fun j hj => by
        obtain rfl : j = 0 := by
          have : j < 1 := hj
          omega
        decide!)
      rfl).1 rfl,
    (C9_error_codes exampleE [0] exampleTwoKernels exampleEmptyLM 0).2.2.1
      exampleModule exampleModule true (fun _ => decorateState exampleModule) 0
      (decorateState exampleModule) rfl rfl rfl (fun j hj => absurd hj (Nat.not_lt_zero j)) rfl
      exampleTwoKernels (by decide) (fun _ _ => ⟨rfl, rfl, rfl⟩)⟩

theorem exampleMissingAlloc_decorate :
    ∃ s, (DecorateGlobalBuffer exampleMissingAlloc exampleLM).run (decorateState exampleGPUModule)
      = some (false, s) :=
  ⟨_, rfl⟩

/-- C10 (what the code does): for a shader module with the global aggregate and a host
allocation `alloc` that the shader module does not have, `DecorateGlobalBuffer` returns
false, yet `AddGLComputeWrappers` goes on and returns the words of the last transform
with the error code unchanged: line 435 drops the returned value. -/
theorem C10_decorate_verdict_is_dropped :
    (∃ s, (DecorateGlobalBuffer exampleMissingAlloc exampleLM).run
        (decorateState exampleGPUModule) = some (false, s)) ∧
    AddGLComputeWrappers exampleMissingAlloc [0] exampleNoKernels exampleLM 0
      = some ([119734787], 0) := by
  refine ⟨exampleMissingAlloc_decorate, ?_⟩
  obtain ⟨s, hs⟩ := exampleMissingAlloc_decorate
  obtain ⟨GA, b3, m4, h⟩ := AddGLComputeWrappers_continues exampleMissingAlloc [0]
    exampleNoKernels exampleLM 0 exampleGPUModule exampleGPUModule s.2 exampleGPUModule
    exampleGPUModule false s s.1 s.1 [119734787] 0 rfl rfl hs rfl rfl rfl rfl
  rw [h]
  rfl

/-! ## Runs with a known first step -/

theorem run_bind_of_run {α β : Type} {x : M α} {f : α → M β} {s s1 : St} {a : α}
    (h : x.run s = some (a, s1)) : (x >>= f).run s = (f a).run s1 := by
  rw [run_bind, h]
  rfl

/-- Interning leaves the decorations of the module as they are. -/
theorem Module.intern_decorations {op : Op} {s s1 : St} {a : Instruction}
    (h : (Module.intern op).run s = some (a, s1)) : s1.2.decorations = s.2.decorations := by
  unfold Module.intern at h
  rw [run_modifyGet] at h
  cases hf : s.2.globals.find? (fun x => x.op = op) with
  | some x =>
    simp only [hf, Option.some.injEq, Prod.mk.injEq] at h
    obtain ⟨-, rfl⟩ := h
    rfl
  | none =>
    simp only [hf, Option.some.injEq, Prod.mk.injEq] at h
    obtain ⟨-, rfl⟩ := h
    rfl


/-! ## The global buffer -/

theorem Instruction.run_memberDecorate_struct {target : Instruction} {ms : List Nat}
    (h : target.op = Op.TypeStruct ms) (member : Nat) (d : Decoration) (extra : List Nat)
    (s : St) :
    (target.memberDecorate member d extra).run s
      = some (true, (s.1, s.2.addDecoration (DecorateInst.MemberDecorate target.id member d extra))) := by
  simp only [Instruction.memberDecorate, h]
  rfl

/-- The member loop of `DecorateGlobalBuffer` on a struct type: it returns true and adds
one offset decoration per member, in member order. -/
theorem DecorateGlobalBuffer.decorateMembers_run {StructTy : Instruction} {ms : List Nat}
    (h : StructTy.op = Op.TypeStruct ms) (SLayout : LLVM.StructLayout) :
    ∀ (count i : Nat) (s : St),
      (DecorateGlobalBuffer.decorateMembers StructTy SLayout count i).run s
        = some (true, (s.1,
            { s.2 with
              decorations := s.2.decorations ++
                (List.range' i count).map (fun j =>
                  DecorateInst.MemberDecorate StructTy.id j Decoration.Offset
                    [SLayout.getElementOffset j % 2 ^ 32]) })) := by
  intro count
  induction count with
  | zero =>
    intro i s
    rw [DecorateGlobalBuffer.decorateMembers]
    simp only [List.range'_zero, List.map_nil, List.append_nil]
    rfl
  | succ count ih =>
    intro i s
    rw [DecorateGlobalBuffer.decorateMembers,
      run_bind_of_run (Instruction.run_memberDecorate_struct h _ _ _ _)]
    simp only [Bool.not_true, Bool.false_eq_true, if_false]
    rw [ih]
    simp [Module.addDecoration, List.range'_succ]

theorem DecorateGlobalBuffer_absent (E : Externals) (LM : LLVM.Module) (s : St)
    (h : s.2.lookupByName "__GPUBlock" = none) :
    (DecorateGlobalBuffer E LM).run s = some (true, s) := by
  unfold DecorateGlobalBuffer
  rw [run_get_bind]
  simp only [h]
  rfl

theorem Module.getInstruction_addDecoration (m : Module) (d : DecorateInst) (i : Nat) :
    (m.addDecoration d).getInstruction i = m.getInstruction i := rfl

theorem run_unchecked_some {α : Type} (a : α) (s : St) : (unchecked (some a)).run s = some (a, s) :=
  rfl

theorem DecorateGlobalBuffer_native_absent (E : Externals) (LM : LLVM.Module) (s : St)
    (var : Nat) (StructTy : Instruction) (h : IsGlobalAggregate s.2 var StructTy)
    (hG : LM.globals.find? (fun GV => GV.getName = "__GPUBlock") = none) :
    (DecorateGlobalBuffer E LM).run s
      = some (true, DecorateGlobalBuffer.decorated s var StructTy) := by
  obtain ⟨hname, type, storage, storage1, StructPtrTy, hvar, hptr, hop, hst⟩ := h
  unfold DecorateGlobalBuffer
  rw [run_get_bind]
  simp only [hname]
  simp only [Instruction.decorate, run_bind, run_modify, run_get, Option.some_bind,
    Module.getInstruction_addDecoration, hvar, hptr, run_unchecked_some, hop, hst, hG, run_pure]
  rfl

theorem DecorateGlobalBuffer_wrong_type (E : Externals) (LM : LLVM.Module) (s : St)
    (var : Nat) (StructTy : Instruction) (G : LLVM.GlobalVariable)
    (h : IsGlobalAggregate s.2 var StructTy)
    (hG : LM.globals.find? (fun GV => GV.getName = "__GPUBlock") = some G)
    (hty : ∀ T, G.getType ≠ LLVM.LType.PointerType (LLVM.LType.Struct T)) :
    (DecorateGlobalBuffer E LM).run s
      = some (false, DecorateGlobalBuffer.decorated s var StructTy) := by
  obtain ⟨hname, type, storage, storage1, StructPtrTy, hvar, hptr, hop, hst⟩ := h
  unfold DecorateGlobalBuffer
  rw [run_get_bind]
  simp only [hname]
  simp only [Instruction.decorate, run_bind, run_modify, run_get, Option.some_bind,
    Module.getInstruction_addDecoration, hvar, hptr, run_unchecked_some, hop, hst, hG]
  rfl

theorem DecorateGlobalBuffer_no_layout (E : Externals) (LM : LLVM.Module) (s : St)
    (var : Nat) (StructTy : Instruction) (G : LLVM.GlobalVariable) (LStructTy : LLVM.StructType)
    (h : IsGlobalAggregate s.2 var StructTy)
    (hG : LM.globals.find? (fun GV => GV.getName = "__GPUBlock") = some G)
    (hty : G.getType = LLVM.LType.PointerType (LLVM.LType.Struct LStructTy))
    (hl : LM.getStructLayout LStructTy = none) :
    (DecorateGlobalBuffer E LM).run s
      = some (false, DecorateGlobalBuffer.decorated s var StructTy) := by
  obtain ⟨hname, type, storage, storage1, StructPtrTy, hvar, hptr, hop, hst⟩ := h
  unfold DecorateGlobalBuffer
  rw [run_get_bind]
  simp only [hname]
  simp only [Instruction.decorate, run_bind, run_modify, run_get, Option.some_bind,
    Module.getInstruction_addDecoration, hvar, hptr, run_unchecked_some, hop, hst, hG, hty, hl]
  rfl

/-- With the aggregate in both modules, a native pointer to a struct and a shader struct
type, `DecorateGlobalBuffer` reaches line 332 in the state `laidOut`; without
allocation metadata it returns true there. -/
theorem DecorateGlobalBuffer_no_allocations (E : Externals) (LM : LLVM.Module) (s : St)
    (var : Nat) (StructTy : Instruction) (ms : List Nat) (G : LLVM.GlobalVariable)
    (LStructTy : LLVM.StructType) (SLayout : LLVM.StructLayout)
    (h : IsGlobalAggregate s.2 var StructTy) (hs : StructTy.op = Op.TypeStruct ms)
    (hG : LM.globals.find? (fun GV => GV.getName = "__GPUBlock") = some G)
    (hty : G.getType = LLVM.LType.PointerType (LLVM.LType.Struct LStructTy))
    (hl : LM.getStructLayout LStructTy = some SLayout)
    (ha : E.getRSAllocationInfo LM = none) :
    (DecorateGlobalBuffer E LM).run s
      = some (true,
          DecorateGlobalBuffer.laidOut s var StructTy SLayout LStructTy.getNumElements) := by
  obtain ⟨hname, type, storage, storage1, StructPtrTy, hvar, hptr, hop, hst⟩ := h
  unfold DecorateGlobalBuffer
  rw [run_get_bind]
  simp only [hname]
  simp only [Instruction.decorate, run_bind, run_modify, run_get, Option.some_bind,
    Module.getInstruction_addDecoration, hvar, hptr, run_unchecked_some, hop, hst, hG, hty, hl,
    DecorateGlobalBuffer.decorateMembers_run hs, Bool.not_true, Bool.false_eq_true, if_false, ha]
  simp only [DecorateGlobalBuffer.laidOut, DecorateGlobalBuffer.decorated,
    DecorateGlobalBuffer.offsets, List.range_eq_range']
  rfl

theorem DecorateGlobalBuffer_allocations (E : Externals) (LM : LLVM.Module) (s : St)
    (var : Nat) (StructTy : Instruction) (ms : List Nat) (G : LLVM.GlobalVariable)
    (LStructTy : LLVM.StructType) (SLayout : LLVM.StructLayout)
    (RSAllocs : List RSAllocationInfo)
    (h : IsGlobalAggregate s.2 var StructTy) (hs : StructTy.op = Op.TypeStruct ms)
    (hG : LM.globals.find? (fun GV => GV.getName = "__GPUBlock") = some G)
    (hty : G.getType = LLVM.LType.PointerType (LLVM.LType.Struct LStructTy))
    (hl : LM.getStructLayout LStructTy = some SLayout)
    (ha : E.getRSAllocationInfo LM = some RSAllocs) :
    (DecorateGlobalBuffer E LM).run s
      = (DecorateGlobalBuffer.bindAllocations RSAllocs 3).run
          (DecorateGlobalBuffer.laidOut s var StructTy SLayout LStructTy.getNumElements) := by
  obtain ⟨hname, type, storage, storage1, StructPtrTy, hvar, hptr, hop, hst⟩ := h
  unfold DecorateGlobalBuffer
  rw [run_get_bind]
  simp only [hname]
  simp only [Instruction.decorate, run_bind, run_modify, run_get, Option.some_bind,
    Module.getInstruction_addDecoration, hvar, hptr, run_unchecked_some, hop, hst, hG, hty, hl,
    DecorateGlobalBuffer.decorateMembers_run hs, Bool.not_true, Bool.false_eq_true, if_false, ha]
  simp only [DecorateGlobalBuffer.laidOut, DecorateGlobalBuffer.decorated,
    DecorateGlobalBuffer.offsets, List.range_eq_range']

/-- The allocation loop of `DecorateGlobalBuffer` returns in every state; it adds plain
decorations only; it returns true exactly when every allocation has a name in the
module, and then allocation `j` has descriptor set 0 and binding `k + j`. -/
theorem DecorateGlobalBuffer.bindAllocations_run :
    ∀ (RSAllocs : List RSAllocationInfo) (k : Nat) (s : St),
      ∃ (r : Bool) (l : List DecorateInst),
        (DecorateGlobalBuffer.bindAllocations RSAllocs k).run s
          = some (r, (s.1, { s.2 with decorations := s.2.decorations ++ l })) ∧
        (∀ d ∈ l, ∃ t dec ex, d = DecorateInst.Decorate t dec ex) ∧
        (r = true ↔ ∀ A ∈ RSAllocs, (s.2.lookupByName A.VarName).isSome = true) ∧
        (r = true → ∀ (j : Nat) (A : RSAllocationInfo), RSAllocs[j]? = some A →
          ∃ var, s.2.lookupByName A.VarName = some var ∧
            DecorateInst.Decorate var Decoration.DescriptorSet [0] ∈ l ∧
            DecorateInst.Decorate var Decoration.Binding [k + j] ∈ l) := by
  intro RSAllocs
  induction RSAllocs with
  | nil =>
    intro k s
    refine ⟨true, [], ?_, by simp, by simp, by simp⟩
    rw [DecorateGlobalBuffer.bindAllocations]
    simp only [List.append_nil]
    rfl
  | cons A rest ih =>
    intro k s
    rw [DecorateGlobalBuffer.bindAllocations, run_get_bind]
    cases hlook : s.2.lookupByName A.VarName with
    | none =>
      refine ⟨false, [], ?_, by simp, ?_, by simp⟩
      · simp only [List.append_nil]
        rfl
      · simp only [Bool.false_eq_true, List.mem_cons, forall_eq_or_imp, hlook, Option.isSome_none,
          false_and]
    | some var =>
      obtain ⟨r, l, hrun, hl, hr, hb⟩ := ih (k + 1)
        (s.1, (s.2.addDecoration (DecorateInst.Decorate var Decoration.DescriptorSet [0])).addDecoration
          (DecorateInst.Decorate var Decoration.Binding [k]))
      refine ⟨r, [DecorateInst.Decorate var Decoration.DescriptorSet [0],
        DecorateInst.Decorate var Decoration.Binding [k]] ++ l, ?_, ?_, ?_, ?_⟩
      · simp only [Instruction.decorate, run_bind, run_modify, Option.some_bind]
        rw [hrun]
        simp [Module.addDecoration]
      · intro d hd
        rcases List.mem_append.mp hd with hd | hd
        · simp only [List.mem_cons, List.mem_singleton, List.not_mem_nil, or_false] at hd
          rcases hd with rfl | rfl
          · exact ⟨_, _, _, rfl⟩
          · exact ⟨_, _, _, rfl⟩
        · exact hl d hd
      · rw [hr]
        simp only [List.mem_cons, forall_eq_or_imp, hlook, Option.isSome_some, true_and]
        rfl
      · intro ht j B hj
        cases j with
        | zero =>
          simp only [List.getElem?_cons_zero, Option.some.injEq] at hj
          subst hj
          exact ⟨var, hlook, by simp, by simp⟩
        | succ j =>
          simp only [List.getElem?_cons_succ] at hj
          obtain ⟨v, hv, h1, h2⟩ := hb ht j B hj
          refine ⟨v, hv, List.mem_append_right _ h1, List.mem_append_right _ ?_⟩
          rw [show k + (j + 1) = k + 1 + j by omega]
          exact h2

/-- C11: when the shader module has the global aggregate `__GPUBlock` (a variable whose
type is a pointer to the struct type `StructTy`) and the native `__GPUBlock` is a pointer
to a struct of n members with the layout offsets o_0 .. o_(n-1), `DecorateGlobalBuffer`
returns, and the decorations it adds are: descriptor set 0 and binding 0 on the
variable, BufferBlock on the struct type, then for i = 0 .. n-1 in member order the
Offset decoration of member i of the struct type with the operand o_i mod 2^32, then
decorations that are no member decorations. -/
theorem C11_member_offsets (E : Externals) (LM : LLVM.Module) (b : Builder) (m : Module)
    (var : Nat) (StructTy : Instruction) (ms : List Nat) (G : LLVM.GlobalVariable)
    (LStructTy : LLVM.StructType) (SLayout : LLVM.StructLayout)
    (h : IsGlobalAggregate m var StructTy) (hs : StructTy.op = Op.TypeStruct ms)
    (hG : LM.globals.find? (fun GV => GV.getName = "__GPUBlock") = some G)
    (hty : G.getType = LLVM.LType.PointerType (LLVM.LType.Struct LStructTy))
    (hl : LM.getStructLayout LStructTy = some SLayout) :
    ∃ (r : Bool) (b1 : Builder) (m1 : Module) (rest : List DecorateInst),
      (DecorateGlobalBuffer E LM).run (b, m) = some (r, (b1, m1)) ∧
      m1.decorations = m.decorations ++
        [DecorateInst.Decorate var Decoration.DescriptorSet [0],
         DecorateInst.Decorate var Decoration.Binding [0],
         DecorateInst.Decorate StructTy.id Decoration.BufferBlock []] ++
        (List.range LStructTy.getNumElements).map (fun i =>
          DecorateInst.MemberDecorate StructTy.id i Decoration.Offset
            [SLayout.getElementOffset i % 2 ^ 32]) ++ rest ∧
      ∀ d ∈ rest, ∀ t i dec ex, d ≠ DecorateInst.MemberDecorate t i dec ex := by
  cases ha : E.getRSAllocationInfo LM with
  | none =>
    refine ⟨true, _, _, [], DecorateGlobalBuffer_no_allocations E LM (b, m) var StructTy ms G
      LStructTy SLayout h hs hG hty hl ha, ?_, by simp⟩
    simp [DecorateGlobalBuffer.laidOut, DecorateGlobalBuffer.decorated,
      DecorateGlobalBuffer.offsets, Module.addDecoration]
  | some RSAllocs =>
    obtain ⟨r, l, hrun, hplain, -, -⟩ := DecorateGlobalBuffer.bindAllocations_run RSAllocs 3
      (DecorateGlobalBuffer.laidOut (b, m) var StructTy SLayout LStructTy.getNumElements)
    rw [← DecorateGlobalBuffer_allocations E LM (b, m) var StructTy ms G LStructTy SLayout
      RSAllocs h hs hG hty hl ha] at hrun
    refine ⟨r, _, _, l, hrun, ?_, ?_⟩
    · simp [DecorateGlobalBuffer.laidOut, DecorateGlobalBuffer.decorated,
        DecorateGlobalBuffer.offsets, Module.addDecoration]
    · intro d hd t i dec ex hne
      obtain ⟨t1, dec1, ex1, h1⟩ := hplain d hd
      rw [h1] at hne
      cases hne

theorem exampleAllocModule_aggregate :
    IsGlobalAggregate exampleAllocModule 4 ⟨2, Op.TypeStruct [1, 1]⟩ :=
  ⟨rfl, 3, StorageClass.Uniform, StorageClass.Uniform, ⟨3, Op.TypePointer StorageClass.Uniform 2⟩,
    rfl, rfl, rfl, rfl⟩

/-- Witness of C11: a struct of two members at the native offsets 0 and 8. -/
theorem C11_member_offsets_witness :
    ∃ (r : Bool) (b1 : Builder) (m1 : Module) (rest : List DecorateInst),
      (DecorateGlobalBuffer exampleAlloc exampleAllocLM).run exampleAllocState
        = some (r, (b1, m1)) ∧
      m1.decorations = exampleAllocModule.decorations ++
        [DecorateInst.Decorate 4 Decoration.DescriptorSet [0],
         DecorateInst.Decorate 4 Decoration.Binding [0],
         DecorateInst.Decorate 2 Decoration.BufferBlock []] ++
        (List.range 2).map (fun i =>
          DecorateInst.MemberDecorate 2 i Decoration.Offset [8 * i % 2 ^ 32]) ++ rest ∧
      ∀ d ∈ rest, ∀ t i dec ex, d ≠ DecorateInst.MemberDecorate t i dec ex :=
  C11_member_offsets exampleAlloc exampleAllocLM exampleAllocState.1 exampleAllocModule 4
    ⟨2, Op.TypeStruct [1, 1]⟩ [1, 1] _ ⟨"struct.GPUBlock", 2⟩ { getElementOffset := fun i => 8 * i }
    exampleAllocModule_aggregate rfl rfl rfl rfl

/-- C12: when `DecorateGlobalBuffer` processes the host-declared global allocations A_0
.. A_(k-1) (the aggregate `__GPUBlock` is in both modules, the native one is a pointer to
a struct with a layout, the shader one a variable of type pointer to a struct type): if
every allocation name is found in the shader module, it returns true and the
instruction that the name of A_j names has the decorations descriptor set 0 and binding
3 + j for every j < k; if some allocation name is not found, it returns false. -/
theorem C12_allocation_bindings (E : Externals) (LM : LLVM.Module) (b : Builder) (m : Module)
    (var : Nat) (StructTy : Instruction) (ms : List Nat) (G : LLVM.GlobalVariable)
    (LStructTy : LLVM.StructType) (SLayout : LLVM.StructLayout)
    (RSAllocs : List RSAllocationInfo)
    (h : IsGlobalAggregate m var StructTy) (hs : StructTy.op = Op.TypeStruct ms)
    (hG : LM.globals.find? (fun GV => GV.getName = "__GPUBlock") = some G)
    (hty : G.getType = LLVM.LType.PointerType (LLVM.LType.Struct LStructTy))
    (hl : LM.getStructLayout LStructTy = some SLayout)
    (ha : E.getRSAllocationInfo LM = some RSAllocs) :
    ((∀ A ∈ RSAllocs, (m.lookupByName A.VarName).isSome = true) →
      ∃ (b1 : Builder) (m1 : Module),
        (DecorateGlobalBuffer E LM).run (b, m) = some (true, (b1, m1)) ∧
        ∀ (j : Nat) (A : RSAllocationInfo), RSAllocs[j]? = some A →
          ∃ bufferVar, m.lookupByName A.VarName = some bufferVar ∧
            DecorateInst.Decorate bufferVar Decoration.DescriptorSet [0] ∈ m1.decorations ∧
            DecorateInst.Decorate bufferVar Decoration.Binding [3 + j] ∈ m1.decorations) ∧
    ((∃ A ∈ RSAllocs, m.lookupByName A.VarName = none) →
      ∃ (b1 : Builder) (m1 : Module),
        (DecorateGlobalBuffer E LM).run (b, m) = some (false, (b1, m1))) := by
  obtain ⟨r, l, hrun, -, hr, hb⟩ := DecorateGlobalBuffer.bindAllocations_run RSAllocs 3
    (DecorateGlobalBuffer.laidOut (b, m) var StructTy SLayout LStructTy.getNumElements)
  rw [← DecorateGlobalBuffer_allocations E LM (b, m) var StructTy ms G LStructTy SLayout
    RSAllocs h hs hG hty hl ha] at hrun
  constructor
  · intro hall
    have ht : r = true := hr.mpr hall
    subst ht
    refine ⟨_, _, hrun, ?_⟩
    intro j A hj
    obtain ⟨v, hv, h1, h2⟩ := hb rfl j A hj
    exact ⟨v, hv, List.mem_append_right _ h1, List.mem_append_right _ h2⟩
  · rintro ⟨A, hA, hnone⟩
    have hf : r = false := by
      cases r with
      | false => rfl
      | true =>
        have := hr.mp rfl A hA
        have hn : (m.lookupByName A.VarName).isSome = false := by rw [hnone]; rfl
        rw [show (DecorateGlobalBuffer.laidOut (b, m) var StructTy SLayout
          LStructTy.getNumElements).2.lookupByName A.VarName = m.lookupByName A.VarName from rfl,
          hn] at this
        cases this
    subst hf
    exact ⟨_, _, hrun⟩

/-- Witness of C12: the allocation `alloc` of the shader module gets binding 3; an
allocation that the shader module does not have makes the function return false. -/
theorem C12_allocation_bindings_witness :
    (∃ (b1 : Builder) (m1 : Module),
      (DecorateGlobalBuffer exampleAlloc exampleAllocLM).run exampleAllocState
        = some (true, (b1, m1)) ∧
      ∀ (j : Nat) (A : RSAllocationInfo), [(⟨"alloc"⟩ : RSAllocationInfo)][j]? = some A →
        ∃ bufferVar, exampleAllocModule.lookupByName A.VarName = some bufferVar ∧
          DecorateInst.Decorate bufferVar Decoration.DescriptorSet [0] ∈ m1.decorations ∧
          DecorateInst.Decorate bufferVar Decoration.Binding [3 + j] ∈ m1.decorations) ∧
    (∃ (b1 : Builder) (m1 : Module),
      (DecorateGlobalBuffer (exampleExternals exampleAllocModule (some [⟨"alloc"⟩, ⟨"other"⟩]))
        exampleAllocLM).run exampleAllocState = some (false, (b1, m1))) :=
  ⟨(C12_allocation_bindings exampleAlloc exampleAllocLM exampleAllocState.1 exampleAllocModule 4
      ⟨2, Op.TypeStruct [1, 1]⟩ [1, 1] _ ⟨"struct.GPUBlock", 2⟩
      { getElementOffset := fun i => 8 * i } [⟨"alloc"⟩] exampleAllocModule_aggregate rfl rfl rfl
      rfl rfl).1 (by decide),
    (C12_allocation_bindings (exampleExternals exampleAllocModule (some [⟨"alloc"⟩, ⟨"other"⟩]))
      exampleAllocLM exampleAllocState.1 exampleAllocModule 4
      ⟨2, Op.TypeStruct [1, 1]⟩ [1, 1] _ ⟨"struct.GPUBlock", 2⟩
      { getElementOffset := fun i => 8 * i } [⟨"alloc"⟩, ⟨"other"⟩] exampleAllocModule_aggregate
      rfl rfl rfl rfl rfl).2 ⟨⟨"other"⟩, by decide, by decide⟩⟩

/-- C13 (what the code does): the shader module of the examples has no `__GPUBlock` and
the native `__GPUBlock` is present with a type that is not a pointer to a struct, yet
`DecorateGlobalBuffer` returns true: the test of the shader module (lines 272-275) comes
first. -/
theorem C13_absent_shader_symbol_returns_true :
    exampleModule.lookupByName "__GPUBlock" = none ∧
    (∃ G, exampleWrongLM.globals.find? (fun GV => GV.getName = "__GPUBlock") = some G ∧
      ∀ T, G.getType ≠ LLVM.LType.PointerType (LLVM.LType.Struct T)) ∧
    (DecorateGlobalBuffer exampleE exampleWrongLM).run exampleState = some (true, exampleState) :=
  ⟨rfl, ⟨_, rfl, fun T h => by cases h⟩,
    DecorateGlobalBuffer_absent exampleE exampleWrongLM exampleState rfl⟩

/-- C13 (amended): `DecorateGlobalBuffer` returns true, and leaves builder and module as
they are, when the shader module has no `__GPUBlock`; when the shader module has it (a
variable whose type is a pointer type of the module), it returns true if the native
globals have no `__GPUBlock`, and false if the native `__GPUBlock` is present with a type
that is not a pointer to a struct. -/
theorem C13_aggregate_verdict (E : Externals) (LM : LLVM.Module) (b : Builder) (m : Module) :
    (m.lookupByName "__GPUBlock" = none →
      (DecorateGlobalBuffer E LM).run (b, m) = some (true, (b, m))) ∧
    (∀ var StructTy, IsGlobalAggregate m var StructTy →
      LM.globals.find? (fun GV => GV.getName = "__GPUBlock") = none →
      ∃ (b1 : Builder) (m1 : Module),
        (DecorateGlobalBuffer E LM).run (b, m) = some (true, (b1, m1))) ∧
    (∀ var StructTy G, IsGlobalAggregate m var StructTy →
      LM.globals.find? (fun GV => GV.getName = "__GPUBlock") = some G →
      (∀ T, G.getType ≠ LLVM.LType.PointerType (LLVM.LType.Struct T)) →
      ∃ (b1 : Builder) (m1 : Module),
        (DecorateGlobalBuffer E LM).run (b, m) = some (false, (b1, m1))) :=
  ⟨fun h => DecorateGlobalBuffer_absent E LM (b, m) h,
    fun var StructTy h hG =>
      ⟨_, _, DecorateGlobalBuffer_native_absent E LM (b, m) var StructTy h hG⟩,
    fun var StructTy G h hG hty =>
      ⟨_, _, DecorateGlobalBuffer_wrong_type E LM (b, m) var StructTy G h hG hty⟩⟩

/-- Witness of C13: a shader module without the aggregate; a shader module with the
aggregate and a native module without globals; a shader module with the aggregate and a
native aggregate that is a pointer to an integer. -/
theorem C13_aggregate_verdict_witness :
    (DecorateGlobalBuffer exampleE exampleAllocLM).run exampleState = some (true, exampleState) ∧
    (∃ (b1 : Builder) (m1 : Module),
      (DecorateGlobalBuffer exampleAlloc exampleEmptyLM).run exampleAllocState
        = some (true, (b1, m1))) ∧
    (∃ (b1 : Builder) (m1 : Module),
      (DecorateGlobalBuffer exampleAlloc exampleWrongLM).run exampleAllocState
        = some (false, (b1, m1))) :=
  ⟨(C13_aggregate_verdict exampleE exampleAllocLM exampleState.1 exampleModule).1 rfl,
    (C13_aggregate_verdict exampleAlloc exampleEmptyLM exampleAllocState.1 exampleAllocModule).2.1
      4 ⟨2, Op.TypeStruct [1, 1]⟩ exampleAllocModule_aggregate rfl,
    (C13_aggregate_verdict exampleAlloc exampleWrongLM exampleAllocState.1 exampleAllocModule).2.2
      4 ⟨2, Op.TypeStruct [1, 1]⟩ _ exampleAllocModule_aggregate rfl (fun T h => by cases h)⟩

/-! ## Storage classes -/

theorem StorageClassVisitor.visit_id (x : Instruction) : (StorageClassVisitor.visit x).id = x.id := by
  unfold StorageClassVisitor.visit
  split <;> rfl

/-- C14: `FixGlobalStorageClass` keeps the length and the order of the global section and
the identifier of every instruction in it; a pointer type, a forward-pointer declaration
and a variable declaration of the global section get the storage class Uniform if
theirs was Function and keep theirs otherwise, with their other operands; every other
instruction of the global section and every other part of the module stay as they are;
so no declaration of these three kinds in the global section has the storage class
Function afterwards. -/
theorem C14_storage_class (m : Module) :
    (FixGlobalStorageClass m).globals.length = m.globals.length ∧
    (∀ (i : Nat) (x : Instruction), m.globals[i]? = some x →
      ∃ y, (FixGlobalStorageClass m).globals[i]? = some y ∧ y.id = x.id ∧
        (∀ storage pointee, x.op = Op.TypePointer storage pointee →
          y.op = Op.TypePointer
            (if storage = StorageClass.Function then StorageClass.Uniform else storage) pointee) ∧
        (∀ pointer storage, x.op = Op.TypeForwardPointer pointer storage →
          y.op = Op.TypeForwardPointer pointer
            (if storage = StorageClass.Function then StorageClass.Uniform else storage)) ∧
        (∀ type storage, x.op = Op.Variable type storage →
          y.op = Op.Variable type
            (if storage = StorageClass.Function then StorageClass.Uniform else storage)) ∧
        ((∀ storage pointee, x.op ≠ Op.TypePointer storage pointee) →
          (∀ pointer storage, x.op ≠ Op.TypeForwardPointer pointer storage) →
          (∀ type storage, x.op ≠ Op.Variable type storage) → y = x)) ∧
    (FixGlobalStorageClass m).capabilities = m.capabilities ∧
    (FixGlobalStorageClass m).extInstImports = m.extInstImports ∧
    (FixGlobalStorageClass m).memoryModel = m.memoryModel ∧
    (FixGlobalStorageClass m).entryPoints = m.entryPoints ∧
    (FixGlobalStorageClass m).source = m.source ∧
    (FixGlobalStorageClass m).sourceExtensions = m.sourceExtensions ∧
    (FixGlobalStorageClass m).names = m.names ∧
    (FixGlobalStorageClass m).decorations = m.decorations ∧
    (FixGlobalStorageClass m).invocationId = m.invocationId ∧
    (FixGlobalStorageClass m).numWorkgroups = m.numWorkgroups ∧
    (FixGlobalStorageClass m).functions = m.functions ∧
    (∀ y ∈ (FixGlobalStorageClass m).globals, ∀ a : Nat,
      y.op ≠ Op.TypePointer StorageClass.Function a ∧
      y.op ≠ Op.TypeForwardPointer a StorageClass.Function ∧
      y.op ≠ Op.Variable a StorageClass.Function) := by
  refine ⟨by simp [FixGlobalStorageClass], ?_, rfl, rfl, rfl, rfl, rfl, rfl, rfl, rfl, rfl, rfl,
    rfl, ?_⟩
  · intro i x hx
    refine ⟨StorageClassVisitor.visit x, by simp [FixGlobalStorageClass, hx],
      StorageClassVisitor.visit_id x, ?_, ?_, ?_, ?_⟩
    · intro storage pointee h
      simp only [StorageClassVisitor.visit, h, StorageClassVisitor.matchAndReplace]
    · intro pointer storage h
      simp only [StorageClassVisitor.visit, h, StorageClassVisitor.matchAndReplace]
    · intro type storage h
      simp only [StorageClassVisitor.visit, h, StorageClassVisitor.matchAndReplace]
    · intro h1 h2 h3
      unfold StorageClassVisitor.visit
      split
      · rename_i storage pointee h
        exact absurd h (h1 _ _)
      · rename_i pointer storage h
        exact absurd h (h2 _ _)
      · rename_i type storage h
        exact absurd h (h3 _ _)
      · rfl
  · intro y hy a
    simp only [FixGlobalStorageClass, List.mem_map] at hy
    obtain ⟨x, -, rfl⟩ := hy
    unfold StorageClassVisitor.visit
    split
    · rename_i storage pointee h
      refine ⟨?_, by simp, by simp⟩
      simp only [StorageClassVisitor.matchAndReplace, ne_eq, Op.TypePointer.injEq, not_and]
      intro h1
      split at h1 <;> simp_all
    · rename_i pointer storage h
      refine ⟨by simp, ?_, by simp⟩
      simp only [StorageClassVisitor.matchAndReplace, ne_eq, Op.TypeForwardPointer.injEq, not_and]
      intro _ h1
      split at h1 <;> simp_all
    · rename_i type storage h
      refine ⟨by simp, by simp, ?_⟩
      simp only [StorageClassVisitor.matchAndReplace, ne_eq, Op.Variable.injEq, not_and]
      intro _ h1
      split at h1 <;> simp_all
    · rename_i h1 h2 h3
      exact ⟨h1 _ _, h2 _ _, h3 _ _⟩

/-- Witness of C14: the variable of `exampleGPUModule`, of storage class Function, is a
variable of storage class Uniform afterwards. -/
theorem C14_storage_class_witness :
    ∃ y, (FixGlobalStorageClass exampleGPUModule).globals[3]? = some y ∧
      y.op = Op.Variable 3 StorageClass.Uniform := by
  obtain ⟨y, h1, -, -, -, h4, -⟩ := (C14_storage_class exampleGPUModule).2.1 3
    ⟨4, Op.Variable 3 StorageClass.Function⟩ rfl
  exact ⟨y, h1, h4 3 StorageClass.Function rfl⟩

/-! ## Bound buffers -/

/-- What `AddBuffer` builds: the three types, the variable, and the five decorations it
adds, in order; the stride is the size of the element type in the module as it is after
the array type has been asked for (line 80). -/
theorem AddBuffer_decorations {E : Externals} {elementType binding : Nat} {s s1 : St}
    {var : Instruction} (h : (AddBuffer E elementType binding).run s = some (var, s1)) :
    ∃ (ArrTy StructTy StructPtrTy : Instruction) (sA : St),
      (Module.getRuntimeArrayType elementType).run s = some (ArrTy, sA) ∧
      ArrTy.op = Op.TypeRuntimeArray elementType ∧ ArrTy ∈ s1.2.globals ∧
      StructTy.op = Op.TypeStruct [ArrTy.id] ∧ StructTy ∈ s1.2.globals ∧
      StructPtrTy.op = Op.TypePointer StorageClass.Uniform StructTy.id ∧
      StructPtrTy ∈ s1.2.globals ∧
      var.op = Op.Variable StructPtrTy.id StorageClass.Uniform ∧ var ∈ s1.2.globals ∧
      s1.2.decorations = s.2.decorations ++
        [DecorateInst.Decorate ArrTy.id Decoration.ArrayStride [E.getSize sA.2 elementType],
         DecorateInst.Decorate StructTy.id Decoration.BufferBlock [],
         DecorateInst.MemberDecorate StructTy.id 0 Decoration.Offset [0],
         DecorateInst.Decorate var.id Decoration.DescriptorSet [0],
         DecorateInst.Decorate var.id Decoration.Binding [binding]] := by
  unfold AddBuffer at h
  simp only [run_bind_eq_some, run_get, run_pure, Instruction.decorate, run_modify,
    Builder.MakeVariable, Builder.run_Make, Module.addVariable, Option.some.injEq,
    Prod.mk.injEq] at h
  obtain ⟨ArrTy, sA, hA, _, _, ⟨rfl, rfl⟩, _, _, ⟨-, rfl⟩, StructTy, sB, hB, _, _, ⟨-, rfl⟩,
    ok, sC, hC, u, sD, hD, PtrTy, sE, hE, _, _, ⟨rfl, rfl⟩, _, _, ⟨-, rfl⟩, _, _, ⟨-, rfl⟩,
    _, _, ⟨-, rfl⟩, rfl, rfl⟩ := h
  obtain ⟨-, rfl⟩ := Instruction.memberDecorate_nonNull hC hD
  dsimp only at hE
  obtain ⟨stA, opA, memA, -, -⟩ := Module.intern_spec hA rfl
  obtain ⟨stB, opB, memB, -, -⟩ := Module.intern_spec hB rfl
  obtain ⟨stE, opE, memE, -, -⟩ := Module.intern_spec hE rfl
  have dA := Module.intern_decorations hA
  have dB := Module.intern_decorations hB
  have dE := Module.intern_decorations hE
  have stAB : Step [] sA sB := (Step.decorate _ _).trans_nil stB
  have stBE : Step [] sB sE := (Step.decorate _ _).trans_nil ((Step.decorate _ _).trans_nil stE)
  have hm : ∀ x, x ∈ sE.2.globals →
      x ∈ (((sE.2.addDecoration
          (DecorateInst.Decorate sE.1.nextId Decoration.DescriptorSet [0])).addDecoration
        (DecorateInst.Decorate sE.1.nextId Decoration.Binding [binding])).addGlobal
          ⟨sE.1.nextId, Op.Variable PtrTy.id StorageClass.Uniform⟩).globals := by
    intro x hx
    simp [Module.addGlobal, Module.addDecoration, hx]
  refine ⟨ArrTy, StructTy, PtrTy, sA, hA, opA, hm _ (stBE.mem_globals (stAB.mem_globals memA)),
    opB, hm _ (stBE.mem_globals memB), opE, hm _ memE, rfl, by simp [Module.addGlobal], ?_⟩
  simp only [Module.addGlobal, Module.addDecoration] at dB dE ⊢
  rw [dE, dB, dA]
  simp

/-- C15: for every element type T and binding number k, `AddBuffer` returns a variable
that it adds to the module as its one new variable: a variable of storage class Uniform
whose type is a Uniform pointer to a struct of one member, a runtime array of T; the
decorations it adds are, in order, ArrayStride on the array type with the size of T in
the module, BufferBlock on the struct, Offset 0 on member 0 of the struct, DescriptorSet
0 and Binding k on the variable. -/
theorem C15_add_buffer (E : Externals) (T k : Nat) (b : Builder) (m : Module) :
    ∃ (var ArrTy StructTy StructPtrTy : Instruction) (b1 bA : Builder) (m1 mA : Module),
      (AddBuffer E T k).run (b, m) = some (var, (b1, m1)) ∧
      m1.variables = m.variables ++ [var] ∧
      var.op = Op.Variable StructPtrTy.id StorageClass.Uniform ∧
      StructPtrTy.op = Op.TypePointer StorageClass.Uniform StructTy.id ∧
      StructPtrTy ∈ m1.globals ∧
      StructTy.op = Op.TypeStruct [ArrTy.id] ∧ StructTy ∈ m1.globals ∧
      ArrTy.op = Op.TypeRuntimeArray T ∧ ArrTy ∈ m1.globals ∧
      (Module.getRuntimeArrayType T).run (b, m) = some (ArrTy, (bA, mA)) ∧
      m1.decorations = m.decorations ++
        [DecorateInst.Decorate ArrTy.id Decoration.ArrayStride [E.getSize mA T],
         DecorateInst.Decorate StructTy.id Decoration.BufferBlock [],
         DecorateInst.MemberDecorate StructTy.id 0 Decoration.Offset [0],
         DecorateInst.Decorate var.id Decoration.DescriptorSet [0],
         DecorateInst.Decorate var.id Decoration.Binding [k]] := by
  obtain ⟨var, ⟨b1, m1⟩, h, -⟩ := AddBuffer_returns E T k (b, m)
  obtain ⟨st, -, -⟩ := AddBuffer_spec h
  obtain ⟨ArrTy, StructTy, PtrTy, ⟨bA, mA⟩, hA, opA, memA, opB, memB, opE, memE, opV, -, hd⟩ :=
    AddBuffer_decorations h
  exact ⟨var, ArrTy, StructTy, PtrTy, b1, bA, m1, mA, h, st.added, opV, opE, memE, opB, memB, opA,
    memA, hA, hd⟩

/-- C16: `AddGAMetadata` returns a variable that it adds to the module as its one new
variable, of storage class Uniform and of type Uniform pointer to a struct of one
member, the runtime array of a struct of exactly four unsigned 32-bit integers; the
decorations it adds are, in order, Offset 4 * i + 4 on member i of the inner struct for
i = 0, 1, 2, 3, ArrayStride 16 on the array, BufferBlock on the outer struct,
DescriptorSet 0 and Binding 0 on the variable. -/
theorem C16_metadata_buffer (b : Builder) (m : Module) :
    ∃ (MetadataVar UInt32Ty MetadataStructTy MetadataBufSTy MetadataSSBO MetadataPtrTy :
        Instruction) (b1 : Builder) (m1 : Module),
      AddGAMetadata.run (b, m) = some (MetadataVar, (b1, m1)) ∧
      m1.variables = m.variables ++ [MetadataVar] ∧
      MetadataVar.op = Op.Variable MetadataPtrTy.id StorageClass.Uniform ∧
      MetadataPtrTy.op = Op.TypePointer StorageClass.Uniform MetadataSSBO.id ∧
      MetadataPtrTy ∈ m1.globals ∧
      MetadataSSBO.op = Op.TypeStruct [MetadataBufSTy.id] ∧ MetadataSSBO ∈ m1.globals ∧
      MetadataBufSTy.op = Op.TypeRuntimeArray MetadataStructTy.id ∧
      MetadataBufSTy ∈ m1.globals ∧
      MetadataStructTy.op = Op.TypeStruct [UInt32Ty.id, UInt32Ty.id, UInt32Ty.id, UInt32Ty.id] ∧
      MetadataStructTy ∈ m1.globals ∧
      UInt32Ty.op = Op.TypeInt 32 0 ∧ UInt32Ty ∈ m1.globals ∧
      m1.decorations = m.decorations ++
        (List.range 4).map (fun i =>
          DecorateInst.MemberDecorate MetadataStructTy.id i Decoration.Offset [4 * i + 4]) ++
        [DecorateInst.Decorate MetadataBufSTy.id Decoration.ArrayStride [16],
         DecorateInst.Decorate MetadataSSBO.id Decoration.BufferBlock [],
         DecorateInst.Decorate MetadataVar.id Decoration.DescriptorSet [0],
         DecorateInst.Decorate MetadataVar.id Decoration.Binding [0]] := by
  obtain ⟨var, ⟨b1, m1⟩, h, -⟩ := AddGAMetadata_returns (b, m)
  refine ⟨var, ?_⟩
  have h0 := h
  unfold AddGAMetadata at h
  simp only [run_bind_eq_some, run_pure, Instruction.decorate, run_modify,
    Builder.MakeVariable, Builder.run_Make, Module.addVariable, Option.some.injEq,
    Prod.mk.injEq] at h
  obtain ⟨U, sU, hU, S, sS, hS, ok0, s0, hm0, u0, t0, hn0, ok1, s1, hm1, u1, t1, hn1,
    ok2, s2, hm2, u2, t2, hn2, ok3, s3, hm3, u3, t3, hn3, A, sA, hA, _, _, ⟨-, rfl⟩,
    B, sB, hB, _, _, ⟨-, rfl⟩, P, sP, hP, _, _, ⟨rfl, rfl⟩, _, _, ⟨-, rfl⟩, _, _, ⟨-, rfl⟩,
    _, _, ⟨-, rfl⟩, rfl, hfin⟩ := h
  obtain ⟨rfl, rfl⟩ := Prod.mk.inj hfin
  obtain ⟨-, rfl⟩ := Instruction.memberDecorate_nonNull hm0 hn0
  obtain ⟨-, rfl⟩ := Instruction.memberDecorate_nonNull hm1 hn1
  obtain ⟨-, rfl⟩ := Instruction.memberDecorate_nonNull hm2 hn2
  obtain ⟨-, rfl⟩ := Instruction.memberDecorate_nonNull hm3 hn3
  dsimp only at hA hB hP
  obtain ⟨stU, opU, memU, -, -⟩ := Module.intern_spec hU rfl
  obtain ⟨stS, opS, memS, -, -⟩ := Module.intern_spec hS rfl
  obtain ⟨stA, opA, memA, -, -⟩ := Module.intern_spec hA rfl
  obtain ⟨stB, opB, memB, -, -⟩ := Module.intern_spec hB rfl
  obtain ⟨stP, opP, memP, -, -⟩ := Module.intern_spec hP rfl
  have dU := Module.intern_decorations hU
  have dS := Module.intern_decorations hS
  have dA := Module.intern_decorations hA
  have dB := Module.intern_decorations hB
  have dP := Module.intern_decorations hP
  have stSA : Step [] sS sA :=
    (Step.decorate _ _).trans_nil ((Step.decorate _ _).trans_nil
      ((Step.decorate _ _).trans_nil ((Step.decorate _ _).trans_nil stA)))
  have stAB : Step [] sA sB := (Step.decorate _ _).trans_nil stB
  have stBP : Step [] sB sP := (Step.decorate _ _).trans_nil stP
  have stUP : Step [] sU sP := stS.trans_nil (stSA.trans_nil (stAB.trans_nil stBP))
  have st3 := Step.addVariable sP P.id StorageClass.Uniform
    (DecorateInst.Decorate sP.1.nextId Decoration.DescriptorSet [0])
    (DecorateInst.Decorate sP.1.nextId Decoration.Binding [0])
  have stAll := (stU.trans_nil stUP).trans_nil st3
  refine ⟨U, S, A, B, P, _, _, h0, stAll.added, rfl, opP, st3.mem_globals memP, opB,
    st3.mem_globals (stBP.mem_globals memB), opA,
    st3.mem_globals (stBP.mem_globals (stAB.mem_globals memA)), opS,
    st3.mem_globals (stBP.mem_globals (stAB.mem_globals (stSA.mem_globals memS))), opU,
    st3.mem_globals (stUP.mem_globals memU), ?_⟩
  simp only [Module.addGlobal, Module.addDecoration] at dA dB dP ⊢
  rw [dP, dB, dA, dS, dU]
  simp [List.range, List.range.loop]

/-! ## The output of the wrapper -/

/-- C17: the block of the wrapper that a successful `AddWrapper` builds for an existing
kernel has no store when the output flag is clear; when the output flag is set, the
block ends with the kernel call, an access chain, one store and the return, and has no
other store: the store writes the result of the kernel call through the access chain,
which goes into the buffer at binding 1, whose element type is the return type of the
kernel, with the indices constant 0 and `Index`; `Index` is the sixteenth instruction of
the block, the last one of the index computation, and the second index of every access
chain of the block. -/
theorem C17_output_store (E : Externals) (name : String) (signature numInput : Nat)
    (b b' : Builder) (m m' : Module) (kernel : FunctionDefinition)
    (hk : m.lookupFunctionDefinitionByName name = some kernel)
    (hrun : (AddWrapper E name signature numInput).run (b, m) = some (true, (b', m'))) :
    ∃ (wrapper : FunctionDefinition) (Blk : Block),
      m'.functions = m.functions ++ [wrapper] ∧ wrapper.blocks = [Blk] ∧
      (E.hasForEachSignatureOut signature = false →
        ∀ a ∈ Blk, ∀ pointer object, a.op ≠ Op.Store pointer object) ∧
      (E.hasForEachSignatureOut signature = true →
        ∃ (pre : Block) (kernelCall OutPtr store ret OutputBuffer resultPtrType UIntTy ConstZero
            Index : Instruction) (args : List IdRef),
          Blk = pre ++ [kernelCall, OutPtr, store, ret] ∧
          (∀ a ∈ pre, ∀ pointer object, a.op ≠ Op.Store pointer object) ∧
          kernelCall.op = Op.FunctionCall kernel.getReturnType kernel.getInstruction.id args ∧
          OutPtr.op = Op.AccessChain resultPtrType.id OutputBuffer.id
            [some ConstZero.id, some Index.id] ∧
          store.op = Op.Store OutPtr.id kernelCall.id ∧ ret.op = Op.Return ∧
          resultPtrType.op = Op.TypePointer StorageClass.Function kernel.getReturnType ∧
          resultPtrType ∈ m'.globals ∧
          IsBuffer m' OutputBuffer kernel.getReturnType 1 ∧
          UIntTy.op = Op.TypeInt 32 0 ∧ ConstZero.op = Op.Constant UIntTy.id 0 ∧
          ConstZero ∈ m'.globals ∧
          Blk[15]? = some Index ∧
          (∀ a ∈ Blk, ∀ ty base idxs, a.op = Op.AccessChain ty base idxs →
            idxs = [some ConstZero.id, some Index.id])) := by
  obtain ⟨p, hp⟩ := AddWrapper_spec (s := (b, m)) hk hrun
  -- the instructions before the kernel call are no stores
  have hpre : ∀ a ∈ [(⟨p.label, Op.Label⟩ : Instruction)] ++ p.index ++
      (p.rounds.map fun r => [r.Ptr, r.input]).flatten,
      ∀ pointer object, a.op ≠ Op.Store pointer object := by
    intro a ha pointer object hop
    simp only [List.mem_append, List.mem_singleton, List.mem_flatten, List.mem_map] at ha
    rcases ha with (ha | ha) | ha
    · subst ha
      cases hop
    · by_cases hflag : (E.hasForEachSignatureIn signature || E.hasForEachSignatureOut signature ||
          E.hasForEachSignatureX signature || E.hasForEachSignatureY signature ||
          E.hasForEachSignatureZ signature) = true
      · obtain ⟨V3, inv, c1, gs, nwg, a0, a1, a2, -, -, -, -, -, -, -, -, -, -, hindex⟩ :=
          hp.indexed hflag
        rw [hindex] at ha
        simp only [indexInstructions, List.mem_cons, List.mem_singleton, List.not_mem_nil,
          or_false] at ha
        rcases ha with ha | ha | ha | ha | ha | ha | ha | ha | ha | ha | ha | ha | ha | ha | ha <;>
          (subst ha; cases hop)
      · rw [(hp.notIndexed (by simpa using hflag)).2] at ha
        cases ha
    · obtain ⟨l, ⟨r, hr, rfl⟩, hal⟩ := ha
      obtain ⟨j, hj⟩ := List.mem_iff_getElem?.mp hr
      obtain ⟨param, PtrTy, -, -, -, hPtr, hinput⟩ := hp.rounds j r hj
      simp only [List.mem_cons, List.mem_singleton, List.not_mem_nil, or_false] at hal
      rcases hal with hal | hal
      · subst hal
        rw [hPtr] at hop
        cases hop
      · subst hal
        rw [hinput] at hop
        cases hop
  refine ⟨p.function E signature kernel, p.block E signature kernel, hp.functions, rfl, ?_, ?_⟩
  · intro hout a ha pointer object hop
    simp only [Wrapper.block, (hp.noOutput hout).2, List.append_nil] at ha
    rcases List.mem_append.mp ha with ha | ha
    · rcases List.mem_append.mp ha with ha | ha
      · exact hpre a ha pointer object hop
      · rw [List.mem_singleton.mp ha] at hop
        cases hop
    · rw [List.mem_singleton.mp ha] at hop
      cases hop
  · intro hout
    obtain ⟨buf, PtrTy, ptr, -, hbuf, opP, memP, hstore⟩ := hp.output hout
    have hflag : (E.hasForEachSignatureIn signature || E.hasForEachSignatureOut signature ||
        E.hasForEachSignatureX signature || E.hasForEachSignatureY signature ||
        E.hasForEachSignatureZ signature) = true := by simp [hout]
    obtain ⟨V3, inv, c1, gs, nwg, a0, a1, a2, -, -, -, -, -, -, -, -, -, hv, hindex⟩ :=
      hp.indexed hflag
    have hI : p.v.Index = some ⟨a2 + 8, Op.IAdd p.UIntTy.id (a2 + 7) (a0 + 1)⟩ := by rw [hv]
    refine ⟨[(⟨p.label, Op.Label⟩ : Instruction)] ++ p.index ++
        (p.rounds.map fun r => [r.Ptr, r.input]).flatten,
      p.kernelCall E signature kernel,
      ⟨ptr, Op.AccessChain PtrTy.id buf.id [some p.ConstZero.id, p.v.Index.map fun x => x.id]⟩,
      ⟨ptr + 1, Op.Store ptr p.call⟩, ⟨p.ret, Op.Return⟩, buf, PtrTy, p.UIntTy, p.ConstZero,
      ⟨a2 + 8, Op.IAdd p.UIntTy.id (a2 + 7) (a0 + 1)⟩, _, ?_, hpre, rfl, ?_, rfl, rfl, opP, memP,
      hbuf, hp.uintTy.1, hp.constZero.1, hp.constZero.2, ?_, ?_⟩
    · simp [Wrapper.block, hstore]
    · rw [hI]
      rfl
    · simp [Wrapper.block, hindex, indexInstructions]
    · intro a ha ty base idxs hop
      simp only [Wrapper.block, List.mem_append, List.mem_singleton, List.mem_flatten,
        List.mem_map] at ha
      rcases ha with ((((ha | ha) | ha) | ha) | ha) | ha
      · subst ha
        cases hop
      · rw [hindex] at ha
        simp only [indexInstructions, List.mem_cons, List.mem_singleton, List.not_mem_nil,
          or_false] at ha
        rcases ha with ha | ha | ha | ha | ha | ha | ha | ha | ha | ha | ha | ha | ha | ha | ha <;>
          (subst ha; cases hop)
      · obtain ⟨l, ⟨r, hr, rfl⟩, hal⟩ := ha
        obtain ⟨j, hj⟩ := List.mem_iff_getElem?.mp hr
        obtain ⟨param, PtrTy1, -, -, -, hPtr, hinput⟩ := hp.rounds j r hj
        simp only [List.mem_cons, List.mem_singleton, List.not_mem_nil, or_false] at hal
        rcases hal with hal | hal
        · subst hal
          rw [hPtr, hI] at hop
          simp only [Op.AccessChain.injEq] at hop
          rw [← hop.2.2]
          rfl
        · subst hal
          rw [hinput] at hop
          cases hop
      · subst ha
        simp only [Wrapper.kernelCall] at hop
        cases hop
      · rw [hstore] at ha
        simp only [List.mem_cons, List.mem_singleton, List.not_mem_nil, or_false] at ha
        rcases ha with ha | ha
        · subst ha
          rw [hI] at hop
          simp only [Op.AccessChain.injEq] at hop
          rw [← hop.2.2]
          rfl
        · subst ha
          cases hop
      · subst ha
        cases hop

/-- Witness of C17: the kernel of the examples with two inputs and an output. -/
theorem C17_output_store_witness :
    ∃ (wrapper : FunctionDefinition) (Blk : Block),
      exampleWrapped.2.functions = exampleModule.functions ++ [wrapper] ∧ wrapper.blocks = [Blk] ∧
      (exampleE.hasForEachSignatureOut 35 = false →
        ∀ a ∈ Blk, ∀ pointer object, a.op ≠ Op.Store pointer object) ∧
      (exampleE.hasForEachSignatureOut 35 = true →
        ∃ (pre : Block) (kernelCall OutPtr store ret OutputBuffer resultPtrType UIntTy ConstZero
            Index : Instruction) (args : List IdRef),
          Blk = pre ++ [kernelCall, OutPtr, store, ret] ∧
          (∀ a ∈ pre, ∀ pointer object, a.op ≠ Op.Store pointer object) ∧
          kernelCall.op = Op.FunctionCall 1 5 args ∧
          OutPtr.op = Op.AccessChain resultPtrType.id OutputBuffer.id
            [some ConstZero.id, some Index.id] ∧
          store.op = Op.Store OutPtr.id kernelCall.id ∧ ret.op = Op.Return ∧
          resultPtrType.op = Op.TypePointer StorageClass.Function 1 ∧
          resultPtrType ∈ exampleWrapped.2.globals ∧
          IsBuffer exampleWrapped.2 OutputBuffer 1 1 ∧
          UIntTy.op = Op.TypeInt 32 0 ∧ ConstZero.op = Op.Constant UIntTy.id 0 ∧
          ConstZero ∈ exampleWrapped.2.globals ∧
          Blk[15]? = some Index ∧
          (∀ a ∈ Blk, ∀ ty base idxs, a.op = Op.AccessChain ty base idxs →
            idxs = [some ConstZero.id, some Index.id])) :=
  C17_output_store exampleE "foo" 35 2 exampleState.1 exampleWrapped.1 exampleModule
    exampleWrapped.2 _ exampleModule_foo exampleWrapped_run

/-- With the kernel flag alone (0x20) and one input, `Index` is null where the input
loop builds the indices of its access chain: the run of `AddWrapper` has no defined
behaviour. -/
theorem exampleNullIndex_run : (AddWrapper exampleE "foo" 32 1).run exampleState = none := by
  decide!

/-! ## Bindings -/

/-- The variables that a step adds have identifiers that the builder handed out during
the step. -/
theorem Step.fresh {vs : List Instruction} {s s1 : St} (h : Step vs s s1) :
    ∀ v ∈ vs, s.1.nextId ≤ v.id ∧ v.id < s1.1.nextId := by
  obtain ⟨l, hl, hb⟩ := h.globals
  have hv := h.added
  simp only [Module.variables, hl, List.filter_append] at hv
  have := List.append_cancel_left hv
  intro v hvm
  rw [← this] at hvm
  exact hb v (List.mem_filter.mp hvm).1

theorem Module.mem_bindings {m : Module} {t : Nat} {ex : List Nat} :
    (t, ex) ∈ m.bindings ↔ DecorateInst.Decorate t Decoration.Binding ex ∈ m.decorations := by
  simp only [Module.bindings, List.mem_filterMap]
  constructor
  · rintro ⟨d, hd, hb⟩
    cases d with
    | Decorate t1 dec ex1 =>
      cases dec <;> simp [DecorateInst.binding] at hb
      obtain ⟨rfl, rfl⟩ := hb
      exact hd
    | MemberDecorate t1 i dec ex1 => simp [DecorateInst.binding] at hb
  · intro hd
    exact ⟨_, hd, rfl⟩

theorem Module.bindings_addDecoration (m : Module) (d : DecorateInst)
    (h : d.binding = none) : (m.addDecoration d).bindings = m.bindings := by
  simp [Module.bindings, Module.addDecoration, List.filterMap_append, h]

theorem Binds.ofStep {s s1 : St} (h : Step [] s s1) (hb : s1.2.bindings = s.2.bindings) :
    Binds [] s s1 :=
  { step := h, bindings := by simpa using hb, nodup := List.nodup_nil }

theorem Binds.append {bs cs : List (Instruction × Nat)} {s s1 s2 : St} (h1 : Binds bs s s1)
    (h2 : Binds cs s1 s2) : Binds (bs ++ cs) s s2 :=
  { step := by
      rw [List.map_append]
      exact h1.step.trans h2.step
    bindings := by rw [h2.bindings, h1.bindings, List.map_append, List.append_assoc]
    nodup := by
      rw [List.map_append, List.nodup_append]
      refine ⟨h1.nodup, h2.nodup, ?_⟩
      intro i hi hi2
      obtain ⟨p, hp, rfl⟩ := List.mem_map.mp hi
      obtain ⟨q, hq, hpq⟩ := List.mem_map.mp hi2
      have h3 := h1.step.fresh p.1 (List.mem_map.mpr ⟨p, hp, rfl⟩)
      have h4 := h2.step.fresh q.1 (List.mem_map.mpr ⟨q, hq, rfl⟩)
      have hpq1 : q.1.id = p.1.id := hpq
      omega }

theorem Binds.after {cs : List (Instruction × Nat)} {s s1 s2 : St} (h1 : Binds [] s s1)
    (h2 : Binds cs s1 s2) : Binds cs s s2 := by
  simpa using h1.append h2

theorem Binds.before {bs : List (Instruction × Nat)} {s s1 s2 : St} (h1 : Binds bs s s1)
    (h2 : Binds [] s1 s2) : Binds bs s s2 := by
  simpa using h1.append h2

theorem Module.intern_binds {op : Op} {s s1 : St} {a : Instruction}
    (h : (Module.intern op).run s = some (a, s1)) (hop : op.isVariable = false) :
    Binds [] s s1 :=
  Binds.ofStep (Module.intern_spec h hop).1 (by rw [Module.bindings, Module.intern_decorations h]; rfl)

theorem Binds.ofMakes (s : St) (k : Nat) : Binds [] s ({ nextId := s.1.nextId + k }, s.2) :=
  Binds.ofStep (Step.makes s k) rfl

theorem Module.getInvocationId_binds {s s1 : St} {v : Instruction}
    (h : Module.getInvocationId.run s = some (v, s1)) : Binds [] s s1 := by
  refine Binds.ofStep (Module.getInvocationId_spec h).1 ?_
  unfold Module.getInvocationId at h
  rw [run_bind_eq_some] at h
  obtain ⟨s0, _, h0, h⟩ := h
  rw [run_get] at h0
  cases h0
  cases hi : s.2.invocationId with
  | some w =>
    simp only [hi, run_pure, Option.some.injEq, Prod.mk.injEq] at h
    obtain ⟨-, rfl⟩ := h
    rfl
  | none =>
    simp only [hi, run_bind_eq_some, run_pure, Instruction.decorate, run_modify,
      Builder.MakeVariable, Builder.run_Make, Option.some.injEq, Prod.mk.injEq] at h
    obtain ⟨UIntTy, sA, hA, V3, sB, hB, PtrTy, sC, hC, _, _, ⟨rfl, rfl⟩, _, _, ⟨-, rfl⟩,
      _, _, ⟨-, rfl⟩, -, rfl⟩ := h
    have bA := (Module.intern_binds hA rfl).bindings
    have bB := (Module.intern_binds hB rfl).bindings
    have bC := (Module.intern_binds hC rfl).bindings
    simp only [List.map_nil, List.append_nil] at bA bB bC
    rw [← bA, ← bB, ← bC]
    exact Module.bindings_addDecoration _ _ rfl

theorem Module.getNumWorkgroups_binds {s s1 : St} {v : Instruction}
    (h : Module.getNumWorkgroups.run s = some (v, s1)) : Binds [] s s1 := by
  refine Binds.ofStep (Module.getNumWorkgroups_spec h).1 ?_
  unfold Module.getNumWorkgroups at h
  rw [run_bind_eq_some] at h
  obtain ⟨s0, _, h0, h⟩ := h
  rw [run_get] at h0
  cases h0
  cases hi : s.2.numWorkgroups with
  | some w =>
    simp only [hi, run_pure, Option.some.injEq, Prod.mk.injEq] at h
    obtain ⟨-, rfl⟩ := h
    rfl
  | none =>
    simp only [hi, run_bind_eq_some, run_pure, Instruction.decorate, run_modify,
      Builder.MakeVariable, Builder.run_Make, Option.some.injEq, Prod.mk.injEq] at h
    obtain ⟨UIntTy, sA, hA, V3, sB, hB, PtrTy, sC, hC, _, _, ⟨rfl, rfl⟩, _, _, ⟨-, rfl⟩,
      _, _, ⟨-, rfl⟩, -, rfl⟩ := h
    have bA := (Module.intern_binds hA rfl).bindings
    have bB := (Module.intern_binds hB rfl).bindings
    have bC := (Module.intern_binds hC rfl).bindings
    simp only [List.map_nil, List.append_nil] at bA bB bC
    rw [← bA, ← bB, ← bC]
    exact Module.bindings_addDecoration _ _ rfl

theorem AddWrapper.computeIndex_binds {UIntTy : Instruction} {Blk Blk' : Block} {v : IndexVars}
    {s s' : St} (h : (AddWrapper.computeIndex UIntTy Blk).run s = some ((v, Blk'), s')) :
    Binds [] s s' := by
  unfold AddWrapper.computeIndex at h
  simp only [run_bind_eq_some, run_pure, Builder.MakeLoad, Builder.MakeCompositeExtract,
    Builder.MakeIMul, Builder.MakeIAdd, Builder.run_Make, Option.some.injEq,
    Prod.mk.injEq, exists_and_left, exists_eq_left', and_assoc] at h
  obtain ⟨V3, sA, hA, inv, sB, hB, ConstOne, sC, hC, GroupSize, sD, hD, nwg, sE, hE,
    -, -, rfl⟩ := h
  have bA := Module.intern_binds hA rfl
  have bB := Module.getInvocationId_binds hB
  have bC := Module.intern_binds hC rfl
  have bD := Module.intern_binds hD rfl
  have bE := Module.getNumWorkgroups_binds hE
  have bB4 : Binds [] sB (sB.1.next.next.next.next, sB.2) := Binds.ofMakes sB 4
  have bD2 : Binds [] sD (sD.1.next.next, sD.2) := Binds.ofMakes sD 2
  have bE9 : Binds [] sE (sE.1.next.next.next.next.next.next.next.next.next, sE.2) :=
    Binds.ofMakes sE 9
  exact bA.after (bB.after (bB4.after (bC.after (bD.after
    (bD2.after (bE.after bE9))))))

theorem AddBuffer_binds {E : Externals} {elementType binding : Nat} {s s1 : St}
    {var : Instruction} (h : (AddBuffer E elementType binding).run s = some (var, s1)) :
    Binds [(var, binding)] s s1 := by
  obtain ⟨st, -, -⟩ := AddBuffer_spec h
  obtain ⟨ArrTy, StructTy, PtrTy, sA, -, -, -, -, -, -, -, -, -, hd⟩ := AddBuffer_decorations h
  refine { step := st, bindings := ?_, nodup := by simp }
  simp [Module.bindings, hd, List.filterMap_append, DecorateInst.binding]

theorem AddWrapper.loadInputs_binds {E : Externals} {kernel : FunctionDefinition}
    {ConstZero : Instruction} {Index : Option Instruction} :
    ∀ (count i : Nat) (Blk : Block) (inputs : List IdRef) (s : St) (Blk' : Block)
      (inputs' : List IdRef) (s' : St),
      (AddWrapper.loadInputs E kernel ConstZero Index count i Blk inputs).run s
          = some ((Blk', inputs'), s') →
      ∃ bs : List (Instruction × Nat),
        bs.length = count ∧ (∀ j p, bs[j]? = some p → p.2 = i + j + 2) ∧ Binds bs s s' := by
  intro count
  induction count with
  | zero =>
    intro i Blk inputs s Blk' inputs' s' h
    rw [AddWrapper.loadInputs, run_pure] at h
    simp only [Option.some.injEq, Prod.mk.injEq] at h
    obtain ⟨-, rfl⟩ := h
    exact ⟨[], rfl, by simp, Binds.ofStep (Step.refl _) rfl⟩
  | succ count ih =>
    intro i Blk inputs s Blk' inputs' s' h
    rw [AddWrapper.loadInputs] at h
    simp only [run_bind_eq_some, run_unchecked, Builder.run_MakeAccessChain, Builder.MakeLoad,
      Builder.run_Make, Option.some.injEq, Prod.mk.injEq, exists_and_left, exists_eq_left',
      and_assoc] at h
    obtain ⟨param, hparam, _, rfl, buf, sA, hA, PtrTy, sB, hB, -, h⟩ := h
    obtain ⟨bs, hlen, hnum, hbs⟩ := ih _ _ _ _ _ _ _ h
    have bA := AddBuffer_binds hA
    have bB := Module.intern_binds hB rfl
    have bB2 : Binds [] sB (sB.1.next.next, sB.2) := Binds.ofMakes sB 2
    refine ⟨(buf, i + 2) :: bs, by simp [hlen], ?_, bA.append (bB.after (bB2.after hbs))⟩
    intro j p hj
    cases j with
    | zero =>
      simp only [List.getElem?_cons_zero, Option.some.injEq] at hj
      subst hj
      rfl
    | succ j =>
      simp only [List.getElem?_cons_succ] at hj
      have := hnum j p hj
      omega

theorem AddWrapper.storeOutput_binds {E : Externals} {resultType : Nat}
    {ConstZero kernelCall : Instruction} {Index : Option Instruction} {Blk Blk' : Block}
    {s s' : St}
    (h : (AddWrapper.storeOutput E resultType ConstZero Index kernelCall Blk).run s
      = some (Blk', s')) :
    ∃ buf : Instruction, Binds [(buf, 1)] s s' := by
  unfold AddWrapper.storeOutput at h
  simp only [run_bind_eq_some, run_pure, Builder.run_MakeAccessChain, Builder.MakeStore,
    Builder.run_Make, Option.some.injEq, Prod.mk.injEq, exists_and_left, exists_eq_left',
    and_assoc] at h
  obtain ⟨buf, sA, hA, PtrTy, sB, hB, -, -, rfl⟩ := h
  have bB2 : Binds [] sB (sB.1.next.next, sB.2) := Binds.ofMakes sB 2
  exact ⟨buf, (AddBuffer_binds hA).before ((Module.intern_binds hB rfl).after bB2)⟩

/-- The buffers that a successful `AddWrapper` adds, each with its binding number: the
inputs with position + 2, then the output with 1; they are the variables it adds, their
`Binding` decorations are the `Binding` decorations it adds, and their identifiers are
pairwise distinct identifiers that the builder handed out during the call. -/
theorem AddWrapper_binds {E : Externals} {name : String} {signature numInput : Nat} {s s' : St}
    {kernel : FunctionDefinition}
    (hk : s.2.lookupFunctionDefinitionByName name = some kernel)
    (h : (AddWrapper E name signature numInput).run s = some (true, s')) :
    ∃ ins outs : List (Instruction × Nat),
      ins.length = numInput ∧ (∀ j p, ins[j]? = some p → p.2 = j + 2) ∧
      outs.length = (if E.hasForEachSignatureOut signature = true then 1 else 0) ∧
      (∀ p ∈ outs, p.2 = 1) ∧
      s'.2.variables = s.2.variables ++ (ins ++ outs).map Prod.fst ∧
      s'.2.bindings = s.2.bindings ++ (ins ++ outs).map (fun p => (p.1.id, [p.2])) ∧
      ((ins ++ outs).map fun p => p.1.id).Nodup ∧
      (∀ p ∈ ins ++ outs, s.1.nextId ≤ p.1.id ∧ p.1.id < s'.1.nextId) ∧
      s.1.nextId ≤ s'.1.nextId := by
  unfold AddWrapper at h
  rw [run_bind_eq_some] at h
  obtain ⟨s0, _, h0, h⟩ := h
  rw [run_get] at h0
  cases h0
  simp only [hk] at h
  split at h
  · simp [run_pure] at h
  split at h
  · simp [run_pure] at h
  split at h
  · simp [run_pure] at h
  simp only [run_bind_eq_some, run_pure, Builder.MakeLabel, Builder.MakeFunctionCall,
    Builder.MakeReturn, Builder.run_Make, Builder.run_MakeFunctionDefinition,
    Module.addFunctionDefinition, Module.addEntryPoint,
    run_modify, Option.some.injEq, Prod.mk.injEq, exists_and_left, exists_eq_left', and_assoc,
    true_and, exists_const] at h
  obtain ⟨VoidTy, sA, hA, FuncTy, sB, hB, UIntTy, sD, hD, ⟨v, Blk⟩, sE, hE, ConstZero, sF, hF,
    ⟨BlkIn, inputs⟩, sG, hG, BlkOut, sH, hH, rfl⟩ := h
  dsimp only at hG hH ⊢
  have bA := Module.intern_binds hA rfl
  have bB := Module.intern_binds hB rfl
  have bD := Module.intern_binds hD rfl
  have bF := Module.intern_binds hF rfl
  have bB2 : Binds [] sB (sB.1.next.next, sB.2) := Binds.ofMakes sB 2
  have bE : Binds [] sD sE := by
    split at hE
    · exact AddWrapper.computeIndex_binds hE
    · rw [run_pure] at hE
      simp only [Option.some.injEq, Prod.mk.injEq] at hE
      obtain ⟨-, rfl⟩ := hE
      exact Binds.ofStep (Step.refl _) rfl
  obtain ⟨ins, hlen, hnum, bG⟩ := AddWrapper.loadInputs_binds _ _ _ _ _ _ _ _ hG
  have bG1 : Binds [] sG (sG.1.next, sG.2) := Binds.ofMakes sG 1
  have hout : ∃ outs : List (Instruction × Nat),
      outs.length = (if E.hasForEachSignatureOut signature = true then 1 else 0) ∧
      (∀ p ∈ outs, p.2 = 1) ∧ Binds outs (sG.1.next, sG.2) sH := by
    split at hH
    · rename_i hflag
      obtain ⟨buf, hb⟩ := AddWrapper.storeOutput_binds hH
      exact ⟨[(buf, 1)], by simp [hflag], by simp, hb⟩
    · rename_i hflag
      rw [run_pure] at hH
      simp only [Option.some.injEq, Prod.mk.injEq] at hH
      obtain ⟨-, rfl⟩ := hH
      exact ⟨[], by simp [hflag], by simp, Binds.ofStep (Step.refl _) rfl⟩
  obtain ⟨outs, holen, honum, bH⟩ := hout
  have bAll : Binds (ins ++ outs) s sH :=
    bA.after (bB.after (bB2.after (bD.after (bE.after (bF.after
      (bG.append (bG1.after bH)))))))
  refine ⟨ins, outs, hlen, fun j p hj => by rw [hnum j p hj, Nat.zero_add], holen, honum,
    bAll.step.added, bAll.bindings, bAll.nodup, ?_, Nat.le_succ_of_le bAll.step.nextId⟩
  intro p hp
  have hfr := bAll.step.fresh p.1 (List.mem_map.mpr ⟨p, hp, rfl⟩)
  exact ⟨hfr.1, Nat.lt_succ_of_lt hfr.2⟩

/-- C19 (what the code does): with the two exported kernels `foo` and `bar`, each with
an output, `DecorateGlobalBuffer` and both `AddWrapper` calls succeed, and the two output
buffers (the variables 48 and 73) both have descriptor set 0 and binding 1; with one
exported kernel of two inputs and the global allocation `alloc`, all calls succeed, and
the allocation (the variable 6) and the buffer of input position 1 (the variable 46)
both have descriptor set 0 and binding 3. -/
theorem C19_bindings_collide :
    (((DecorateGlobalBuffer exampleE exampleEmptyLM).run
        (decorateState exampleTwoKernelModule)).map Prod.fst = some true ∧
      ((AddGLComputeWrappers.wrapKernels exampleE exampleBothKernels 2 0).run
        (finalState ((DecorateGlobalBuffer exampleE exampleEmptyLM).run
          (decorateState exampleTwoKernelModule)) (decorateState exampleTwoKernelModule))).map
          Prod.fst = some true ∧
      ¬ DistinctBindings
        (wrappedState exampleE exampleBothKernels exampleEmptyLM exampleTwoKernelModule).2) ∧
    (((DecorateGlobalBuffer exampleAlloc exampleAllocLM).run
        (decorateState exampleAllocKernelModule)).map Prod.fst = some true ∧
      ((AddGLComputeWrappers.wrapKernels exampleAlloc exampleOneKernel 1 0).run
        (finalState ((DecorateGlobalBuffer exampleAlloc exampleAllocLM).run
          (decorateState exampleAllocKernelModule)) (decorateState exampleAllocKernelModule))).map
          Prod.fst = some true ∧
      ¬ DistinctBindings
        (wrappedState exampleAlloc exampleOneKernel exampleAllocLM exampleAllocKernelModule).2) := by
  refine ⟨⟨by decide!, by decide!, ?_⟩, ⟨by decide!, by decide!, ?_⟩⟩
  · intro h
    exact h ⟨48, Op.Variable 42 StorageClass.Uniform⟩ (by decide!)
      ⟨73, Op.Variable 42 StorageClass.Uniform⟩ (by decide!) (by decide) (by decide!) (by decide!)
      [1] (by decide!) (by decide!)
  · intro h
    exact h ⟨6, Op.Variable 5 StorageClass.Uniform⟩ (by decide!)
      ⟨46, Op.Variable 41 StorageClass.Uniform⟩ (by decide!) (by decide) (by decide!) (by decide!)
      [3] (by decide!) (by decide!)

/-! ## The bindings of a whole run -/

/-- In a well-formed state, two variables with the same identifier are the same
instruction. -/
theorem WellFormed.variable_eq {s : St} (h : WellFormed s) {v w : Instruction}
    (hv : v ∈ s.2.variables) (hw : w ∈ s.2.variables) (hid : v.id = w.id) : v = w :=
  List.inj_on_of_nodup_map h.2.1 (List.mem_filter.mp hv).1 (List.mem_filter.mp hw).1 hid

/-- In a well-formed state, the identifier of a variable is below the next identifier
of the builder. -/
theorem WellFormed.variable_lt {s : St} (h : WellFormed s) {v : Instruction}
    (hv : v ∈ s.2.variables) : v.id < s.1.nextId :=
  h.1 v (List.mem_filter.mp hv).1

theorem withDecorations_nil (s : St) : withDecorations s [] = s := by
  simp [withDecorations]

theorem withDecorations_append (s : St) (D D1 : List DecorateInst) :
    withDecorations (withDecorations s D) D1 = withDecorations s (D ++ D1) := by
  simp [withDecorations]

theorem withDecorations_wellFormed {s : St} (D : List DecorateInst) (h : WellFormed s) :
    WellFormed (withDecorations s D) := h

/-- The member loop of `DecorateGlobalBuffer` adds no `Binding` decoration. -/
theorem DecorateGlobalBuffer.decorateMembers_frame (StructTy : Instruction)
    (SLayout : LLVM.StructLayout) :
    ∀ (count i : Nat) (s s1 : St) (r : Bool),
      (DecorateGlobalBuffer.decorateMembers StructTy SLayout count i).run s = some (r, s1) →
      ∃ D, s1 = withDecorations s D ∧
        ∀ t ex, DecorateInst.Decorate t Decoration.Binding ex ∉ D := by
  intro count
  induction count with
  | zero =>
    intro i s s1 r h
    rw [DecorateGlobalBuffer.decorateMembers, run_pure] at h
    simp only [Option.some.injEq, Prod.mk.injEq] at h
    exact ⟨[], by rw [withDecorations_nil, h.2], by simp⟩
  | succ count ih =>
    intro i s s1 r h
    rw [DecorateGlobalBuffer.decorateMembers, run_bind_eq_some] at h
    obtain ⟨decor, sA, hA, h⟩ := h
    have hsA : ∃ D, sA = withDecorations s D ∧
        ∀ t ex, DecorateInst.Decorate t Decoration.Binding ex ∉ D := by
      unfold Instruction.memberDecorate at hA
      split at hA
      · simp only [run_bind_eq_some, run_modify, run_pure, Option.some.injEq, Prod.mk.injEq,
          exists_and_left, exists_eq_left', and_assoc, true_and, exists_const] at hA
        refine ⟨[DecorateInst.MemberDecorate StructTy.id i Decoration.Offset
          [SLayout.getElementOffset i % 2 ^ 32]], ?_, by simp⟩
        rw [← hA.2]
        rfl
      · rw [run_pure] at hA
        simp only [Option.some.injEq, Prod.mk.injEq] at hA
        exact ⟨[], by rw [withDecorations_nil, hA.2], by simp⟩
    obtain ⟨D, rfl, hD⟩ := hsA
    split at h
    · rw [run_pure] at h
      simp only [Option.some.injEq, Prod.mk.injEq] at h
      exact ⟨D, h.2.symm, hD⟩
    · obtain ⟨D1, rfl, hD1⟩ := ih _ _ _ _ h
      refine ⟨D ++ D1, withDecorations_append _ _ _, ?_⟩
      intro t ex hm
      rcases List.mem_append.mp hm with hm | hm
      · exact hD t ex hm
      · exact hD1 t ex hm

/-- Every `Binding` decoration that the allocation loop of `DecorateGlobalBuffer` adds
is that of an allocation: the variable that allocation `j` names has the binding
`k + j`. -/
theorem DecorateGlobalBuffer.bindAllocations_frame :
    ∀ (RSAllocs : List RSAllocationInfo) (k : Nat) (s s1 : St) (r : Bool),
      (DecorateGlobalBuffer.bindAllocations RSAllocs k).run s = some (r, s1) →
      ∃ D, s1 = withDecorations s D ∧
        ∀ t ex, DecorateInst.Decorate t Decoration.Binding ex ∈ D →
          ∃ (j : Nat) (A : RSAllocationInfo), RSAllocs[j]? = some A ∧
            s.2.lookupByName A.VarName = some t ∧ ex = [k + j] := by
  intro RSAllocs
  induction RSAllocs with
  | nil =>
    intro k s s1 r h
    rw [DecorateGlobalBuffer.bindAllocations, run_pure] at h
    simp only [Option.some.injEq, Prod.mk.injEq] at h
    exact ⟨[], by rw [withDecorations_nil, h.2], by simp⟩
  | cons A rest ih =>
    intro k s s1 r h
    rw [DecorateGlobalBuffer.bindAllocations, run_get_bind] at h
    cases hlook : s.2.lookupByName A.VarName with
    | none =>
      simp only [hlook] at h
      rw [run_pure] at h
      simp only [Option.some.injEq, Prod.mk.injEq] at h
      exact ⟨[], by rw [withDecorations_nil, h.2], by simp⟩
    | some var =>
      simp only [hlook, Instruction.decorate, run_bind, run_modify, Option.some_bind] at h
      obtain ⟨D, hD, hb⟩ := ih _ _ _ _ h
      refine ⟨[DecorateInst.Decorate var Decoration.DescriptorSet [0],
        DecorateInst.Decorate var Decoration.Binding [k]] ++ D, ?_, ?_⟩
      · rw [hD]
        simp [withDecorations, Module.addDecoration]
      · intro t ex hm
        rcases List.mem_append.mp hm with hm | hm
        · simp at hm
          obtain ⟨rfl, rfl⟩ := hm
          exact ⟨0, A, by simp, hlook, rfl⟩
        · obtain ⟨j, B, hj, hB, rfl⟩ := hb t ex hm
          exact ⟨j + 1, B, by simpa using hj, hB, by rw [show k + (j + 1) = k + 1 + j by omega]⟩

/-- Every `Binding` decoration that `DecorateGlobalBuffer` adds is the binding 0 of the
instruction that `__GPUBlock` names or the binding 3 + j of the instruction that
allocation j names; the builder and the rest of the module stay as they are. -/
theorem DecorateGlobalBuffer_frame {E : Externals} {LM : LLVM.Module} {s s1 : St} {r : Bool}
    (h : (DecorateGlobalBuffer E LM).run s = some (r, s1)) :
    ∃ D, s1 = withDecorations s D ∧
      ∀ t ex, DecorateInst.Decorate t Decoration.Binding ex ∈ D →
        (s.2.lookupByName "__GPUBlock" = some t ∧ ex = [0]) ∨
        ∃ (RSAllocs : List RSAllocationInfo) (j : Nat) (A : RSAllocationInfo),
          E.getRSAllocationInfo LM = some RSAllocs ∧ RSAllocs[j]? = some A ∧
          s.2.lookupByName A.VarName = some t ∧ ex = [3 + j] := by
  unfold DecorateGlobalBuffer at h
  rw [run_get_bind] at h
  cases hname : s.2.lookupByName "__GPUBlock" with
  | none =>
    simp only [hname] at h
    rw [run_pure] at h
    simp only [Option.some.injEq, Prod.mk.injEq] at h
    exact ⟨[], by rw [withDecorations_nil, h.2], by simp⟩
  | some var =>
    simp only [hname] at h
    simp only [Instruction.decorate, run_bind_eq_some, run_modify, run_get, run_unchecked,
      Option.some.injEq, Prod.mk.injEq, exists_and_left, exists_eq_left', and_assoc,
      true_and, exists_const] at h
    obtain ⟨StructPtrTy, -, x, rfl, StructTy, -, x1, rfl, h⟩ := h
    have hbase : ((s.1, ((s.2.addDecoration
          (DecorateInst.Decorate var Decoration.DescriptorSet [0])).addDecoration
          (DecorateInst.Decorate var Decoration.Binding [0])).addDecoration
          (DecorateInst.Decorate StructTy.id Decoration.BufferBlock [])) : St)
        = withDecorations s [DecorateInst.Decorate var Decoration.DescriptorSet [0],
            DecorateInst.Decorate var Decoration.Binding [0],
            DecorateInst.Decorate StructTy.id Decoration.BufferBlock []] := by
      simp [withDecorations, Module.addDecoration]
    dsimp only at h
    rw [hbase] at h
    have hB : ∀ t ex, DecorateInst.Decorate t Decoration.Binding ex ∈
        [DecorateInst.Decorate var Decoration.DescriptorSet [0],
          DecorateInst.Decorate var Decoration.Binding [0],
          DecorateInst.Decorate StructTy.id Decoration.BufferBlock []] →
        t = var ∧ ex = [0] := by
      intro t ex hm
      simpa using hm
    have hdone : ∀ (b : Bool) (s2 : St), (pure b : M Bool).run
        (withDecorations s [DecorateInst.Decorate var Decoration.DescriptorSet [0],
          DecorateInst.Decorate var Decoration.Binding [0],
          DecorateInst.Decorate StructTy.id Decoration.BufferBlock []]) = some (r, s2) →
        ∃ D, s2 = withDecorations s D ∧
          ∀ t ex, DecorateInst.Decorate t Decoration.Binding ex ∈ D →
            (some var = some t ∧ ex = [0]) ∨
            ∃ (RSAllocs : List RSAllocationInfo) (j : Nat) (A : RSAllocationInfo),
              E.getRSAllocationInfo LM = some RSAllocs ∧ RSAllocs[j]? = some A ∧
              s.2.lookupByName A.VarName = some t ∧ ex = [3 + j] := by
      intro b s2 hrun
      rw [run_pure] at hrun
      simp only [Option.some.injEq, Prod.mk.injEq] at hrun
      refine ⟨_, hrun.2.symm, fun t ex hm => Or.inl ?_⟩
      obtain ⟨rfl, rfl⟩ := hB t ex hm
      exact ⟨rfl, rfl⟩
    split at h
    · exact hdone _ _ h
    · split at h
      · split at h
        · exact hdone _ _ h
        · rw [run_bind_eq_some] at h
          obtain ⟨decorated, sM, hM, h⟩ := h
          obtain ⟨D1, rfl, hD1⟩ := DecorateGlobalBuffer.decorateMembers_frame _ _ _ _ _ _ _ hM
          rw [withDecorations_append] at h
          have hB1 : ∀ t ex, DecorateInst.Decorate t Decoration.Binding ex ∈
              [DecorateInst.Decorate var Decoration.DescriptorSet [0],
                DecorateInst.Decorate var Decoration.Binding [0],
                DecorateInst.Decorate StructTy.id Decoration.BufferBlock []] ++ D1 →
              t = var ∧ ex = [0] := by
            intro t ex hm
            rcases List.mem_append.mp hm with hm | hm
            · exact hB t ex hm
            · exact absurd hm (hD1 t ex)
          have hdone1 : ∀ (b : Bool), (pure b : M Bool).run
              (withDecorations s ([DecorateInst.Decorate var Decoration.DescriptorSet [0],
                DecorateInst.Decorate var Decoration.Binding [0],
                DecorateInst.Decorate StructTy.id Decoration.BufferBlock []] ++ D1))
                = some (r, s1) →
              ∃ D, s1 = withDecorations s D ∧
                ∀ t ex, DecorateInst.Decorate t Decoration.Binding ex ∈ D →
                  (some var = some t ∧ ex = [0]) ∨
                  ∃ (RSAllocs : List RSAllocationInfo) (j : Nat) (A : RSAllocationInfo),
                    E.getRSAllocationInfo LM = some RSAllocs ∧ RSAllocs[j]? = some A ∧
                    s.2.lookupByName A.VarName = some t ∧ ex = [3 + j] := by
            intro b hrun
            rw [run_pure] at hrun
            simp only [Option.some.injEq, Prod.mk.injEq] at hrun
            refine ⟨_, hrun.2.symm, fun t ex hm => Or.inl ?_⟩
            obtain ⟨rfl, rfl⟩ := hB1 t ex hm
            exact ⟨rfl, rfl⟩
          split at h
          · exact hdone1 _ h
          · split at h
            · exact hdone1 _ h
            · rename_i RSAllocs hallocs
              obtain ⟨D2, rfl, hD2⟩ := DecorateGlobalBuffer.bindAllocations_frame _ _ _ _ _ h
              refine ⟨_, withDecorations_append _ _ _, ?_⟩
              intro t ex hm
              rcases List.mem_append.mp hm with hm | hm
              · obtain ⟨rfl, rfl⟩ := hB1 t ex hm
                exact Or.inl ⟨rfl, rfl⟩
              · obtain ⟨j, A, hj, hA, rfl⟩ := hD2 t ex hm
                exact Or.inr ⟨RSAllocs, j, A, hallocs, hj, hA, rfl⟩
      · exact hdone _ _ h

/-- A successful call of `AddWrapper` is a wrap step: for a kernel of the module it adds
the input buffers and the output buffer with their binding numbers; for a kernel that
the module does not have it changes nothing. -/
theorem AddWrapper_grows {E : Externals} {name : String} {signature numInput : Nat} {s s' : St}
    (h : (AddWrapper E name signature numInput).run s = some (true, s')) :
    ∃ ins outs : List (Instruction × Nat), IsWrapStep numInput ins outs s s' := by
  cases hk : s.2.lookupFunctionDefinitionByName name with
  | none =>
    unfold AddWrapper at h
    rw [run_get_bind] at h
    simp only [hk] at h
    rw [run_pure] at h
    simp only [Option.some.injEq, Prod.mk.injEq] at h
    obtain ⟨-, rfl⟩ := h
    exact ⟨[], [], by simp, by simp, by simp, by simp,
      ⟨Nat.le_refl _, by simp, by simp, by simp, fun hw => hw⟩⟩
  | some kernel =>
    obtain ⟨p, hp⟩ := AddWrapper_spec hk h
    obtain ⟨ins, outs, hlen, hnum, holen, honum, hvars, hbind, -, hfr, hnext⟩ :=
      AddWrapper_binds hk h
    refine ⟨ins, outs, by omega, hnum, ?_, honum, ⟨hnext, hvars, hbind, hfr, hp.wellFormed⟩⟩
    rw [holen]
    split <;> omega

/-- The buffers of a wrap step are determined by the two states. -/
theorem IsWrapStep.unique {n n1 : Nat} {ins outs ins1 outs1 : List (Instruction × Nat)}
    {s s1 : St} (h : IsWrapStep n ins outs s s1) (h1 : IsWrapStep n1 ins1 outs1 s s1) :
    ins ++ outs = ins1 ++ outs1 := by
  obtain ⟨-, -, -, -, g⟩ := h
  obtain ⟨-, -, -, -, g1⟩ := h1
  have hv := List.append_cancel_left (g.added.symm.trans g1.added)
  have hb := List.append_cancel_left (g.bindings.symm.trans g1.bindings)
  have hn : (ins ++ outs).map Prod.snd = (ins1 ++ outs1).map Prod.snd := by
    have := congrArg (List.map fun x : Nat × List Nat => x.2.headD 0) hb
    simpa [List.map_map, Function.comp_def] using this
  rw [← List.zip_unzip (ins ++ outs), ← List.zip_unzip (ins1 ++ outs1), List.unzip_eq_map,
    List.unzip_eq_map, hv, hn]

/-- A buffer of a wrap step is the output buffer, numbered 1, or the buffer of an input
position `i`, numbered `i + 2`, which is the variable at place `i` after the variables
of the state before the step. -/
theorem IsWrapStep.kind {n : Nat} {ins outs : List (Instruction × Nat)} {s s1 : St}
    (h : IsWrapStep n ins outs s s1) {p : Instruction × Nat} (hp : p ∈ ins ++ outs) :
    p.2 = 1 ∨ ∃ i, p.2 = i + 2 ∧ i < n ∧
      s1.2.variables[s.2.variables.length + i]? = some p.1 := by
  obtain ⟨hlen, hnum, -, honum, g⟩ := h
  rcases List.mem_append.mp hp with hp | hp
  · obtain ⟨i, hi⟩ := List.mem_iff_getElem?.mp hp
    have hil := (List.getElem?_eq_some.mp hi).1
    refine Or.inr ⟨i, hnum i p hi, by omega, ?_⟩
    rw [g.added, List.getElem?_append_right (by omega), Nat.add_sub_cancel_left, List.map_append,
      List.getElem?_append_left (by rw [List.length_map]; exact hil), List.getElem?_map, hi]
    rfl
  · exact Or.inl (honum p hp)

/-- Two buffers of a wrap step with the same number are the same. -/
theorem IsWrapStep.number_inj {n : Nat} {ins outs : List (Instruction × Nat)} {s s1 : St}
    (h : IsWrapStep n ins outs s s1) {p q : Instruction × Nat} (hp : p ∈ ins ++ outs)
    (hq : q ∈ ins ++ outs) (hpq : p.2 = q.2) : p = q := by
  obtain ⟨-, hnum, holen, honum, -⟩ := h
  rcases List.mem_append.mp hp with hp | hp <;> rcases List.mem_append.mp hq with hq | hq
  · obtain ⟨i, hi⟩ := List.mem_iff_getElem?.mp hp
    obtain ⟨j, hj⟩ := List.mem_iff_getElem?.mp hq
    have e1 := hnum i p hi
    have e2 := hnum j q hj
    obtain rfl : i = j := by omega
    rw [hi] at hj
    exact Option.some.inj hj
  · have e1 := honum q hq
    obtain ⟨i, hi⟩ := List.mem_iff_getElem?.mp hp
    have e2 := hnum i p hi
    omega
  · have e1 := honum p hp
    obtain ⟨j, hj⟩ := List.mem_iff_getElem?.mp hq
    have e2 := hnum j q hj
    omega
  · match outs, holen, hp, hq with
    | [a], _, hp, hq =>
      rw [List.mem_singleton] at hp hq
      rw [hp, hq]

/-- A buffer of a wrap step is a variable of the state after the step and, when the
state before the step is well formed, not one of the state before. -/
theorem IsWrapStep.added {n : Nat} {ins outs : List (Instruction × Nat)} {s s1 : St}
    (h : IsWrapStep n ins outs s s1) {p : Instruction × Nat} (hp : p ∈ ins ++ outs) :
    p.1 ∈ s1.2.variables ∧ (WellFormed s → p.1 ∉ s.2.variables) := by
  obtain ⟨-, -, -, -, g⟩ := h
  refine ⟨?_, fun hw hm => ?_⟩
  · rw [g.added]
    exact List.mem_append_right _ (List.mem_map.mpr ⟨p, hp, rfl⟩)
  · have h1 := hw.variable_lt hm
    have h2 := (g.fresh p hp).1
    omega

/-- Along a sequence of wrap steps the builder does not go back, variables stay, and
well-formedness is kept. -/
theorem wrapSteps_mono (cnt : Nat → Nat) (seq : Nat → St) (n : Nat)
    (hstep : ∀ t, t < n → ∃ ins outs, IsWrapStep (cnt t) ins outs (seq t) (seq (t + 1)))
    (t : Nat) :
    ∀ u, t ≤ u → u ≤ n →
      (seq t).1.nextId ≤ (seq u).1.nextId ∧
      (∀ v ∈ (seq t).2.variables, v ∈ (seq u).2.variables) ∧
      (WellFormed (seq t) → WellFormed (seq u)) := by
  intro u
  induction u with
  | zero =>
    intro htu _
    obtain rfl : t = 0 := by omega
    exact ⟨Nat.le_refl _, fun _ hv => hv, fun hw => hw⟩
  | succ u ih =>
    intro htu hun
    by_cases heq : t = u + 1
    · subst heq
      exact ⟨Nat.le_refl _, fun _ hv => hv, fun hw => hw⟩
    · obtain ⟨h1, h2, h3⟩ := ih (by omega) (by omega)
      obtain ⟨ins, outs, -, -, -, -, g⟩ := hstep u (by omega)
      refine ⟨Nat.le_trans h1 g.nextId, fun v hv => ?_, fun hw => g.wellFormed (h3 hw)⟩
      rw [g.added]
      exact List.mem_append_left _ (h2 v hv)

/-- Along a sequence of wrap steps, every `Binding` decoration is one of the first state
or that of a buffer of one of the steps. -/
theorem wrapSteps_bindings (cnt : Nat → Nat) (seq : Nat → St) (n : Nat)
    (hstep : ∀ t, t < n → ∃ ins outs, IsWrapStep (cnt t) ins outs (seq t) (seq (t + 1))) :
    ∀ u, u ≤ n → ∀ x ∈ (seq u).2.bindings,
      x ∈ (seq 0).2.bindings ∨
      ∃ t, t < u ∧ ∃ (ins outs : List (Instruction × Nat)) (p : Instruction × Nat),
        IsWrapStep (cnt t) ins outs (seq t) (seq (t + 1)) ∧ p ∈ ins ++ outs ∧
        x = (p.1.id, [p.2]) := by
  intro u
  induction u with
  | zero =>
    intro _ x hx
    exact Or.inl hx
  | succ u ih =>
    intro hun x hx
    obtain ⟨ins, outs, hio⟩ := hstep u (by omega)
    rw [hio.2.2.2.2.bindings] at hx
    rcases List.mem_append.mp hx with hx | hx
    · rcases ih (by omega) x hx with h | ⟨t, ht, h⟩
      · exact Or.inl h
      · exact Or.inr ⟨t, by omega, h⟩
    · obtain ⟨p, hp, rfl⟩ := List.mem_map.mp hx
      exact Or.inr ⟨u, by omega, ins, outs, p, hio, hp, rfl⟩

/-- C19 (amended): let `DecorateGlobalBuffer` run in a well-formed state `s0` and the
calls of `AddWrapper` for all exported kernels return true one after the other through
the states `seq 0`, `seq 1`, .. (the loop of `AddGLComputeWrappers` then ends in the last
of them). Two distinct variables of the final module carry the same `Binding` value
only in one of these ways: one of the two decorations was in the module before the run;
or the two variables are buffers that the calls for two different kernels added, both
output buffers (binding 1) or both buffers of an input position i that both kernels
have (binding i + 2); or one is the variable that global allocation j names (binding
3 + j) and the other is the buffer of input position j + 1 of a kernel. In particular,
for a module without `Binding` decoration, at most one exported kernel, and at most one
input or no global allocation, no two distinct variables carry the same binding. -/
theorem C19_binding_collisions (E : Externals) (LM : LLVM.Module) (metadata : MetadataExtractor)
    (s0 : St) (d : Bool) (seq : Nat → St)
    (hwf : WellFormed s0)
    (hd : (DecorateGlobalBuffer E LM).run s0 = some (d, seq 0))
    (hc : ∀ t, t < metadata.getExportForEachSignatureCount →
      (AddWrapper E (metadata.getExportForEachNameList t)
        (metadata.getExportForEachSignatureList t)
        (metadata.getExportForEachInputCountList t)).run (seq t) = some (true, seq (t + 1))) :
    (AddGLComputeWrappers.wrapKernels E metadata metadata.getExportForEachSignatureCount 0).run
        (seq 0) = some (true, seq metadata.getExportForEachSignatureCount) ∧
    (∀ v ∈ (seq metadata.getExportForEachSignatureCount).2.variables,
      ∀ w ∈ (seq metadata.getExportForEachSignatureCount).2.variables, v ≠ w →
      ∀ ex,
        DecorateInst.Decorate v.id Decoration.Binding ex
          ∈ (seq metadata.getExportForEachSignatureCount).2.decorations →
        DecorateInst.Decorate w.id Decoration.Binding ex
          ∈ (seq metadata.getExportForEachSignatureCount).2.decorations →
        (DecorateInst.Decorate v.id Decoration.Binding ex ∈ s0.2.decorations ∨
          DecorateInst.Decorate w.id Decoration.Binding ex ∈ s0.2.decorations) ∨
        (∃ t u, t < metadata.getExportForEachSignatureCount ∧
          u < metadata.getExportForEachSignatureCount ∧ t ≠ u ∧
          (v ∈ (seq (t + 1)).2.variables ∧ v ∉ (seq t).2.variables) ∧
          (w ∈ (seq (u + 1)).2.variables ∧ w ∉ (seq u).2.variables) ∧
          (ex = [1] ∨ ∃ i, ex = [i + 2] ∧ i < metadata.getExportForEachInputCountList t ∧
            i < metadata.getExportForEachInputCountList u)) ∨
        (∃ (RSAllocs : List RSAllocationInfo) (j : Nat) (A : RSAllocationInfo) (t : Nat),
          E.getRSAllocationInfo LM = some RSAllocs ∧ RSAllocs[j]? = some A ∧
          s0.2.lookupByName A.VarName = some v.id ∧ ex = [3 + j] ∧
          t < metadata.getExportForEachSignatureCount ∧
          j + 1 < metadata.getExportForEachInputCountList t ∧
          (seq (t + 1)).2.variables[(seq t).2.variables.length + (j + 1)]? = some w) ∨
        (∃ (RSAllocs : List RSAllocationInfo) (j : Nat) (A : RSAllocationInfo) (t : Nat),
          E.getRSAllocationInfo LM = some RSAllocs ∧ RSAllocs[j]? = some A ∧
          s0.2.lookupByName A.VarName = some w.id ∧ ex = [3 + j] ∧
          t < metadata.getExportForEachSignatureCount ∧
          j + 1 < metadata.getExportForEachInputCountList t ∧
          (seq (t + 1)).2.variables[(seq t).2.variables.length + (j + 1)]? = some v)) ∧
    ((∀ t ex, DecorateInst.Decorate t Decoration.Binding ex ∉ s0.2.decorations) →
      metadata.getExportForEachSignatureCount ≤ 1 →
      ((∀ t, t < metadata.getExportForEachSignatureCount →
          metadata.getExportForEachInputCountList t ≤ 1) ∨
        (∀ RSAllocs, E.getRSAllocationInfo LM = some RSAllocs → RSAllocs = [])) →
      DistinctBindings (seq metadata.getExportForEachSignatureCount).2) := by
  have hloop := AddGLComputeWrappers.wrapKernels_chain E metadata
    metadata.getExportForEachSignatureCount 0 seq
    (fun j hj => by rw [Nat.zero_add]; exact hc j hj)
  generalize metadata.getExportForEachSignatureCount = n at hc hloop ⊢
  have hstep : ∀ t, t < n → ∃ ins outs,
      IsWrapStep (metadata.getExportForEachInputCountList t) ins outs (seq t) (seq (t + 1)) :=
    fun t ht => AddWrapper_grows (hc t ht)
  obtain ⟨D, hD, hDB⟩ := DecorateGlobalBuffer_frame hd
  have hwf0 : WellFormed (seq 0) := by
    rw [hD]
    exact withDecorations_wellFormed D hwf
  have hwfn : ∀ t, t ≤ n → WellFormed (seq t) := fun t ht =>
    (wrapSteps_mono _ seq n hstep 0 t (Nat.zero_le _) ht).2.2 hwf0
  have hvars : ∀ t, t ≤ n → ∀ v ∈ (seq t).2.variables, v ∈ (seq n).2.variables := fun t ht =>
    (wrapSteps_mono _ seq n hstep t n ht (Nat.le_refl _)).2.1
  -- where a binding of a variable of the final module comes from
  have hclass : ∀ v ∈ (seq n).2.variables, ∀ ex,
      DecorateInst.Decorate v.id Decoration.Binding ex ∈ (seq n).2.decorations →
      DecorateInst.Decorate v.id Decoration.Binding ex ∈ s0.2.decorations ∨
      (s0.2.lookupByName "__GPUBlock" = some v.id ∧ ex = [0]) ∨
      (∃ (RSAllocs : List RSAllocationInfo) (j : Nat) (A : RSAllocationInfo),
        E.getRSAllocationInfo LM = some RSAllocs ∧ RSAllocs[j]? = some A ∧
        s0.2.lookupByName A.VarName = some v.id ∧ ex = [3 + j]) ∨
      (∃ t, t < n ∧ ∃ (ins outs : List (Instruction × Nat)) (p : Instruction × Nat),
        IsWrapStep (metadata.getExportForEachInputCountList t) ins outs (seq t) (seq (t + 1)) ∧
        p ∈ ins ++ outs ∧ p.1 = v ∧ ex = [p.2]) := by
    intro v hv ex hdec
    rcases wrapSteps_bindings _ seq n hstep n (Nat.le_refl _) _ (Module.mem_bindings.mpr hdec)
      with h | ⟨t, ht, ins, outs, p, hio, hp, hx⟩
    · have h1 := Module.mem_bindings.mp h
      rw [hD] at h1
      rcases List.mem_append.mp h1 with h1 | h1
      · exact Or.inl h1
      · rcases hDB _ _ h1 with h2 | h2
        · exact Or.inr (Or.inl h2)
        · exact Or.inr (Or.inr (Or.inl h2))
    · simp only [Prod.mk.injEq] at hx
      have hpv : p.1 = v :=
        (hwfn n (Nat.le_refl _)).variable_eq (hvars (t + 1) (by omega) _ (hio.added hp).1) hv
          hx.1.symm
      exact Or.inr (Or.inr (Or.inr ⟨t, ht, ins, outs, p, hio, hp, hpv, hx.2⟩))
  -- an allocation and a buffer of a step
  have hmeet : ∀ (v w : Instruction) (ex : List Nat),
      (∃ (RSAllocs : List RSAllocationInfo) (j : Nat) (A : RSAllocationInfo),
        E.getRSAllocationInfo LM = some RSAllocs ∧ RSAllocs[j]? = some A ∧
        s0.2.lookupByName A.VarName = some v.id ∧ ex = [3 + j]) →
      (∃ t, t < n ∧ ∃ (ins outs : List (Instruction × Nat)) (p : Instruction × Nat),
        IsWrapStep (metadata.getExportForEachInputCountList t) ins outs (seq t) (seq (t + 1)) ∧
        p ∈ ins ++ outs ∧ p.1 = w ∧ ex = [p.2]) →
      ∃ (RSAllocs : List RSAllocationInfo) (j : Nat) (A : RSAllocationInfo) (t : Nat),
        E.getRSAllocationInfo LM = some RSAllocs ∧ RSAllocs[j]? = some A ∧
        s0.2.lookupByName A.VarName = some v.id ∧ ex = [3 + j] ∧ t < n ∧
        j + 1 < metadata.getExportForEachInputCountList t ∧
        (seq (t + 1)).2.variables[(seq t).2.variables.length + (j + 1)]? = some w := by
    rintro v w ex ⟨RSAllocs, j, A, ha, hj, hA, rfl⟩ ⟨t, ht, ins, outs, p, hio, hp, rfl, hex⟩
    simp only [List.cons.injEq, and_true] at hex
    rcases hio.kind hp with h1 | ⟨i, hi, hlt, hpos⟩
    · omega
    · obtain rfl : i = j + 1 := by omega
      exact ⟨RSAllocs, j, A, t, ha, hj, hA, rfl, ht, hlt, hpos⟩
  -- the aggregate and a buffer of a step
  have hagg : ∀ (w : Instruction) (ex : List Nat), ex = [0] →
      (∃ t, t < n ∧ ∃ (ins outs : List (Instruction × Nat)) (p : Instruction × Nat),
        IsWrapStep (metadata.getExportForEachInputCountList t) ins outs (seq t) (seq (t + 1)) ∧
        p ∈ ins ++ outs ∧ p.1 = w ∧ ex = [p.2]) → False := by
    rintro w ex rfl ⟨t, ht, ins, outs, p, hio, hp, rfl, hex⟩
    simp only [List.cons.injEq, and_true] at hex
    rcases hio.kind hp with h1 | ⟨i, hi, -, -⟩ <;> omega
  have hmain : ∀ v ∈ (seq n).2.variables, ∀ w ∈ (seq n).2.variables, v ≠ w → ∀ ex,
      DecorateInst.Decorate v.id Decoration.Binding ex ∈ (seq n).2.decorations →
      DecorateInst.Decorate w.id Decoration.Binding ex ∈ (seq n).2.decorations →
      (DecorateInst.Decorate v.id Decoration.Binding ex ∈ s0.2.decorations ∨
        DecorateInst.Decorate w.id Decoration.Binding ex ∈ s0.2.decorations) ∨
      (∃ t u, t < n ∧ u < n ∧ t ≠ u ∧
        (v ∈ (seq (t + 1)).2.variables ∧ v ∉ (seq t).2.variables) ∧
        (w ∈ (seq (u + 1)).2.variables ∧ w ∉ (seq u).2.variables) ∧
        (ex = [1] ∨ ∃ i, ex = [i + 2] ∧ i < metadata.getExportForEachInputCountList t ∧
          i < metadata.getExportForEachInputCountList u)) ∨
      (∃ (RSAllocs : List RSAllocationInfo) (j : Nat) (A : RSAllocationInfo) (t : Nat),
        E.getRSAllocationInfo LM = some RSAllocs ∧ RSAllocs[j]? = some A ∧
        s0.2.lookupByName A.VarName = some v.id ∧ ex = [3 + j] ∧ t < n ∧
        j + 1 < metadata.getExportForEachInputCountList t ∧
        (seq (t + 1)).2.variables[(seq t).2.variables.length + (j + 1)]? = some w) ∨
      (∃ (RSAllocs : List RSAllocationInfo) (j : Nat) (A : RSAllocationInfo) (t : Nat),
        E.getRSAllocationInfo LM = some RSAllocs ∧ RSAllocs[j]? = some A ∧
        s0.2.lookupByName A.VarName = some w.id ∧ ex = [3 + j] ∧ t < n ∧
        j + 1 < metadata.getExportForEachInputCountList t ∧
        (seq (t + 1)).2.variables[(seq t).2.variables.length + (j + 1)]? = some v) := by
    intro v hv w hw hne ex hbv hbw
    have hsame : v.id ≠ w.id := fun hid =>
      hne ((hwfn n (Nat.le_refl _)).variable_eq hv hw hid)
    rcases hclass v hv ex hbv with a | a | a | a
    · exact Or.inl (Or.inl a)
    · rcases hclass w hw ex hbw with b | b | b | b
      · exact Or.inl (Or.inr b)
      · rw [a.1] at b
        exact absurd (Option.some.inj b.1) hsame
      · obtain ⟨-, j, -, -, -, -, hex⟩ := b
        rw [a.2] at hex
        simp only [List.cons.injEq, and_true] at hex
        omega
      · exact (hagg w ex a.2 b).elim
    · rcases hclass w hw ex hbw with b | b | b | b
      · exact Or.inl (Or.inr b)
      · obtain ⟨-, j, -, -, -, -, hex⟩ := a
        rw [b.2] at hex
        simp only [List.cons.injEq, and_true] at hex
        omega
      · obtain ⟨l, j, A, hl, hj, hA, hex⟩ := a
        obtain ⟨l1, j1, A1, hl1, hj1, hA1, hex1⟩ := b
        rw [hex] at hex1
        simp only [List.cons.injEq, and_true] at hex1
        obtain rfl : j = j1 := by omega
        rw [hl] at hl1
        obtain rfl := Option.some.inj hl1
        rw [hj] at hj1
        obtain rfl := Option.some.inj hj1
        rw [hA] at hA1
        exact absurd (Option.some.inj hA1) hsame
      · exact Or.inr (Or.inr (Or.inl (hmeet v w ex a b)))
    · rcases hclass w hw ex hbw with b | b | b | b
      · exact Or.inl (Or.inr b)
      · exact (hagg v ex b.2 a).elim
      · exact Or.inr (Or.inr (Or.inr (hmeet w v ex b a)))
      · obtain ⟨t, ht, ins, outs, p, hio, hp, rfl, hex⟩ := a
        obtain ⟨u, hu, ins1, outs1, q, hio1, hq, rfl, hex1⟩ := b
        rw [hex] at hex1
        simp only [List.cons.injEq, and_true] at hex1
        by_cases htu : t = u
        · subst htu
          rw [← hio.unique hio1] at hq
          rw [hio.number_inj hp hq hex1] at hne
          exact absurd rfl hne
        · refine Or.inr (Or.inl ⟨t, u, ht, hu, htu,
            ⟨(hio.added hp).1, (hio.added hp).2 (hwfn t (by omega))⟩,
            ⟨(hio1.added hq).1, (hio1.added hq).2 (hwfn u (by omega))⟩, ?_⟩)
          rcases hio.kind hp with h1 | ⟨i, hi, hlt, -⟩
          · exact Or.inl (by rw [hex, h1])
          · rcases hio1.kind hq with h2 | ⟨i1, hi1, hlt1, -⟩
            · omega
            · obtain rfl : i = i1 := by omega
              exact Or.inr ⟨i, by rw [hex, hi], hlt, hlt1⟩
  refine ⟨hloop, hmain, ?_⟩
  intro hnone hn hcond v hv w hw hne _ _ ex hbv hbw
  rcases hmain v hv w hw hne ex hbv hbw with
    (h | h) | ⟨t, u, ht, hu, htu, -⟩ | ⟨l, j, A, t, hl, hj, -, -, ht, hlt, -⟩ |
      ⟨l, j, A, t, hl, hj, -, -, ht, hlt, -⟩
  · exact hnone _ _ h
  · exact hnone _ _ h
  · omega
  · rcases hcond with hcond | hcond
    · have := hcond t ht
      omega
    · rw [hcond l hl] at hj
      simp at hj
  · rcases hcond with hcond | hcond
    · have := hcond t ht
      omega
    · rw [hcond l hl] at hj
      simp at hj

/-- Witness of C19 (amended): the module with the global aggregate, the allocation
`alloc` and the kernel `foo`, exported with one input and an output: the aggregate has
the binding 0, the allocation 3, the input buffer 2 and the output buffer 1, and no two
distinct variables carry the same binding. -/
theorem C19_binding_collisions_witness :
    WellFormed (decorateState exampleAllocKernelModule) ∧
    (DecorateGlobalBuffer exampleAlloc exampleAllocLM).run
      (decorateState exampleAllocKernelModule) = some (true, exampleRun 0) ∧
    (AddGLComputeWrappers.wrapKernels exampleAlloc exampleOneInput 1 0).run (exampleRun 0)
      = some (true, exampleRun 1) ∧
    (exampleRun 1).2.bindings = [(4, [0]), (6, [3]), (42, [2]), (47, [1])] ∧
    (exampleRun 1).2.variables.map (fun v => v.id) = [4, 6, 42, 47] ∧
    DistinctBindings (exampleRun 1).2 := by
  have hwf : WellFormed (decorateState exampleAllocKernelModule) := by
    unfold WellFormed
    decide!
  have hd : (DecorateGlobalBuffer exampleAlloc exampleAllocLM).run
      (decorateState exampleAllocKernelModule) = some (true, exampleRun 0) := by decide!
  have h := C19_binding_collisions exampleAlloc exampleAllocLM exampleOneInput
    (decorateState exampleAllocKernelModule) true exampleRun hwf hd
    (fun t ht => by
      obtain rfl : t = 0 := by
        have : t < 1 := ht
        omega
      decide!)
  refine ⟨hwf, hd, h.1, by decide!, by decide!, h.2.2 ?_ (by decide)
    (Or.inl fun _ _ => Nat.le_refl 1)⟩
  intro t ex hm
  simp [decorateState, exampleAllocKernelModule, exampleAllocModule, AddHeader,
    FixGlobalStorageClass] at hm

end Spirit
